import Mathlib

/-!
# TelepathyQt4 `ContactManager`: feature registry, contact cache, acquisition
pipeline and roster gating

A shallow embedding of `TelepathyQt4/contact-manager.cpp`.  The private state of
the manager (`ContactManager::Private`) is an explicit record that every member
function takes and returns; the connection, the contact factory and the roster
are collaborators and appear as oracles.
-/

namespace Tp

/-! ## Qt containers -/

/-- A `QSet<T>`, kept as the list of its elements in iteration order. -/
abbrev QSet (α : Type) := List α

/-- Qt `QSet::contains`. -/
def QSet.contains {α : Type} [DecidableEq α] (s : QSet α) (x : α) : Bool :=
  decide (x ∈ s)

/-- Qt `QSet::insert`: inserting a value that is already there changes nothing. -/
def QSet.insert {α : Type} [DecidableEq α] (s : QSet α) (x : α) : QSet α :=
  if x ∈ s then s else s ++ [x]

/-- Qt `QSet::unite`: every item of `t` that is not yet in `s` is inserted. -/
def QSet.unite {α : Type} [DecidableEq α] (s t : QSet α) : QSet α :=
  t.foldl QSet.insert s

/-- Qt `QSet::operator-`: the items of `s` that are not in `t`. -/
def QSet.subtract {α : Type} [DecidableEq α] (s t : QSet α) : QSet α :=
  s.filter (fun x => !QSet.contains t x)

/-- Qt `QSet::isEmpty`. -/
def QSet.isEmpty {α : Type} (s : QSet α) : Bool :=
  List.isEmpty s

/-- A `QMap<K, V>`, kept as an association list with at most one live binding per key
(the first one found). -/
abbrev QMap (κ ν : Type) := List (κ × ν)

/-- Qt `QMap::value` as a lookup: the value bound to `k`, if any. -/
def QMap.find {κ ν : Type} [DecidableEq κ] : QMap κ ν → κ → Option ν
  | [], _ => none
  | (k', v) :: m, k => if k' = k then some v else QMap.find m k

/-- Qt `QMap::contains`. -/
def QMap.contains {κ ν : Type} [DecidableEq κ] (m : QMap κ ν) (k : κ) : Bool :=
  (QMap.find m k).isSome

/-- Qt `QMap::remove`: drops every binding of `k`. -/
def QMap.remove {κ ν : Type} [DecidableEq κ] (m : QMap κ ν) (k : κ) : QMap κ ν :=
  m.filter (fun p => !decide (p.1 = k))

/-- Qt `QMap::insert`: binds `k` to `v`, replacing a previous binding. -/
def QMap.insert {κ ν : Type} [DecidableEq κ] (m : QMap κ ν) (k : κ) (v : ν) : QMap κ ν :=
  (k, v) :: QMap.remove m k

/-- A `QWeakPointer<T>`: promoting it to a strong pointer gives the object while some
owner keeps it alive (`some`), and null once the last owner released it (`none`). -/
abbrev QWeakPointer (α : Type) := Option α

/-! ## Features and interface names -/

/-- Modelled from the spec: the `Feature` type and the `Contact::Feature*` constants are
declared outside the sources.  A feature is one of the eight tags the spec lists, or any
other feature value (the branches for an unknown feature take those). -/
inductive Feature where
  | FeatureAlias
  | FeatureAvatarToken
  | FeatureAvatarData
  | FeatureSimplePresence
  | FeatureCapabilities
  | FeatureLocation
  | FeatureInfo
  | FeatureRosterGroups
  | other (id : Nat)
  deriving DecidableEq, Repr

/-- The type `Tp::Features`, a `QSet<Feature>`. -/
abbrev Features := QSet Feature

/-- Modelled from the spec: the constant `TELEPATHY_INTERFACE_CONNECTION_INTERFACE_CONTACTS`
comes from the constants header, which is not among the sources; it names the aggregate
"contacts" interface. -/
def TELEPATHY_INTERFACE_CONNECTION_INTERFACE_CONTACTS : String :=
  "org.freedesktop.Telepathy.Connection.Interface.Contacts"

/-- Modelled from the spec: `TP_QT4_IFACE_CONNECTION_INTERFACE_ALIASING` (constants header,
not among the sources), the interface backing the alias feature. -/
def TP_QT4_IFACE_CONNECTION_INTERFACE_ALIASING : String :=
  "org.freedesktop.Telepathy.Connection.Interface.Aliasing"

/-- Modelled from the spec: `TP_QT4_IFACE_CONNECTION_INTERFACE_AVATARS` (constants header,
not among the sources), the interface backing both avatar features. -/
def TP_QT4_IFACE_CONNECTION_INTERFACE_AVATARS : String :=
  "org.freedesktop.Telepathy.Connection.Interface.Avatars"

/-- Modelled from the spec: `TP_QT4_IFACE_CONNECTION_INTERFACE_SIMPLE_PRESENCE` (constants
header, not among the sources), the interface backing the simple-presence feature. -/
def TP_QT4_IFACE_CONNECTION_INTERFACE_SIMPLE_PRESENCE : String :=
  "org.freedesktop.Telepathy.Connection.Interface.SimplePresence"

/-- Modelled from the spec: `TP_QT4_IFACE_CONNECTION_INTERFACE_CONTACT_CAPABILITIES`
(constants header, not among the sources), the interface backing the capabilities feature. -/
def TP_QT4_IFACE_CONNECTION_INTERFACE_CONTACT_CAPABILITIES : String :=
  "org.freedesktop.Telepathy.Connection.Interface.ContactCapabilities"

/-- Modelled from the spec: `TP_QT4_IFACE_CONNECTION_INTERFACE_LOCATION` (constants header,
not among the sources), the interface backing the location feature. -/
def TP_QT4_IFACE_CONNECTION_INTERFACE_LOCATION : String :=
  "org.freedesktop.Telepathy.Connection.Interface.Location"

/-- Modelled from the spec: `TP_QT4_IFACE_CONNECTION_INTERFACE_CONTACT_INFO` (constants
header, not among the sources), the interface backing the info feature. -/
def TP_QT4_IFACE_CONNECTION_INTERFACE_CONTACT_INFO : String :=
  "org.freedesktop.Telepathy.Connection.Interface.ContactInfo"

/-- Modelled from the spec: `TP_QT4_IFACE_CONNECTION_INTERFACE_CONTACT_GROUPS` (constants
header, not among the sources), the interface backing the roster-groups feature. -/
def TP_QT4_IFACE_CONNECTION_INTERFACE_CONTACT_GROUPS : String :=
  "org.freedesktop.Telepathy.Connection.Interface.ContactGroups"

/-- Modelled from the spec: `TELEPATHY_ERROR_NOT_AVAILABLE` (constants header, not among
the sources), the fixed "not available" error kind. -/
def TELEPATHY_ERROR_NOT_AVAILABLE : String :=
  "org.freedesktop.Telepathy.Error.NotAvailable"

/-- Source function `ContactManager::featureToInterface`.  The last branch also logs a warning; the
value it returns is the null `QString`. -/
def ContactManager.featureToInterface (feature : Feature) : String :=
  if feature = Feature.FeatureAlias then
    TP_QT4_IFACE_CONNECTION_INTERFACE_ALIASING
  else if feature = Feature.FeatureAvatarToken then
    TP_QT4_IFACE_CONNECTION_INTERFACE_AVATARS
  else if feature = Feature.FeatureAvatarData then
    TP_QT4_IFACE_CONNECTION_INTERFACE_AVATARS
  else if feature = Feature.FeatureSimplePresence then
    TP_QT4_IFACE_CONNECTION_INTERFACE_SIMPLE_PRESENCE
  else if feature = Feature.FeatureCapabilities then
    TP_QT4_IFACE_CONNECTION_INTERFACE_CONTACT_CAPABILITIES
  else if feature = Feature.FeatureLocation then
    TP_QT4_IFACE_CONNECTION_INTERFACE_LOCATION
  else if feature = Feature.FeatureInfo then
    TP_QT4_IFACE_CONNECTION_INTERFACE_CONTACT_INFO
  else if feature = Feature.FeatureRosterGroups then
    TP_QT4_IFACE_CONNECTION_INTERFACE_CONTACT_GROUPS
  else
    ""

/-! ## Collaborators -/

/-- Modelled from the spec: the readiness features of `Tp::Connection` (declared outside
the sources) that the manager asks about: core, roster and roster-groups. -/
inductive ConnectionFeature where
  | FeatureCore
  | FeatureRoster
  | FeatureRosterGroups
  deriving DecidableEq, Repr

/-- Modelled from the spec: the `Connection` class is declared outside the sources.  The
manager consults it as an oracle: `isValid()`, `isReady(feature)`, the advertised
`interfaces()`, `lowlevel()->contactAttributeInterfaces()`, the default features of
its contact factory, `contactFactory()->features()`, and the names `cmName()` and
`protocolName()` of its connection manager and protocol. -/
structure Connection where
  isValid : Bool
  isReady : ConnectionFeature → Bool
  interfaces : List String
  contactAttributeInterfaces : List String
  contactFactoryFeatures : Features
  cmName : String := ""
  protocolName : String := ""

/-- A `QByteArray`: the list of its bytes. -/
abbrev QByteArray := List Nat

/-- A `QVariantMap` of contact attributes, kept as a map from attribute names to printed
values. -/
abbrev QVariantMap := QMap String String

/-- Modelled from the spec: the struct `AvatarData` is declared outside the sources.  It is
built from a file name and a MIME type, `AvatarData(fileName, mimeType)`: the avatar is
referred to by the file that holds its content. -/
structure AvatarData where
  fileName : String
  mimeType : String
  deriving DecidableEq, Repr

/-- Modelled from the spec: the struct `AliasPair` of an `AliasesChanged` signal is declared
outside the sources: a handle and the new alias of its contact (the member `alias`, a
reserved word here, is the field `aliasName`). -/
structure AliasPair where
  handle : Nat
  aliasName : String
  deriving DecidableEq, Repr

/-- Modelled from the spec: the struct `SimplePresence` is declared outside the sources: a
presence type (the member `type`), a status name and a status message. -/
structure SimplePresence where
  presenceType : Nat
  status : String
  statusMessage : String
  deriving DecidableEq, Repr

/-- A `RequestableChannelClassList`, the capabilities of a contact, kept as the list of its
printed channel classes. -/
abbrev RequestableChannelClassList := List String

/-- Modelled from the spec: the struct `ContactInfoField` is declared outside the sources: a
field name, its parameters and its values. -/
structure ContactInfoField where
  fieldName : String
  parameters : List String
  fieldValue : List String
  deriving DecidableEq, Repr

/-- Modelled from the spec: the `Contact` class is declared outside the sources.  A contact
has a numeric handle (`handle()[0]`), the set of features requested on it so far
(`requestedFeatures()`), and per-feature payload, of which the manager reads the avatar
token (`isAvatarTokenKnown()`, `avatarToken()`) and writes the avatar token and data, the
alias, the presence, the capabilities, the location and the info fields. -/
structure Contact where
  handle : Nat
  requestedFeatures : Features
  isAvatarTokenKnown : Bool := false
  avatarToken : String := ""
  avatarData : AvatarData := { fileName := "", mimeType := "" }
  aliasName : String := ""
  presence : SimplePresence := { presenceType := 0, status := "", statusMessage := "" }
  capabilities : RequestableChannelClassList := []
  location : QVariantMap := []
  info : List ContactInfoField := []
  deriving DecidableEq, Repr

/-- Modelled from the spec: `Contact::setAvatarToken` is defined outside the sources; it
records the token as the contact's known avatar token. -/
def Contact.setAvatarToken (contact : Contact) (token : String) : Contact :=
  { contact with isAvatarTokenKnown := true, avatarToken := token }

/-- Modelled from the spec: `Contact::receiveAvatarData` is defined outside the sources; it
delivers an avatar to the contact, which keeps it as its avatar data. -/
def Contact.receiveAvatarData (contact : Contact) (avatar : AvatarData) : Contact :=
  { contact with avatarData := avatar }

/-- Modelled from the spec: `Contact::receiveAlias` is defined outside the sources; it
applies a new alias to the contact. -/
def Contact.receiveAlias (contact : Contact) (aliasName : String) : Contact :=
  { contact with aliasName := aliasName }

/-- Modelled from the spec: `Contact::receiveSimplePresence` is defined outside the sources;
it applies a new presence to the contact. -/
def Contact.receiveSimplePresence (contact : Contact) (presence : SimplePresence) :
    Contact :=
  { contact with presence := presence }

/-- Modelled from the spec: `Contact::receiveCapabilities` is defined outside the sources;
it applies new capabilities to the contact. -/
def Contact.receiveCapabilities (contact : Contact) (caps : RequestableChannelClassList) :
    Contact :=
  { contact with capabilities := caps }

/-- Modelled from the spec: `Contact::receiveAvatarToken` is defined outside the sources; it
applies a new avatar token to the contact, which then knows its token. -/
def Contact.receiveAvatarToken (contact : Contact) (token : String) : Contact :=
  contact.setAvatarToken token

/-- Modelled from the spec: `Contact::receiveLocation` is defined outside the sources; it
applies a new location to the contact. -/
def Contact.receiveLocation (contact : Contact) (location : QVariantMap) : Contact :=
  { contact with location := location }

/-- Modelled from the spec: `Contact::receiveInfo` is defined outside the sources; it
applies new info fields to the contact. -/
def Contact.receiveInfo (contact : Contact) (info : List ContactInfoField) : Contact :=
  { contact with info := info }

/-- The change-notification signals `ensureTracking` connects to. -/
inductive Signal where
  | AliasesChanged
  | AvatarRetrieved
  | AvatarUpdated
  | ContactCapabilitiesChanged
  | ContactInfoChanged
  | LocationUpdated
  | PresencesChanged
  deriving DecidableEq, Repr

/-! ## The manager's private state -/

/-- The struct `ContactManager::Private`: the contact cache, the tracked-feature map, the
memoized supported set and the avatar queue with its flag.  The remaining fields record
what the manager did to its surroundings: `connected` lists the signals connected so far,
`unknownFeatureWarnings` the features `ensureTracking` warned about, `flushTimers` counts
the `QTimer::singleShot(0, this, SLOT(doRequestAvatars()))` timers set and not yet fired,
`requestAvatarsCalls` lists the handle lists of the `RequestAvatars` calls issued so far,
and `constructedContacts` the contacts the factory constructed for this manager. -/
structure ContactManager.Private where
  contacts : QMap Nat (QWeakPointer Contact)
  tracking : QMap Feature Bool
  supportedFeatures : Features
  requestAvatarsQueue : List Nat
  requestAvatarsIdle : Bool
  connected : List Signal
  unknownFeatureWarnings : List Feature
  flushTimers : Nat
  requestAvatarsCalls : List (List Nat)
  constructedContacts : List Contact
  deriving DecidableEq, Repr

/-- The constructor `ContactManager::Private::Private`: every container starts empty.  It
has no initializer for `requestAvatarsIdle`, so the first value of that flag is whatever
the allocation holds; it is the argument here. -/
def ContactManager.Private.new (requestAvatarsIdle : Bool) : ContactManager.Private :=
  { contacts := [], tracking := [], supportedFeatures := [], requestAvatarsQueue := [],
    requestAvatarsIdle := requestAvatarsIdle, connected := [], unknownFeatureWarnings := [],
    flushTimers := 0, requestAvatarsCalls := [], constructedContacts := [] }

/-- The read `tracking[feature]` as a value: an absent key reads as `false`. -/
def ContactManager.Private.isTracked (mPriv : ContactManager.Private) (feature : Feature) :
    Bool :=
  (QMap.find mPriv.tracking feature).getD false

/-- After the early return of `ensureTracking`: connect the signal of `feature`, or warn
about an unknown feature, or do nothing for `FeatureRosterGroups`. -/
def ContactManager.Private.connectFeature (mPriv : ContactManager.Private)
    (feature : Feature) : ContactManager.Private :=
  if feature = Feature.FeatureAlias then
    { mPriv with connected := mPriv.connected ++ [Signal.AliasesChanged] }
  else if feature = Feature.FeatureAvatarData then
    { mPriv with connected := mPriv.connected ++ [Signal.AvatarRetrieved] }
  else if feature = Feature.FeatureAvatarToken then
    { mPriv with connected := mPriv.connected ++ [Signal.AvatarUpdated] }
  else if feature = Feature.FeatureCapabilities then
    { mPriv with connected := mPriv.connected ++ [Signal.ContactCapabilitiesChanged] }
  else if feature = Feature.FeatureInfo then
    { mPriv with connected := mPriv.connected ++ [Signal.ContactInfoChanged] }
  else if feature = Feature.FeatureLocation then
    { mPriv with connected := mPriv.connected ++ [Signal.LocationUpdated] }
  else if feature = Feature.FeatureSimplePresence then
    { mPriv with connected := mPriv.connected ++ [Signal.PresencesChanged] }
  else if feature = Feature.FeatureRosterGroups then
    mPriv
  else
    { mPriv with unknownFeatureWarnings := mPriv.unknownFeatureWarnings ++ [feature] }

/-- Source function `ContactManager::Private::ensureTracking`.  The read `tracking[feature]` that opens
the function leaves a `false` binding behind for an absent key; that binding is
overwritten by the final `tracking[feature] = true`, so only the final map is kept. -/
def ContactManager.Private.ensureTracking (mPriv : ContactManager.Private)
    (feature : Feature) : ContactManager.Private :=
  if mPriv.isTracked feature then
    mPriv
  else
    let mPriv1 := mPriv.connectFeature feature
    { mPriv1 with tracking := QMap.insert mPriv1.tracking feature true }

/-- The features `supportedFeatures` probes, in the order they are streamed in. -/
def ContactManager.allFeatures : Features :=
  [Feature.FeatureAlias, Feature.FeatureAvatarToken, Feature.FeatureAvatarData,
   Feature.FeatureSimplePresence, Feature.FeatureCapabilities, Feature.FeatureLocation,
   Feature.FeatureInfo]

/-- One turn of the `foreach (const Feature &feature, allFeatures)` loop of
`supportedFeatures`. -/
def ContactManager.probeFeature (interfaces : List String) (mPriv : ContactManager.Private)
    (feature : Feature) : ContactManager.Private :=
  if interfaces.contains (ContactManager.featureToInterface feature) then
    { mPriv with supportedFeatures := QSet.insert mPriv.supportedFeatures feature }
  else
    mPriv

/-- Source function `ContactManager::supportedFeatures`: the returned set and the state with the
memoized set filled in. -/
def ContactManager.supportedFeatures (conn : Connection) (mPriv : ContactManager.Private) :
    Features × ContactManager.Private :=
  if QSet.isEmpty mPriv.supportedFeatures &&
      conn.interfaces.contains TELEPATHY_INTERFACE_CONNECTION_INTERFACE_CONTACTS then
    let interfaces := conn.contactAttributeInterfaces
    let mPriv1 := ContactManager.allFeatures.foldl (ContactManager.probeFeature interfaces) mPriv
    (mPriv1.supportedFeatures, mPriv1)
  else
    (mPriv.supportedFeatures, mPriv)

/-- Source function `ContactManager::lookupContactByHandle`: the live contact cached for `handle`, if
any; a dangling entry is removed from the cache. -/
def ContactManager.lookupContactByHandle (mPriv : ContactManager.Private) (handle : Nat) :
    Option Contact × ContactManager.Private :=
  if QMap.contains mPriv.contacts handle then
    match (QMap.find mPriv.contacts handle).getD none with
    | some contact => (some contact, mPriv)
    | none => (none, { mPriv with contacts := QMap.remove mPriv.contacts handle })
  else
    (none, mPriv)

/-! ## The acquisition pipeline -/

/-- Which constructor of `PendingContacts` was used, with its first argument. -/
inductive PendingContacts.Request where
  | forHandles (handles : List Nat)
  | forIdentifiers (identifiers : List String)
  | forContacts (contacts : List Contact)
  deriving DecidableEq, Repr

/-- Modelled from the spec: the `PendingContacts` class is defined outside the sources; it
is the asynchronous result object of the three entry points.  The record keeps what the
constructor was handed: the request, the feature set, the interfaces to query, the
satisfying contacts, the other handles, and the error name and message (both empty
when the constructor is called without them). -/
structure PendingContacts where
  request : PendingContacts.Request
  features : Features
  interfaces : List String
  satisfyingContacts : QMap Nat Contact
  otherContacts : QSet Nat
  errorName : String
  errorMessage : String
  deriving DecidableEq, Repr

/-- Modelled from the spec: a `PendingContacts` built with an error name is an
immediately-failed result. -/
def PendingContacts.isFailed (p : PendingContacts) : Bool :=
  decide (p.errorName ≠ "")

/-- The constructor `PendingContacts(manager, handles, features, interfaces,
satisfyingContacts, otherContacts, errorName, errorMessage)`. -/
def PendingContacts.ofHandles (handles : List Nat) (features : Features)
    (interfaces : List String) (satisfyingContacts : QMap Nat Contact)
    (otherContacts : QSet Nat) (errorName errorMessage : String) : PendingContacts :=
  { request := PendingContacts.Request.forHandles handles, features := features,
    interfaces := interfaces, satisfyingContacts := satisfyingContacts,
    otherContacts := otherContacts, errorName := errorName, errorMessage := errorMessage }

/-- The constructor `PendingContacts(manager, identifiers, features, errorName,
errorMessage)`. -/
def PendingContacts.ofIdentifiers (identifiers : List String) (features : Features)
    (errorName errorMessage : String) : PendingContacts :=
  { request := PendingContacts.Request.forIdentifiers identifiers, features := features,
    interfaces := [], satisfyingContacts := [], otherContacts := [],
    errorName := errorName, errorMessage := errorMessage }

/-- The constructor `PendingContacts(manager, contacts, features, errorName,
errorMessage)`. -/
def PendingContacts.ofContacts (contacts : List Contact) (features : Features)
    (errorName errorMessage : String) : PendingContacts :=
  { request := PendingContacts.Request.forContacts contacts, features := features,
    interfaces := [], satisfyingContacts := [], otherContacts := [],
    errorName := errorName, errorMessage := errorMessage }

/-- The three locals the handle loop of `contactsForHandles` fills. -/
structure ContactManager.HandleScan where
  satisfyingContacts : QMap Nat Contact
  otherContacts : QSet Nat
  missingFeatures : Features
  deriving DecidableEq, Repr

/-- One turn of the `foreach (uint handle, handles)` loop of `contactsForHandles`. -/
def ContactManager.scanHandle (realFeatures : Features)
    (acc : ContactManager.HandleScan × ContactManager.Private) (handle : Nat) :
    ContactManager.HandleScan × ContactManager.Private :=
  let looked := ContactManager.lookupContactByHandle acc.2 handle
  match looked.1 with
  | some contact =>
    if QSet.isEmpty (QSet.subtract realFeatures contact.requestedFeatures) then
      ({ acc.1 with
          satisfyingContacts := QMap.insert acc.1.satisfyingContacts handle contact },
        looked.2)
    else
      ({ acc.1 with
          otherContacts := QSet.insert acc.1.otherContacts handle,
          missingFeatures := QSet.unite acc.1.missingFeatures
            (QSet.subtract realFeatures contact.requestedFeatures) },
        looked.2)
  | none =>
    ({ acc.1 with
        missingFeatures := realFeatures,
        otherContacts := QSet.insert acc.1.otherContacts handle },
      looked.2)

/-- The whole handle loop of `contactsForHandles`, from empty locals. -/
def ContactManager.scanHandles (realFeatures : Features) (handles : List Nat)
    (mPriv : ContactManager.Private) : ContactManager.HandleScan × ContactManager.Private :=
  handles.foldl (ContactManager.scanHandle realFeatures)
    ({ satisfyingContacts := [], otherContacts := [], missingFeatures := [] }, mPriv)

/-- One turn of the `foreach (const Feature &feature, missingFeatures)` loop of
`contactsForHandles`: tracking is ensured, and the backing interface is queried when
the feature is supported. -/
def ContactManager.collectInterface (supported : Features)
    (acc : QSet String × ContactManager.Private) (feature : Feature) :
    QSet String × ContactManager.Private :=
  let mPriv1 := acc.2.ensureTracking feature
  if QSet.contains supported feature then
    (QSet.insert acc.1 (ContactManager.featureToInterface feature), mPriv1)
  else
    (acc.1, mPriv1)

/-- Source function `ContactManager::contactsForHandles(const UIntList &, const Features &)`. -/
def ContactManager.contactsForHandles (conn : Connection) (handles : List Nat)
    (features : Features) (mPriv : ContactManager.Private) :
    PendingContacts × ContactManager.Private :=
  let realFeatures := QSet.unite features conn.contactFactoryFeatures
  if !conn.isValid then
    (PendingContacts.ofHandles handles realFeatures [] [] []
      TELEPATHY_ERROR_NOT_AVAILABLE "Connection is invalid", mPriv)
  else if !conn.isReady ConnectionFeature.FeatureCore then
    (PendingContacts.ofHandles handles realFeatures [] [] []
      TELEPATHY_ERROR_NOT_AVAILABLE "Connection::FeatureCore is not ready", mPriv)
  else
    let scanned := ContactManager.scanHandles realFeatures handles mPriv
    let supported := ContactManager.supportedFeatures conn scanned.2
    let collected := scanned.1.missingFeatures.foldl
      (ContactManager.collectInterface supported.1) ([], supported.2)
    (PendingContacts.ofHandles handles realFeatures collected.1
      scanned.1.satisfyingContacts scanned.1.otherContacts "" "", collected.2)

/-- Source function `ContactManager::contactsForIdentifiers`. -/
def ContactManager.contactsForIdentifiers (conn : Connection) (identifiers : List String)
    (features : Features) (mPriv : ContactManager.Private) :
    PendingContacts × ContactManager.Private :=
  if !conn.isValid then
    (PendingContacts.ofIdentifiers identifiers features
      TELEPATHY_ERROR_NOT_AVAILABLE "Connection is invalid", mPriv)
  else if !conn.isReady ConnectionFeature.FeatureCore then
    (PendingContacts.ofIdentifiers identifiers features
      TELEPATHY_ERROR_NOT_AVAILABLE "Connection::FeatureCore is not ready", mPriv)
  else
    let realFeatures := QSet.unite features conn.contactFactoryFeatures
    (PendingContacts.ofIdentifiers identifiers realFeatures "" "", mPriv)

/-- Source function `ContactManager::upgradeContacts`. -/
def ContactManager.upgradeContacts (conn : Connection) (contacts : List Contact)
    (features : Features) (mPriv : ContactManager.Private) :
    PendingContacts × ContactManager.Private :=
  if !conn.isValid then
    (PendingContacts.ofContacts contacts features
      TELEPATHY_ERROR_NOT_AVAILABLE "Connection is invalid", mPriv)
  else if !conn.isReady ConnectionFeature.FeatureCore then
    (PendingContacts.ofContacts contacts features
      TELEPATHY_ERROR_NOT_AVAILABLE "Connection::FeatureCore is not ready", mPriv)
  else
    (PendingContacts.ofContacts contacts features "" "", mPriv)

/-- The three acquisition entry points with their first argument. -/
inductive ContactManager.Acquisition where
  | contactsForHandles (handles : List Nat)
  | contactsForIdentifiers (identifiers : List String)
  | upgradeContacts (contacts : List Contact)
  deriving DecidableEq, Repr

/-- Calls the entry point named by `a`. -/
def ContactManager.Acquisition.run (conn : Connection) (a : ContactManager.Acquisition)
    (features : Features) (mPriv : ContactManager.Private) :
    PendingContacts × ContactManager.Private :=
  match a with
  | ContactManager.Acquisition.contactsForHandles handles =>
    ContactManager.contactsForHandles conn handles features mPriv
  | ContactManager.Acquisition.contactsForIdentifiers identifiers =>
    ContactManager.contactsForIdentifiers conn identifiers features mPriv
  | ContactManager.Acquisition.upgradeContacts contacts =>
    ContactManager.upgradeContacts conn contacts features mPriv

/-- The live contact the cache holds for `handle`: what `lookupContactByHandle` returns. -/
def ContactManager.Private.liveContact (mPriv : ContactManager.Private) (handle : Nat) :
    Option Contact :=
  (QMap.find mPriv.contacts handle).getD none

/-! ## Roster operations -/

/-- The two kinds of `PendingOperation` a roster mutation returns: a `PendingFailure`
built by the manager, or whatever the roster collaborator returned. -/
inductive PendingOperation (Op : Type) where
  | PendingFailure (errorName errorMessage : String)
  | fromRoster (op : Op)
  deriving DecidableEq, Repr

/-- Modelled from the spec: `ContactManager::Roster` is defined in an internal header that
is not among the sources.  It is a collaborator with its own state `σ`; each mutation
takes its arguments and returns a pending operation `Op` and the roster's new state. -/
structure ContactManager.Roster (σ Op : Type) where
  addGroup : String → σ → Op × σ
  removeGroup : String → σ → Op × σ
  addContactsToGroup : String → List Contact → σ → Op × σ
  removeContactsFromGroup : String → List Contact → σ → Op × σ
  requestPresenceSubscription : List Contact → String → σ → Op × σ
  removePresenceSubscription : List Contact → String → σ → Op × σ
  authorizePresencePublication : List Contact → String → σ → Op × σ
  removePresencePublication : List Contact → String → σ → Op × σ
  removeContacts : List Contact → String → σ → Op × σ
  blockContacts : List Contact → Bool → σ → Op × σ

/-- Source function `ContactManager::addGroup`. -/
def ContactManager.addGroup {σ Op : Type} (conn : Connection)
    (roster : ContactManager.Roster σ Op) (group : String) (r : σ) :
    PendingOperation Op × σ :=
  if !conn.isValid then
    (PendingOperation.PendingFailure TELEPATHY_ERROR_NOT_AVAILABLE
      "Connection is invalid", r)
  else if !conn.isReady ConnectionFeature.FeatureRosterGroups then
    (PendingOperation.PendingFailure TELEPATHY_ERROR_NOT_AVAILABLE
      "Connection::FeatureRosterGroups is not ready", r)
  else
    ((roster.addGroup group r).map PendingOperation.fromRoster id)

/-- Source function `ContactManager::removeGroup`. -/
def ContactManager.removeGroup {σ Op : Type} (conn : Connection)
    (roster : ContactManager.Roster σ Op) (group : String) (r : σ) :
    PendingOperation Op × σ :=
  if !conn.isValid then
    (PendingOperation.PendingFailure TELEPATHY_ERROR_NOT_AVAILABLE
      "Connection is invalid", r)
  else if !conn.isReady ConnectionFeature.FeatureRosterGroups then
    (PendingOperation.PendingFailure TELEPATHY_ERROR_NOT_AVAILABLE
      "Connection::FeatureRosterGroups is not ready", r)
  else
    ((roster.removeGroup group r).map PendingOperation.fromRoster id)

/-- Source function `ContactManager::addContactsToGroup`. -/
def ContactManager.addContactsToGroup {σ Op : Type} (conn : Connection)
    (roster : ContactManager.Roster σ Op) (group : String) (contacts : List Contact)
    (r : σ) : PendingOperation Op × σ :=
  if !conn.isValid then
    (PendingOperation.PendingFailure TELEPATHY_ERROR_NOT_AVAILABLE
      "Connection is invalid", r)
  else if !conn.isReady ConnectionFeature.FeatureRosterGroups then
    (PendingOperation.PendingFailure TELEPATHY_ERROR_NOT_AVAILABLE
      "Connection::FeatureRosterGroups is not ready", r)
  else
    ((roster.addContactsToGroup group contacts r).map PendingOperation.fromRoster id)

/-- Source function `ContactManager::removeContactsFromGroup`. -/
def ContactManager.removeContactsFromGroup {σ Op : Type} (conn : Connection)
    (roster : ContactManager.Roster σ Op) (group : String) (contacts : List Contact)
    (r : σ) : PendingOperation Op × σ :=
  if !conn.isValid then
    (PendingOperation.PendingFailure TELEPATHY_ERROR_NOT_AVAILABLE
      "Connection is invalid", r)
  else if !conn.isReady ConnectionFeature.FeatureRosterGroups then
    (PendingOperation.PendingFailure TELEPATHY_ERROR_NOT_AVAILABLE
      "Connection::FeatureRosterGroups is not ready", r)
  else
    ((roster.removeContactsFromGroup group contacts r).map PendingOperation.fromRoster id)

/-- Source function `ContactManager::requestPresenceSubscription`. -/
def ContactManager.requestPresenceSubscription {σ Op : Type} (conn : Connection)
    (roster : ContactManager.Roster σ Op) (contacts : List Contact) (message : String)
    (r : σ) : PendingOperation Op × σ :=
  if !conn.isValid then
    (PendingOperation.PendingFailure TELEPATHY_ERROR_NOT_AVAILABLE
      "Connection is invalid", r)
  else if !conn.isReady ConnectionFeature.FeatureRoster then
    (PendingOperation.PendingFailure TELEPATHY_ERROR_NOT_AVAILABLE
      "Connection::FeatureRoster is not ready", r)
  else
    ((roster.requestPresenceSubscription contacts message r).map
      PendingOperation.fromRoster id)

/-- Source function `ContactManager::removePresenceSubscription`. -/
def ContactManager.removePresenceSubscription {σ Op : Type} (conn : Connection)
    (roster : ContactManager.Roster σ Op) (contacts : List Contact) (message : String)
    (r : σ) : PendingOperation Op × σ :=
  if !conn.isValid then
    (PendingOperation.PendingFailure TELEPATHY_ERROR_NOT_AVAILABLE
      "Connection is invalid", r)
  else if !conn.isReady ConnectionFeature.FeatureRoster then
    (PendingOperation.PendingFailure TELEPATHY_ERROR_NOT_AVAILABLE
      "Connection::FeatureRoster is not ready", r)
  else
    ((roster.removePresenceSubscription contacts message r).map
      PendingOperation.fromRoster id)

/-- Source function `ContactManager::authorizePresencePublication`. -/
def ContactManager.authorizePresencePublication {σ Op : Type} (conn : Connection)
    (roster : ContactManager.Roster σ Op) (contacts : List Contact) (message : String)
    (r : σ) : PendingOperation Op × σ :=
  if !conn.isValid then
    (PendingOperation.PendingFailure TELEPATHY_ERROR_NOT_AVAILABLE
      "Connection is invalid", r)
  else if !conn.isReady ConnectionFeature.FeatureRoster then
    (PendingOperation.PendingFailure TELEPATHY_ERROR_NOT_AVAILABLE
      "Connection::FeatureRoster is not ready", r)
  else
    ((roster.authorizePresencePublication contacts message r).map
      PendingOperation.fromRoster id)

/-- Source function `ContactManager::removePresencePublication`. -/
def ContactManager.removePresencePublication {σ Op : Type} (conn : Connection)
    (roster : ContactManager.Roster σ Op) (contacts : List Contact) (message : String)
    (r : σ) : PendingOperation Op × σ :=
  if !conn.isValid then
    (PendingOperation.PendingFailure TELEPATHY_ERROR_NOT_AVAILABLE
      "Connection is invalid", r)
  else if !conn.isReady ConnectionFeature.FeatureRoster then
    (PendingOperation.PendingFailure TELEPATHY_ERROR_NOT_AVAILABLE
      "Connection::FeatureRoster is not ready", r)
  else
    ((roster.removePresencePublication contacts message r).map
      PendingOperation.fromRoster id)

/-- Source function `ContactManager::removeContacts`. -/
def ContactManager.removeContacts {σ Op : Type} (conn : Connection)
    (roster : ContactManager.Roster σ Op) (contacts : List Contact) (message : String)
    (r : σ) : PendingOperation Op × σ :=
  if !conn.isValid then
    (PendingOperation.PendingFailure TELEPATHY_ERROR_NOT_AVAILABLE
      "Connection is invalid", r)
  else if !conn.isReady ConnectionFeature.FeatureRoster then
    (PendingOperation.PendingFailure TELEPATHY_ERROR_NOT_AVAILABLE
      "Connection::FeatureRoster is not ready", r)
  else
    ((roster.removeContacts contacts message r).map PendingOperation.fromRoster id)

/-- Source function `ContactManager::blockContacts`. -/
def ContactManager.blockContacts {σ Op : Type} (conn : Connection)
    (roster : ContactManager.Roster σ Op) (contacts : List Contact) (value : Bool)
    (r : σ) : PendingOperation Op × σ :=
  if !conn.isValid then
    (PendingOperation.PendingFailure TELEPATHY_ERROR_NOT_AVAILABLE
      "Connection is invalid", r)
  else if !conn.isReady ConnectionFeature.FeatureRoster then
    (PendingOperation.PendingFailure TELEPATHY_ERROR_NOT_AVAILABLE
      "Connection::FeatureRoster is not ready", r)
  else
    ((roster.blockContacts contacts value r).map PendingOperation.fromRoster id)

/-- A call of one of the ten roster mutations, with its arguments. -/
inductive RosterCall where
  | addGroup (group : String)
  | removeGroup (group : String)
  | addContactsToGroup (group : String) (contacts : List Contact)
  | removeContactsFromGroup (group : String) (contacts : List Contact)
  | requestPresenceSubscription (contacts : List Contact) (message : String)
  | removePresenceSubscription (contacts : List Contact) (message : String)
  | authorizePresencePublication (contacts : List Contact) (message : String)
  | removePresencePublication (contacts : List Contact) (message : String)
  | removeContacts (contacts : List Contact) (message : String)
  | blockContacts (contacts : List Contact) (value : Bool)
  deriving DecidableEq, Repr

/-- The call made on the manager: dispatches to the member function of that name. -/
def ContactManager.call {σ Op : Type} (conn : Connection)
    (roster : ContactManager.Roster σ Op) (c : RosterCall) (r : σ) :
    PendingOperation Op × σ :=
  match c with
  | RosterCall.addGroup group => ContactManager.addGroup conn roster group r
  | RosterCall.removeGroup group => ContactManager.removeGroup conn roster group r
  | RosterCall.addContactsToGroup group contacts =>
    ContactManager.addContactsToGroup conn roster group contacts r
  | RosterCall.removeContactsFromGroup group contacts =>
    ContactManager.removeContactsFromGroup conn roster group contacts r
  | RosterCall.requestPresenceSubscription contacts message =>
    ContactManager.requestPresenceSubscription conn roster contacts message r
  | RosterCall.removePresenceSubscription contacts message =>
    ContactManager.removePresenceSubscription conn roster contacts message r
  | RosterCall.authorizePresencePublication contacts message =>
    ContactManager.authorizePresencePublication conn roster contacts message r
  | RosterCall.removePresencePublication contacts message =>
    ContactManager.removePresencePublication conn roster contacts message r
  | RosterCall.removeContacts contacts message =>
    ContactManager.removeContacts conn roster contacts message r
  | RosterCall.blockContacts contacts value =>
    ContactManager.blockContacts conn roster contacts value r

/-- The same call made directly on the roster collaborator, arguments unchanged. -/
def ContactManager.Roster.call {σ Op : Type} (roster : ContactManager.Roster σ Op)
    (c : RosterCall) (r : σ) : Op × σ :=
  match c with
  | RosterCall.addGroup group => roster.addGroup group r
  | RosterCall.removeGroup group => roster.removeGroup group r
  | RosterCall.addContactsToGroup group contacts => roster.addContactsToGroup group contacts r
  | RosterCall.removeContactsFromGroup group contacts =>
    roster.removeContactsFromGroup group contacts r
  | RosterCall.requestPresenceSubscription contacts message =>
    roster.requestPresenceSubscription contacts message r
  | RosterCall.removePresenceSubscription contacts message =>
    roster.removePresenceSubscription contacts message r
  | RosterCall.authorizePresencePublication contacts message =>
    roster.authorizePresencePublication contacts message r
  | RosterCall.removePresencePublication contacts message =>
    roster.removePresencePublication contacts message r
  | RosterCall.removeContacts contacts message => roster.removeContacts contacts message r
  | RosterCall.blockContacts contacts value => roster.blockContacts contacts value r

/-- The readiness feature the specification requires for each roster mutation:
roster-groups for the four group operations, roster for the six others. -/
def RosterCall.requiredFeature : RosterCall → ConnectionFeature
  | RosterCall.addGroup _ => ConnectionFeature.FeatureRosterGroups
  | RosterCall.removeGroup _ => ConnectionFeature.FeatureRosterGroups
  | RosterCall.addContactsToGroup _ _ => ConnectionFeature.FeatureRosterGroups
  | RosterCall.removeContactsFromGroup _ _ => ConnectionFeature.FeatureRosterGroups
  | _ => ConnectionFeature.FeatureRoster

/-- The reason that identifies a readiness feature as missing. -/
def ConnectionFeature.notReadyReason : ConnectionFeature → String
  | ConnectionFeature.FeatureCore => "Connection::FeatureCore is not ready"
  | ConnectionFeature.FeatureRoster => "Connection::FeatureRoster is not ready"
  | ConnectionFeature.FeatureRosterGroups => "Connection::FeatureRosterGroups is not ready"

/-- A roster that only records the calls reaching it: its state is the list of calls
received so far, and each call returns itself as its result. -/
def spyRoster : ContactManager.Roster (List RosterCall) RosterCall :=
  { addGroup := fun group log =>
      (RosterCall.addGroup group, log ++ [RosterCall.addGroup group]),
    removeGroup := fun group log =>
      (RosterCall.removeGroup group, log ++ [RosterCall.removeGroup group]),
    addContactsToGroup := fun group contacts log =>
      (RosterCall.addContactsToGroup group contacts,
        log ++ [RosterCall.addContactsToGroup group contacts]),
    removeContactsFromGroup := fun group contacts log =>
      (RosterCall.removeContactsFromGroup group contacts,
        log ++ [RosterCall.removeContactsFromGroup group contacts]),
    requestPresenceSubscription := fun contacts message log =>
      (RosterCall.requestPresenceSubscription contacts message,
        log ++ [RosterCall.requestPresenceSubscription contacts message]),
    removePresenceSubscription := fun contacts message log =>
      (RosterCall.removePresenceSubscription contacts message,
        log ++ [RosterCall.removePresenceSubscription contacts message]),
    authorizePresencePublication := fun contacts message log =>
      (RosterCall.authorizePresencePublication contacts message,
        log ++ [RosterCall.authorizePresencePublication contacts message]),
    removePresencePublication := fun contacts message log =>
      (RosterCall.removePresencePublication contacts message,
        log ++ [RosterCall.removePresencePublication contacts message]),
    removeContacts := fun contacts message log =>
      (RosterCall.removeContacts contacts message,
        log ++ [RosterCall.removeContacts contacts message]),
    blockContacts := fun contacts value log =>
      (RosterCall.blockContacts contacts value,
        log ++ [RosterCall.blockContacts contacts value]) }

/-! ## The contact cache: insert or merge -/

/-- Modelled from the spec: the contact factory (`connection()->contactFactory()`) is
defined outside the sources.  Its `construct` builds the contact for a handle with a
feature set and attributes (the manager argument is this manager). -/
structure ContactFactory where
  construct : Nat → Features → QVariantMap → Contact

/-- A call made on the contact object the cache entry of `handle` points to.  The cache
keeps contacts by value, so what the call does to the object shows in the entry; a
dangling entry and the entries of other handles are left as they are. -/
def ContactManager.Private.updateContact (mPriv : ContactManager.Private) (handle : Nat)
    (f : Contact → Contact) : ContactManager.Private :=
  { mPriv with
    contacts := mPriv.contacts.map
      (fun p => (p.1, if p.1 = handle then Option.map f p.2 else p.2)) }

/-- Source function `ContactManager::ensureContact`, for the one-handle `ReferencedHandles`
whose bare handle is `handle`.  The function `augment` stands for `Contact::augment`,
defined outside the sources: it gives the contact after the merge of features and
attributes. -/
def ContactManager.ensureContact (factory : ContactFactory)
    (augment : Contact → Features → QVariantMap → Contact)
    (mPriv : ContactManager.Private) (handle : Nat) (features : Features)
    (attributes : QVariantMap) : Contact × ContactManager.Private :=
  let looked := ContactManager.lookupContactByHandle mPriv handle
  match looked.1 with
  | none =>
    let contact := factory.construct handle features attributes
    (contact,
      { looked.2 with
        contacts := QMap.insert looked.2.contacts handle (some contact),
        constructedContacts := looked.2.constructedContacts ++ [contact] })
  | some contact =>
    (augment contact features attributes,
      looked.2.updateContact handle (fun c => augment c features attributes))

/-! ## The avatar disk cache and the request batcher -/

/-- The files of the avatar cache directory tree: a map from path to content. -/
abbrev Disk := QMap String QByteArray

/-- Modelled from the spec: what `buildAvatarFileName` and the avatar handlers take from
their surroundings, none of it defined in the sources: the environment variables
`XDG_CACHE_HOME` and `HOME`, the helper `escapeAsIdentifier`, whether `QDir().mkpath`
succeeds for a path, and whether `QFile::open(QIODevice::WriteOnly)` succeeds for a
path. -/
structure CacheEnvironment where
  XDG_CACHE_HOME : String
  HOME : String
  escapeAsIdentifier : String → String
  mkpath : String → Bool
  canWrite : String → Bool

/-- Qt `QString::toLatin1`: a character above U+00FF becomes a question mark (two of them
when it takes two UTF-16 code units). -/
def QString.toLatin1 (s : String) : QByteArray :=
  s.toList.flatMap (fun c =>
    if c.toNat > 65535 then [63, 63] else if c.toNat > 255 then [63] else [c.toNat])

/-- Qt `QString(QLatin1String(bytes))`: the bytes up to the first NUL, read as Latin-1. -/
def QString.fromLatin1 (bytes : QByteArray) : String :=
  String.mk ((bytes.takeWhile (fun b => !decide (b = 0))).map Char.ofNat)

/-- Qt `QFile::exists`. -/
def QFile.exists (files : Disk) (path : String) : Bool :=
  QMap.contains files path

/-- Qt `QFile::open(QIODevice::ReadOnly)` then `readAll` then `close`: the content of the
file; opening an absent file fails and `readAll` then returns no byte. -/
def QFile.readAll (files : Disk) (path : String) : QByteArray :=
  (QMap.find files path).getD []

/-- Qt `QFile::open(QIODevice::WriteOnly)` then `write` then `close`: the file holds `data`
afterwards; when the file cannot be opened nothing is written. -/
def QFile.write (env : CacheEnvironment) (files : Disk) (path : String)
    (data : QByteArray) : Disk :=
  if env.canWrite path then QMap.insert files path data else files

/-- The directory `path` that `buildAvatarFileName` computes from the environment and the
connection: the cache directory (`XDG_CACHE_HOME`, or `.cache` under `HOME` when that is
empty), then `telepathy/avatars`, the connection manager name and the protocol name. -/
def ContactManager.Private.avatarCachePath (env : CacheEnvironment) (conn : Connection) :
    String :=
  let cacheDir :=
    if env.XDG_CACHE_HOME = "" then env.HOME ++ "/.cache" else env.XDG_CACHE_HOME
  cacheDir ++ "/telepathy/avatars/" ++ conn.cmName ++ "/" ++ conn.protocolName

/-- Source function `ContactManager::Private::buildAvatarFileName`.  The two out-parameters
come in as `avatarFileName` and `mimeTypeFileName` and go out, with the result, as the
second and third component.  The `QString::arg` substitutions are written as
concatenations, which they are when the inserted strings hold no place marker. -/
def ContactManager.Private.buildAvatarFileName (env : CacheEnvironment) (conn : Connection)
    (token : String) (createDir : Bool) (avatarFileName mimeTypeFileName : String) :
    Bool × String × String :=
  let path := ContactManager.Private.avatarCachePath env conn
  if createDir && !env.mkpath path then
    (false, avatarFileName, mimeTypeFileName)
  else
    (true, path ++ "/" ++ env.escapeAsIdentifier token,
      (path ++ "/" ++ env.escapeAsIdentifier token) ++ ".mime")

/-- The blob file name `buildAvatarFileName` gives for a token when it creates nothing. -/
def ContactManager.Private.avatarFileName (env : CacheEnvironment) (conn : Connection)
    (token : String) : String :=
  (ContactManager.Private.buildAvatarFileName env conn token false "" "").2.1

/-- The MIME-type file name `buildAvatarFileName` gives for a token when it creates
nothing. -/
def ContactManager.Private.mimeTypeFileName (env : CacheEnvironment) (conn : Connection)
    (token : String) : String :=
  (ContactManager.Private.buildAvatarFileName env conn token false "" "").2.2

/-- Source function `ContactManager::requestContactAvatar`: the contact after the call and
the manager's state after the call. -/
def ContactManager.requestContactAvatar (env : CacheEnvironment) (conn : Connection)
    (files : Disk) (contact : Contact) (mPriv : ContactManager.Private) :
    Contact × ContactManager.Private :=
  let built :=
    if contact.isAvatarTokenKnown then
      ContactManager.Private.buildAvatarFileName env conn contact.avatarToken false "" ""
    else (false, "", "")
  if built.1 && QFile.exists files built.2.1 then
    let mimeType := QString.fromLatin1 (QFile.readAll files built.2.2)
    (contact.receiveAvatarData { fileName := built.2.1, mimeType := mimeType }, mPriv)
  else
    let mPriv1 :=
      if !mPriv.requestAvatarsIdle then
        { mPriv with flushTimers := mPriv.flushTimers + 1, requestAvatarsIdle := true }
      else mPriv
    (contact,
      { mPriv1 with requestAvatarsQueue := mPriv1.requestAvatarsQueue ++ [contact.handle] })

/-- Source function `ContactManager::doRequestAvatars`. -/
def ContactManager.doRequestAvatars (mPriv : ContactManager.Private) :
    ContactManager.Private :=
  { mPriv with
    requestAvatarsCalls := mPriv.requestAvatarsCalls ++ [mPriv.requestAvatarsQueue],
    requestAvatarsQueue := [],
    requestAvatarsIdle := false }

/-- The event loop fires one pending flush timer, which runs the slot `doRequestAvatars`;
with no timer pending nothing happens. -/
def ContactManager.fireFlushTimer (mPriv : ContactManager.Private) :
    ContactManager.Private :=
  if mPriv.flushTimers = 0 then mPriv
  else ContactManager.doRequestAvatars { mPriv with flushTimers := mPriv.flushTimers - 1 }

/-- Source function `ContactManager::onAvatarRetrieved`: the disk and the manager's state
after the handler. -/
def ContactManager.onAvatarRetrieved (env : CacheEnvironment) (conn : Connection)
    (files : Disk) (handle : Nat) (token : String) (data : QByteArray) (mimeType : String)
    (mPriv : ContactManager.Private) : Disk × ContactManager.Private :=
  let built := ContactManager.Private.buildAvatarFileName env conn token true "" ""
  let files1 :=
    if built.1 then
      QFile.write env (QFile.write env files built.2.2 (QString.toLatin1 mimeType))
        built.2.1 data
    else files
  let looked := ContactManager.lookupContactByHandle mPriv handle
  match looked.1 with
  | some _ =>
    (files1,
      looked.2.updateContact handle (fun c =>
        (c.setAvatarToken token).receiveAvatarData
          { fileName := built.2.1, mimeType := mimeType }))
  | none => (files1, looked.2)

/-- What can happen to the avatar batcher: a `requestContactAvatar` call for a contact,
made while the disk holds `files`, or the event loop firing a pending flush timer. -/
inductive AvatarEvent where
  | request (files : Disk) (contact : Contact)
  | timerFires
  deriving DecidableEq, Repr

/-- The manager's state after one event of the avatar batcher. -/
def ContactManager.avatarStep (env : CacheEnvironment) (conn : Connection)
    (mPriv : ContactManager.Private) : AvatarEvent → ContactManager.Private
  | AvatarEvent.request files contact =>
    (ContactManager.requestContactAvatar env conn files contact mPriv).2
  | AvatarEvent.timerFires => ContactManager.fireFlushTimer mPriv

/-- The manager's state after a sequence of events of the avatar batcher. -/
def ContactManager.avatarRun (env : CacheEnvironment) (conn : Connection)
    (events : List AvatarEvent) (mPriv : ContactManager.Private) : ContactManager.Private :=
  events.foldl (ContactManager.avatarStep env conn) mPriv

/-- The contact is not served from the disk cache: its token is unknown or the blob file
for its token is absent. -/
def ContactManager.avatarUncached (env : CacheEnvironment) (conn : Connection)
    (files : Disk) (contact : Contact) : Bool :=
  !(contact.isAvatarTokenKnown &&
    QFile.exists files (ContactManager.Private.avatarFileName env conn contact.avatarToken))

/-! ## Change-notification handlers -/

/-- Qt `QMap::keys`: the keys of the map, each once. -/
def QMap.keys {κ ν : Type} [DecidableEq κ] (m : QMap κ ν) : List κ :=
  (m.map Prod.fst).dedup

/-- One turn of the `foreach (AliasPair pair, aliases)` loop of `onAliasesChanged`. -/
def ContactManager.aliasChanged (mPriv : ContactManager.Private) (pair : AliasPair) :
    ContactManager.Private :=
  let looked := ContactManager.lookupContactByHandle mPriv pair.handle
  match looked.1 with
  | some _ => looked.2.updateContact pair.handle (fun c => c.receiveAlias pair.aliasName)
  | none => looked.2

/-- Source function `ContactManager::onAliasesChanged`. -/
def ContactManager.onAliasesChanged (mPriv : ContactManager.Private)
    (aliases : List AliasPair) : ContactManager.Private :=
  aliases.foldl ContactManager.aliasChanged mPriv

/-- Source function `ContactManager::onAvatarUpdated`. -/
def ContactManager.onAvatarUpdated (mPriv : ContactManager.Private) (handle : Nat)
    (token : String) : ContactManager.Private :=
  let looked := ContactManager.lookupContactByHandle mPriv handle
  match looked.1 with
  | some _ => looked.2.updateContact handle (fun c => c.receiveAvatarToken token)
  | none => looked.2

/-- One turn of the `foreach (uint handle, presences.keys())` loop of `onPresencesChanged`;
the value `presences[handle]` of an absent key would be a default-constructed presence. -/
def ContactManager.presenceChanged (presences : QMap Nat SimplePresence)
    (mPriv : ContactManager.Private) (handle : Nat) : ContactManager.Private :=
  let looked := ContactManager.lookupContactByHandle mPriv handle
  match looked.1 with
  | some _ =>
    looked.2.updateContact handle (fun c =>
      c.receiveSimplePresence
        ((QMap.find presences handle).getD
          { presenceType := 0, status := "", statusMessage := "" }))
  | none => looked.2

/-- Source function `ContactManager::onPresencesChanged`. -/
def ContactManager.onPresencesChanged (mPriv : ContactManager.Private)
    (presences : QMap Nat SimplePresence) : ContactManager.Private :=
  (QMap.keys presences).foldl (ContactManager.presenceChanged presences) mPriv

/-- One turn of the `foreach (uint handle, caps.keys())` loop of `onCapabilitiesChanged`;
the value `caps[handle]` of an absent key would be an empty list. -/
def ContactManager.capabilitiesChanged (caps : QMap Nat RequestableChannelClassList)
    (mPriv : ContactManager.Private) (handle : Nat) : ContactManager.Private :=
  let looked := ContactManager.lookupContactByHandle mPriv handle
  match looked.1 with
  | some _ =>
    looked.2.updateContact handle (fun c =>
      c.receiveCapabilities ((QMap.find caps handle).getD []))
  | none => looked.2

/-- Source function `ContactManager::onCapabilitiesChanged`. -/
def ContactManager.onCapabilitiesChanged (mPriv : ContactManager.Private)
    (caps : QMap Nat RequestableChannelClassList) : ContactManager.Private :=
  (QMap.keys caps).foldl (ContactManager.capabilitiesChanged caps) mPriv

/-- Source function `ContactManager::onLocationUpdated`. -/
def ContactManager.onLocationUpdated (mPriv : ContactManager.Private) (handle : Nat)
    (location : QVariantMap) : ContactManager.Private :=
  let looked := ContactManager.lookupContactByHandle mPriv handle
  match looked.1 with
  | some _ => looked.2.updateContact handle (fun c => c.receiveLocation location)
  | none => looked.2

/-- Source function `ContactManager::onContactInfoChanged`. -/
def ContactManager.onContactInfoChanged (mPriv : ContactManager.Private) (handle : Nat)
    (info : List ContactInfoField) : ContactManager.Private :=
  let looked := ContactManager.lookupContactByHandle mPriv handle
  match looked.1 with
  | some _ => looked.2.updateContact handle (fun c => c.receiveInfo info)
  | none => looked.2

/-- An event of one of the six change-notification signals, with its arguments. -/
inductive ChangeNotification where
  | AliasesChanged (aliases : List AliasPair)
  | PresencesChanged (presences : QMap Nat SimplePresence)
  | ContactCapabilitiesChanged (caps : QMap Nat RequestableChannelClassList)
  | AvatarUpdated (handle : Nat) (token : String)
  | LocationUpdated (handle : Nat) (location : QVariantMap)
  | ContactInfoChanged (handle : Nat) (info : List ContactInfoField)
  deriving DecidableEq, Repr

/-- The signal is delivered to the manager: the slot connected to it runs. -/
def ContactManager.notify (mPriv : ContactManager.Private) :
    ChangeNotification → ContactManager.Private
  | ChangeNotification.AliasesChanged aliases =>
    ContactManager.onAliasesChanged mPriv aliases
  | ChangeNotification.PresencesChanged presences =>
    ContactManager.onPresencesChanged mPriv presences
  | ChangeNotification.ContactCapabilitiesChanged caps =>
    ContactManager.onCapabilitiesChanged mPriv caps
  | ChangeNotification.AvatarUpdated handle token =>
    ContactManager.onAvatarUpdated mPriv handle token
  | ChangeNotification.LocationUpdated handle location =>
    ContactManager.onLocationUpdated mPriv handle location
  | ChangeNotification.ContactInfoChanged handle info =>
    ContactManager.onContactInfoChanged mPriv handle info

/-- Whether the event names the handle. -/
def ChangeNotification.names (ev : ChangeNotification) (h : Nat) : Bool :=
  match ev with
  | ChangeNotification.AliasesChanged aliases => aliases.any (fun p => decide (p.handle = h))
  | ChangeNotification.PresencesChanged presences => QMap.contains presences h
  | ChangeNotification.ContactCapabilitiesChanged caps => QMap.contains caps h
  | ChangeNotification.AvatarUpdated handle _ => decide (h = handle)
  | ChangeNotification.LocationUpdated handle _ => decide (h = handle)
  | ChangeNotification.ContactInfoChanged handle _ => decide (h = handle)

/-- The contact of handle `h` after it received the values the event pairs with `h`: the
aliases paired with `h` in list order, the presence or capabilities bound to `h`, or the
token, location or info of an event for `h`; the contact as it was when the event does
not name `h`. -/
def ChangeNotification.applyTo (ev : ChangeNotification) (h : Nat) (c : Contact) : Contact :=
  match ev with
  | ChangeNotification.AliasesChanged aliases =>
    (aliases.filter (fun p => decide (p.handle = h))).foldl
      (fun c p => c.receiveAlias p.aliasName) c
  | ChangeNotification.PresencesChanged presences =>
    match QMap.find presences h with
    | some v => c.receiveSimplePresence v
    | none => c
  | ChangeNotification.ContactCapabilitiesChanged caps =>
    match QMap.find caps h with
    | some v => c.receiveCapabilities v
    | none => c
  | ChangeNotification.AvatarUpdated handle token =>
    if h = handle then c.receiveAvatarToken token else c
  | ChangeNotification.LocationUpdated handle location =>
    if h = handle then c.receiveLocation location else c
  | ChangeNotification.ContactInfoChanged handle info =>
    if h = handle then c.receiveInfo info else c

/-- One delivery of a handler: the handle is looked up and, when a live contact is cached
for it, the call `f` is made on that contact. -/
def ContactManager.deliver (mPriv : ContactManager.Private) (handle : Nat)
    (f : Contact → Contact) : ContactManager.Private :=
  let looked := ContactManager.lookupContactByHandle mPriv handle
  match looked.1 with
  | some _ => looked.2.updateContact handle f
  | none => looked.2

/-- What can happen to the manager between two flushes: an event of the avatar batcher, a
change notification, or an `AvatarRetrieved` signal arriving while the disk holds
`files`. -/
inductive ManagerEvent where
  | avatar (e : AvatarEvent)
  | notification (ev : ChangeNotification)
  | avatarRetrieved (files : Disk) (handle : Nat) (token : String) (data : QByteArray)
      (mimeType : String)
  deriving DecidableEq, Repr

/-- The manager's state after one event. -/
def ContactManager.managerStep (env : CacheEnvironment) (conn : Connection)
    (mPriv : ContactManager.Private) : ManagerEvent → ContactManager.Private
  | ManagerEvent.avatar e => ContactManager.avatarStep env conn mPriv e
  | ManagerEvent.notification ev => ContactManager.notify mPriv ev
  | ManagerEvent.avatarRetrieved files handle token data mimeType =>
    (ContactManager.onAvatarRetrieved env conn files handle token data mimeType mPriv).2

/-- The manager's state after a sequence of events. -/
def ContactManager.managerRun (env : CacheEnvironment) (conn : Connection)
    (events : List ManagerEvent) (mPriv : ContactManager.Private) : ContactManager.Private :=
  events.foldl (ContactManager.managerStep env conn) mPriv

/-! ## Read-only roster queries -/

/-- Modelled from the spec: the read-only side of `ContactManager::Roster`, defined in an
internal header that is not among the sources.  A query takes the roster's state `σ` and
returns its answer and the roster's state after the call. -/
structure ContactManager.RosterQueries (σ : Type) where
  allKnownContacts : σ → List Contact × σ
  allKnownGroups : σ → List String × σ
  groupContacts : String → σ → List Contact × σ
  canRequestPresenceSubscription : σ → Bool × σ
  subscriptionRequestHasMessage : σ → Bool × σ
  canRemovePresenceSubscription : σ → Bool × σ
  subscriptionRemovalHasMessage : σ → Bool × σ
  canRescindPresenceSubscriptionRequest : σ → Bool × σ
  subscriptionRescindingHasMessage : σ → Bool × σ
  canAuthorizePresencePublication : σ → Bool × σ
  publicationAuthorizationHasMessage : σ → Bool × σ
  publicationRejectionHasMessage : σ → Bool × σ
  canRemovePresencePublication : σ → Bool × σ
  publicationRemovalHasMessage : σ → Bool × σ
  canBlockContacts : σ → Bool × σ

/-- Source function `ContactManager::allKnownContacts`. -/
def ContactManager.allKnownContacts {σ : Type} (conn : Connection)
    (roster : ContactManager.RosterQueries σ) (r : σ) : List Contact × σ :=
  if !conn.isReady ConnectionFeature.FeatureRoster then
    ([], r)
  else
    roster.allKnownContacts r

/-- Source function `ContactManager::allKnownGroups`. -/
def ContactManager.allKnownGroups {σ : Type} (conn : Connection)
    (roster : ContactManager.RosterQueries σ) (r : σ) : List String × σ :=
  if !conn.isReady ConnectionFeature.FeatureRosterGroups then
    ([], r)
  else
    roster.allKnownGroups r

/-- Source function `ContactManager::groupContacts`. -/
def ContactManager.groupContacts {σ : Type} (conn : Connection)
    (roster : ContactManager.RosterQueries σ) (group : String) (r : σ) :
    List Contact × σ :=
  if !conn.isReady ConnectionFeature.FeatureRosterGroups then
    ([], r)
  else
    roster.groupContacts group r

/-- Source function `ContactManager::canRequestPresenceSubscription`. -/
def ContactManager.canRequestPresenceSubscription {σ : Type} (conn : Connection)
    (roster : ContactManager.RosterQueries σ) (r : σ) : Bool × σ :=
  if !conn.isReady ConnectionFeature.FeatureRoster then
    (false, r)
  else
    roster.canRequestPresenceSubscription r

/-- Source function `ContactManager::subscriptionRequestHasMessage`. -/
def ContactManager.subscriptionRequestHasMessage {σ : Type} (conn : Connection)
    (roster : ContactManager.RosterQueries σ) (r : σ) : Bool × σ :=
  if !conn.isReady ConnectionFeature.FeatureRoster then
    (false, r)
  else
    roster.subscriptionRequestHasMessage r

/-- Source function `ContactManager::canRemovePresenceSubscription`. -/
def ContactManager.canRemovePresenceSubscription {σ : Type} (conn : Connection)
    (roster : ContactManager.RosterQueries σ) (r : σ) : Bool × σ :=
  if !conn.isReady ConnectionFeature.FeatureRoster then
    (false, r)
  else
    roster.canRemovePresenceSubscription r

/-- Source function `ContactManager::subscriptionRemovalHasMessage`. -/
def ContactManager.subscriptionRemovalHasMessage {σ : Type} (conn : Connection)
    (roster : ContactManager.RosterQueries σ) (r : σ) : Bool × σ :=
  if !conn.isReady ConnectionFeature.FeatureRoster then
    (false, r)
  else
    roster.subscriptionRemovalHasMessage r

/-- Source function `ContactManager::canRescindPresenceSubscriptionRequest`. -/
def ContactManager.canRescindPresenceSubscriptionRequest {σ : Type} (conn : Connection)
    (roster : ContactManager.RosterQueries σ) (r : σ) : Bool × σ :=
  if !conn.isReady ConnectionFeature.FeatureRoster then
    (false, r)
  else
    roster.canRescindPresenceSubscriptionRequest r

/-- Source function `ContactManager::subscriptionRescindingHasMessage`. -/
def ContactManager.subscriptionRescindingHasMessage {σ : Type} (conn : Connection)
    (roster : ContactManager.RosterQueries σ) (r : σ) : Bool × σ :=
  if !conn.isReady ConnectionFeature.FeatureRoster then
    (false, r)
  else
    roster.subscriptionRescindingHasMessage r

/-- Source function `ContactManager::canAuthorizePresencePublication`. -/
def ContactManager.canAuthorizePresencePublication {σ : Type} (conn : Connection)
    (roster : ContactManager.RosterQueries σ) (r : σ) : Bool × σ :=
  if !conn.isReady ConnectionFeature.FeatureRoster then
    (false, r)
  else
    roster.canAuthorizePresencePublication r

/-- Source function `ContactManager::publicationAuthorizationHasMessage`. -/
def ContactManager.publicationAuthorizationHasMessage {σ : Type} (conn : Connection)
    (roster : ContactManager.RosterQueries σ) (r : σ) : Bool × σ :=
  if !conn.isReady ConnectionFeature.FeatureRoster then
    (false, r)
  else
    roster.publicationAuthorizationHasMessage r

/-- Source function `ContactManager::publicationRejectionHasMessage`. -/
def ContactManager.publicationRejectionHasMessage {σ : Type} (conn : Connection)
    (roster : ContactManager.RosterQueries σ) (r : σ) : Bool × σ :=
  if !conn.isReady ConnectionFeature.FeatureRoster then
    (false, r)
  else
    roster.publicationRejectionHasMessage r

/-- Source function `ContactManager::canRemovePresencePublication`. -/
def ContactManager.canRemovePresencePublication {σ : Type} (conn : Connection)
    (roster : ContactManager.RosterQueries σ) (r : σ) : Bool × σ :=
  if !conn.isReady ConnectionFeature.FeatureRoster then
    (false, r)
  else
    roster.canRemovePresencePublication r

/-- Source function `ContactManager::publicationRemovalHasMessage`. -/
def ContactManager.publicationRemovalHasMessage {σ : Type} (conn : Connection)
    (roster : ContactManager.RosterQueries σ) (r : σ) : Bool × σ :=
  if !conn.isReady ConnectionFeature.FeatureRoster then
    (false, r)
  else
    roster.publicationRemovalHasMessage r

/-- Source function `ContactManager::canBlockContacts`. -/
def ContactManager.canBlockContacts {σ : Type} (conn : Connection)
    (roster : ContactManager.RosterQueries σ) (r : σ) : Bool × σ :=
  if !conn.isReady ConnectionFeature.FeatureRoster then
    (false, r)
  else
    roster.canBlockContacts r

/-- A call of one of the fifteen read-only roster queries, with its argument. -/
inductive RosterQuery where
  | allKnownContacts
  | allKnownGroups
  | groupContacts (group : String)
  | canRequestPresenceSubscription
  | subscriptionRequestHasMessage
  | canRemovePresenceSubscription
  | subscriptionRemovalHasMessage
  | canRescindPresenceSubscriptionRequest
  | subscriptionRescindingHasMessage
  | canAuthorizePresencePublication
  | publicationAuthorizationHasMessage
  | publicationRejectionHasMessage
  | canRemovePresencePublication
  | publicationRemovalHasMessage
  | canBlockContacts
  deriving DecidableEq, Repr

/-- The answer of a read-only roster query: a set of contacts, a list of group names, or
a yes or no. -/
inductive RosterAnswer where
  | contacts (value : List Contact)
  | groups (value : List String)
  | flag (value : Bool)
  deriving DecidableEq, Repr

/-- The query made on the manager: dispatches to the member function of that name. -/
def ContactManager.query {σ : Type} (conn : Connection)
    (roster : ContactManager.RosterQueries σ) (q : RosterQuery) (r : σ) :
    RosterAnswer × σ :=
  match q with
  | RosterQuery.allKnownContacts =>
    (ContactManager.allKnownContacts conn roster r).map RosterAnswer.contacts id
  | RosterQuery.allKnownGroups =>
    (ContactManager.allKnownGroups conn roster r).map RosterAnswer.groups id
  | RosterQuery.groupContacts group =>
    (ContactManager.groupContacts conn roster group r).map RosterAnswer.contacts id
  | RosterQuery.canRequestPresenceSubscription =>
    (ContactManager.canRequestPresenceSubscription conn roster r).map RosterAnswer.flag id
  | RosterQuery.subscriptionRequestHasMessage =>
    (ContactManager.subscriptionRequestHasMessage conn roster r).map RosterAnswer.flag id
  | RosterQuery.canRemovePresenceSubscription =>
    (ContactManager.canRemovePresenceSubscription conn roster r).map RosterAnswer.flag id
  | RosterQuery.subscriptionRemovalHasMessage =>
    (ContactManager.subscriptionRemovalHasMessage conn roster r).map RosterAnswer.flag id
  | RosterQuery.canRescindPresenceSubscriptionRequest =>
    (ContactManager.canRescindPresenceSubscriptionRequest conn roster r).map RosterAnswer.flag id
  | RosterQuery.subscriptionRescindingHasMessage =>
    (ContactManager.subscriptionRescindingHasMessage conn roster r).map RosterAnswer.flag id
  | RosterQuery.canAuthorizePresencePublication =>
    (ContactManager.canAuthorizePresencePublication conn roster r).map RosterAnswer.flag id
  | RosterQuery.publicationAuthorizationHasMessage =>
    (ContactManager.publicationAuthorizationHasMessage conn roster r).map RosterAnswer.flag id
  | RosterQuery.publicationRejectionHasMessage =>
    (ContactManager.publicationRejectionHasMessage conn roster r).map RosterAnswer.flag id
  | RosterQuery.canRemovePresencePublication =>
    (ContactManager.canRemovePresencePublication conn roster r).map RosterAnswer.flag id
  | RosterQuery.publicationRemovalHasMessage =>
    (ContactManager.publicationRemovalHasMessage conn roster r).map RosterAnswer.flag id
  | RosterQuery.canBlockContacts =>
    (ContactManager.canBlockContacts conn roster r).map RosterAnswer.flag id

/-- The same query made directly on the roster collaborator. -/
def ContactManager.RosterQueries.query {σ : Type} (roster : ContactManager.RosterQueries σ)
    (q : RosterQuery) (r : σ) : RosterAnswer × σ :=
  match q with
  | RosterQuery.allKnownContacts => (roster.allKnownContacts r).map RosterAnswer.contacts id
  | RosterQuery.allKnownGroups => (roster.allKnownGroups r).map RosterAnswer.groups id
  | RosterQuery.groupContacts group =>
    (roster.groupContacts group r).map RosterAnswer.contacts id
  | RosterQuery.canRequestPresenceSubscription => (roster.canRequestPresenceSubscription r).map RosterAnswer.flag id
  | RosterQuery.subscriptionRequestHasMessage => (roster.subscriptionRequestHasMessage r).map RosterAnswer.flag id
  | RosterQuery.canRemovePresenceSubscription => (roster.canRemovePresenceSubscription r).map RosterAnswer.flag id
  | RosterQuery.subscriptionRemovalHasMessage => (roster.subscriptionRemovalHasMessage r).map RosterAnswer.flag id
  | RosterQuery.canRescindPresenceSubscriptionRequest => (roster.canRescindPresenceSubscriptionRequest r).map RosterAnswer.flag id
  | RosterQuery.subscriptionRescindingHasMessage => (roster.subscriptionRescindingHasMessage r).map RosterAnswer.flag id
  | RosterQuery.canAuthorizePresencePublication => (roster.canAuthorizePresencePublication r).map RosterAnswer.flag id
  | RosterQuery.publicationAuthorizationHasMessage => (roster.publicationAuthorizationHasMessage r).map RosterAnswer.flag id
  | RosterQuery.publicationRejectionHasMessage => (roster.publicationRejectionHasMessage r).map RosterAnswer.flag id
  | RosterQuery.canRemovePresencePublication => (roster.canRemovePresencePublication r).map RosterAnswer.flag id
  | RosterQuery.publicationRemovalHasMessage => (roster.publicationRemovalHasMessage r).map RosterAnswer.flag id
  | RosterQuery.canBlockContacts => (roster.canBlockContacts r).map RosterAnswer.flag id

/-- The readiness feature the specification requires for each read-only query:
roster-groups for `allKnownGroups` and `groupContacts`, roster for the others. -/
def RosterQuery.requiredFeature : RosterQuery → ConnectionFeature
  | RosterQuery.allKnownGroups => ConnectionFeature.FeatureRosterGroups
  | RosterQuery.groupContacts _ => ConnectionFeature.FeatureRosterGroups
  | _ => ConnectionFeature.FeatureRoster

/-- The neutral value of each read-only query: the empty set of contacts, the empty list
of groups, or no. -/
def RosterQuery.neutral : RosterQuery → RosterAnswer
  | RosterQuery.allKnownContacts => RosterAnswer.contacts []
  | RosterQuery.allKnownGroups => RosterAnswer.groups []
  | RosterQuery.groupContacts _ => RosterAnswer.contacts []
  | _ => RosterAnswer.flag false

/-- A roster that records the queries reaching it and answers every one with the same
contacts, groups or yes/no it was built with. -/
def spyQueries (contacts : List Contact) (groups : List String) (flag : Bool) :
    ContactManager.RosterQueries (List RosterQuery) :=
  { allKnownContacts := fun log => (contacts, log ++ [RosterQuery.allKnownContacts]),
    allKnownGroups := fun log => (groups, log ++ [RosterQuery.allKnownGroups]),
    groupContacts := fun group log => (contacts, log ++ [RosterQuery.groupContacts group]),
    canRequestPresenceSubscription := fun log => (flag, log ++ [RosterQuery.canRequestPresenceSubscription]),
    subscriptionRequestHasMessage := fun log => (flag, log ++ [RosterQuery.subscriptionRequestHasMessage]),
    canRemovePresenceSubscription := fun log => (flag, log ++ [RosterQuery.canRemovePresenceSubscription]),
    subscriptionRemovalHasMessage := fun log => (flag, log ++ [RosterQuery.subscriptionRemovalHasMessage]),
    canRescindPresenceSubscriptionRequest := fun log => (flag, log ++ [RosterQuery.canRescindPresenceSubscriptionRequest]),
    subscriptionRescindingHasMessage := fun log => (flag, log ++ [RosterQuery.subscriptionRescindingHasMessage]),
    canAuthorizePresencePublication := fun log => (flag, log ++ [RosterQuery.canAuthorizePresencePublication]),
    publicationAuthorizationHasMessage := fun log => (flag, log ++ [RosterQuery.publicationAuthorizationHasMessage]),
    publicationRejectionHasMessage := fun log => (flag, log ++ [RosterQuery.publicationRejectionHasMessage]),
    canRemovePresencePublication := fun log => (flag, log ++ [RosterQuery.canRemovePresencePublication]),
    publicationRemovalHasMessage := fun log => (flag, log ++ [RosterQuery.publicationRemovalHasMessage]),
    canBlockContacts := fun log => (flag, log ++ [RosterQuery.canBlockContacts]) }

/-! ## Scenarios -/

/-- A valid, ready connection that advertises the aggregate contacts interface and lists
only the simple-presence interface among its contact attribute interfaces. -/
def presenceOnlyConnection : Connection :=
  { isValid := true, isReady := fun _ => true,
    interfaces := [TELEPATHY_INTERFACE_CONNECTION_INTERFACE_CONTACTS,
      TP_QT4_IFACE_CONNECTION_INTERFACE_SIMPLE_PRESENCE],
    contactAttributeInterfaces := [TP_QT4_IFACE_CONNECTION_INTERFACE_SIMPLE_PRESENCE],
    contactFactoryFeatures := [] }

/-- A connection whose introspection has not run yet: valid, nothing ready, nothing
advertised. -/
def unreadyConnection : Connection :=
  { isValid := true, isReady := fun _ => false, interfaces := [],
    contactAttributeInterfaces := [], contactFactoryFeatures := [] }

/-- An invalidated connection: not valid and, as for every invalid proxy, nothing ready. -/
def invalidConnection : Connection :=
  { isValid := false, isReady := fun _ => false, interfaces := [],
    contactAttributeInterfaces := [], contactFactoryFeatures := [] }

/-- A valid, ready connection whose contact factory defaults to the alias feature. -/
def aliasFactoryConnection : Connection :=
  { isValid := true, isReady := fun _ => true, interfaces := [],
    contactAttributeInterfaces := [], contactFactoryFeatures := [Feature.FeatureAlias] }

/-- Successive calls of `supportedFeatures`, one per entry of `conns` (what the
connection advertises at the time of that call): the sets returned, in call order. -/
def ContactManager.supportedFeaturesCalls :
    List Connection → ContactManager.Private → List Features
  | [], _ => []
  | conn :: conns, mPriv =>
    (ContactManager.supportedFeatures conn mPriv).1 ::
      ContactManager.supportedFeaturesCalls conns (ContactManager.supportedFeatures conn mPriv).2

/-- A user environment where the cache directory can be created and files written; the
token escape is the identity on the tokens used here. -/
def homeEnvironment : CacheEnvironment :=
  { XDG_CACHE_HOME := "", HOME := "/home/u", escapeAsIdentifier := fun t => t,
    mkpath := fun _ => true, canWrite := fun _ => true }

/-- The same user environment on a disk where no directory can be created. -/
def fullDiskEnvironment : CacheEnvironment :=
  { XDG_CACHE_HOME := "", HOME := "/home/u", escapeAsIdentifier := fun t => t,
    mkpath := fun _ => false, canWrite := fun _ => true }

/-- A valid, ready connection of the connection manager "gabble" to the protocol
"jabber". -/
def jabberConnection : Connection :=
  { presenceOnlyConnection with cmName := "gabble", protocolName := "jabber" }

/-- A contact factory that builds the bare contact: the handle and the features, no
payload. -/
def plainFactory : ContactFactory :=
  { construct := fun handle features _ => { handle := handle, requestedFeatures := features } }

/-- An augmentation that unites the new features into the requested ones and keeps the
payload. -/
def uniteAugment (contact : Contact) (features : Features) (_attributes : QVariantMap) :
    Contact :=
  { contact with requestedFeatures := QSet.unite contact.requestedFeatures features }

/-! ## Predicates used to state the tracking guard -/

/-- The feature is one of the eight `Contact::Feature*` constants. -/
def Feature.isKnown : Feature → Bool
  | Feature.other _ => false
  | _ => true

/-! ## Predicates used to state the avatar batcher -/

/-- At most one flush is scheduled and not yet run, and the flag `requestAvatarsIdle` is
set exactly when one is. -/
def ContactManager.Private.flushScheduledOnce (mPriv : ContactManager.Private) : Prop :=
  mPriv.flushTimers ≤ 1 ∧ (mPriv.requestAvatarsIdle = true ↔ mPriv.flushTimers = 1)

/-- The `requestContactAvatar` calls of a list of requests, each made while the disk holds
the files paired with its contact, as events of the batcher. -/
def ContactManager.requestEvents (requests : List (Disk × Contact)) : List AvatarEvent :=
  requests.map (fun r => AvatarEvent.request r.1 r.2)

/-! ## Predicates used to state the handle loop -/

/-- The cache holds a live contact for `handle` that already requested every feature
of `R`. -/
def ContactManager.Private.satisfied (mPriv : ContactManager.Private) (R : Features)
    (handle : Nat) : Prop :=
  ∃ c : Contact, mPriv.liveContact handle = some c ∧ ∀ f, f ∈ R → f ∈ c.requestedFeatures

/-- The feature `f` of `R` is one the live contact cached for `handle`, if there is one, has
not requested. -/
def ContactManager.Private.lacks (mPriv : ContactManager.Private) (R : Features)
    (handle : Nat) (f : Feature) : Prop :=
  f ∈ R ∧ ∀ c : Contact, mPriv.liveContact handle = some c → f ∉ c.requestedFeatures

/-- The state `q` differs from `p` in the contact cache at most. -/
def ContactManager.Private.cacheOnly (p q : ContactManager.Private) : Prop :=
  q = { p with contacts := q.contacts }

/-! ## Predicates used to state the cache frame -/

/-- The cache of `q` is the cache of `p` with, at most, some dangling entries removed:
every handle has the same live contact in both, and a handle bound in `q` is bound in
`p`. -/
def ContactManager.Private.prunedFrom (q p : ContactManager.Private) : Prop :=
  ∀ h : Nat, q.liveContact h = p.liveContact h ∧
    (QMap.contains q.contacts h = true → QMap.contains p.contacts h = true)

/-- The caches of `q` and `p` bind the same handles to live contacts, and a handle bound
in `q` is bound in `p`.  The cache keeps contacts by value, so a call made on a cached
contact shows in its entry; this relation ignores what the contacts hold. -/
def ContactManager.Private.sameBindings (q p : ContactManager.Private) : Prop :=
  ∀ h : Nat, (q.liveContact h).isSome = (p.liveContact h).isSome ∧
    (QMap.contains q.contacts h = true → QMap.contains p.contacts h = true)

/-! ## Container lemmas -/

theorem QSet.mem_insert {α : Type} [DecidableEq α] (s : QSet α) (x y : α) :
    y ∈ QSet.insert s x ↔ y ∈ s ∨ y = x := by
  unfold QSet.insert
  split
  · constructor
    · intro h; exact Or.inl h
    · rintro (h | h)
      · exact h
      · subst h; assumption
  · simp

theorem QSet.mem_unite {α : Type} [DecidableEq α] (s t : QSet α) (y : α) :
    y ∈ QSet.unite s t ↔ y ∈ s ∨ y ∈ t := by
  unfold QSet.unite
  induction t generalizing s with
  | nil => simp
  | cons x t ih =>
    rw [List.foldl_cons, ih, QSet.mem_insert]
    simp only [List.mem_cons]
    tauto

theorem QSet.mem_subtract {α : Type} [DecidableEq α] (s t : QSet α) (y : α) :
    y ∈ QSet.subtract s t ↔ y ∈ s ∧ y ∉ t := by
  simp [QSet.subtract, QSet.contains]

theorem QSet.isEmpty_iff {α : Type} (s : QSet α) : QSet.isEmpty s = true ↔ s = [] := by
  cases s <;> simp [QSet.isEmpty]

theorem QSet.isEmpty_subtract {α : Type} [DecidableEq α] (s t : QSet α) :
    QSet.isEmpty (QSet.subtract s t) = true ↔ ∀ y, y ∈ s → y ∈ t := by
  rw [QSet.isEmpty_iff, List.eq_nil_iff_forall_not_mem]
  constructor
  · intro h y hy
    by_contra hn
    exact h y ((QSet.mem_subtract s t y).2 ⟨hy, hn⟩)
  · intro h y hy
    rw [QSet.mem_subtract] at hy
    exact hy.2 (h y hy.1)

theorem QMap.find_remove {κ ν : Type} [DecidableEq κ] (m : QMap κ ν) (k k' : κ) :
    QMap.find (QMap.remove m k) k' = if k' = k then none else QMap.find m k' := by
  induction m with
  | nil => simp [QMap.remove, QMap.find]
  | cons p m ih =>
    obtain ⟨a, v⟩ := p
    unfold QMap.remove at ih ⊢
    by_cases hak : a = k
    · subst hak
      simp only [List.filter_cons, decide_True, Bool.not_true]
      simp only [Bool.false_eq_true, if_false]
      rw [ih]
      by_cases hk : k' = a
      · simp [hk]
      · have : ¬ a = k' := fun h => hk h.symm
        simp [QMap.find, hk, this]
    · simp only [List.filter_cons, hak, decide_False, Bool.not_false, if_true]
      simp only [QMap.find]
      rw [ih]
      by_cases hk : k' = k
      · subst hk
        simp [hak]
      · simp [hk]

theorem QMap.find_insert {κ ν : Type} [DecidableEq κ] (m : QMap κ ν) (k k' : κ) (v : ν) :
    QMap.find (QMap.insert m k v) k' = if k' = k then some v else QMap.find m k' := by
  unfold QMap.insert
  simp only [QMap.find]
  rw [QMap.find_remove]
  by_cases hk : k' = k
  · subst hk; simp
  · have : ¬ k = k' := fun h => hk h.symm
    simp [hk, this]

/-! ## The supported-feature set -/

theorem ContactManager.probeFeature_frame (ifs : List String) (p : ContactManager.Private)
    (f : Feature) :
    ContactManager.probeFeature ifs p f =
      { p with supportedFeatures := (ContactManager.probeFeature ifs p f).supportedFeatures } := by
  unfold ContactManager.probeFeature
  split <;> rfl

theorem ContactManager.probeFeature_mem (ifs : List String) (p : ContactManager.Private)
    (f g : Feature) :
    g ∈ (ContactManager.probeFeature ifs p f).supportedFeatures ↔
      g ∈ p.supportedFeatures ∨ (g = f ∧ ContactManager.featureToInterface f ∈ ifs) := by
  unfold ContactManager.probeFeature
  by_cases h : ContactManager.featureToInterface f ∈ ifs
  · simp [h, QSet.mem_insert]
  · simp [h]

theorem ContactManager.probe_foldl_frame (ifs : List String) (L : List Feature)
    (p : ContactManager.Private) :
    L.foldl (ContactManager.probeFeature ifs) p =
      { p with supportedFeatures :=
          (L.foldl (ContactManager.probeFeature ifs) p).supportedFeatures } := by
  induction L generalizing p with
  | nil => rfl
  | cons f L ih =>
    rw [List.foldl_cons, ih (ContactManager.probeFeature ifs p f)]
    rw [ContactManager.probeFeature_frame ifs p f]

theorem ContactManager.probe_foldl_mem (ifs : List String) (L : List Feature)
    (p : ContactManager.Private) (g : Feature) :
    g ∈ (L.foldl (ContactManager.probeFeature ifs) p).supportedFeatures ↔
      g ∈ p.supportedFeatures ∨ (g ∈ L ∧ ContactManager.featureToInterface g ∈ ifs) := by
  induction L generalizing p with
  | nil => simp
  | cons f L ih =>
    rw [List.foldl_cons, ih, ContactManager.probeFeature_mem]
    simp only [List.mem_cons]
    constructor
    · rintro ((h | ⟨h, h2⟩) | ⟨h, h2⟩)
      · exact Or.inl h
      · subst h; exact Or.inr ⟨Or.inl rfl, h2⟩
      · exact Or.inr ⟨Or.inr h, h2⟩
    · rintro (h | ⟨h | h, h2⟩)
      · exact Or.inl (Or.inl h)
      · subst h; exact Or.inl (Or.inr ⟨rfl, h2⟩)
      · exact Or.inr ⟨h, h2⟩

/-- With a non-empty memoized set the call returns it and changes nothing. -/
theorem ContactManager.supportedFeatures_memo (conn : Connection)
    (p : ContactManager.Private) (h : p.supportedFeatures ≠ []) :
    ContactManager.supportedFeatures conn p = (p.supportedFeatures, p) := by
  unfold ContactManager.supportedFeatures
  have : QSet.isEmpty p.supportedFeatures = false := by
    cases hs : p.supportedFeatures with
    | nil => exact absurd hs h
    | cons a l => rfl
  simp [this]

/-- The call changes the memoized set only, and the set returned is the one memoized. -/
theorem ContactManager.supportedFeatures_frame (conn : Connection)
    (p : ContactManager.Private) :
    (ContactManager.supportedFeatures conn p).2 =
      { p with supportedFeatures := (ContactManager.supportedFeatures conn p).1 } := by
  unfold ContactManager.supportedFeatures
  split
  · exact ContactManager.probe_foldl_frame _ _ _
  · rfl

/-- The set returned depends on the state through the memoized set only. -/
theorem ContactManager.supportedFeatures_congr (conn : Connection)
    (p q : ContactManager.Private) (h : p.supportedFeatures = q.supportedFeatures) :
    (ContactManager.supportedFeatures conn p).1 = (ContactManager.supportedFeatures conn q).1 := by
  have hp := ContactManager.probe_foldl_frame conn.contactAttributeInterfaces
    ContactManager.allFeatures
  have key : ∀ (L : List Feature) (p q : ContactManager.Private),
      p.supportedFeatures = q.supportedFeatures →
      (L.foldl (ContactManager.probeFeature conn.contactAttributeInterfaces) p).supportedFeatures =
      (L.foldl (ContactManager.probeFeature conn.contactAttributeInterfaces) q).supportedFeatures := by
    intro L
    induction L with
    | nil => intro p q h; exact h
    | cons f L ih =>
      intro p q h
      rw [List.foldl_cons, List.foldl_cons]
      apply ih
      unfold ContactManager.probeFeature
      split
      · simp [h]
      · exact h
  unfold ContactManager.supportedFeatures
  rw [h]
  split
  · exact key _ p q h
  · rfl

/-- A call that returns the empty set leaves the whole state as it was. -/
theorem ContactManager.supportedFeatures_empty_state (conn : Connection)
    (p : ContactManager.Private) (h : (ContactManager.supportedFeatures conn p).1 = []) :
    (ContactManager.supportedFeatures conn p).2 = p := by
  have hp : p.supportedFeatures = [] := by
    by_contra hne
    rw [ContactManager.supportedFeatures_memo conn p hne] at h
    exact hne h
  rw [ContactManager.supportedFeatures_frame, h, ← hp]

/-- What a call computes when nothing is memoized yet. -/
theorem ContactManager.supportedFeatures_fresh_mem (conn : Connection)
    (p : ContactManager.Private) (hp : p.supportedFeatures = []) (g : Feature) :
    g ∈ (ContactManager.supportedFeatures conn p).1 ↔
      TELEPATHY_INTERFACE_CONNECTION_INTERFACE_CONTACTS ∈ conn.interfaces ∧
      g ∈ ContactManager.allFeatures ∧
      ContactManager.featureToInterface g ∈ conn.contactAttributeInterfaces := by
  unfold ContactManager.supportedFeatures
  by_cases hc : TELEPATHY_INTERFACE_CONNECTION_INTERFACE_CONTACTS ∈ conn.interfaces
  · have hc2 : conn.interfaces.contains
        TELEPATHY_INTERFACE_CONNECTION_INTERFACE_CONTACTS = true := by simpa using hc
    simp only [hp, QSet.isEmpty, List.isEmpty, Bool.true_and, hc2, if_true]
    rw [ContactManager.probe_foldl_mem]
    simp [hp, hc]
  · simp [hp, hc]

/-- C9. On its first call (nothing memoized yet) `supportedFeatures()` returns the empty
set when the connection does not advertise the aggregate Contacts interface, and
otherwise exactly the features among alias, avatar-token, avatar-data, simple-presence,
capabilities, location and info whose backing interface is listed in the connection's
`contactAttributeInterfaces`.  So the result is non-empty only if the aggregate
interface is advertised, and roster-groups is never in it. -/
theorem ContactManager.supportedFeatures_first_call (conn : Connection)
    (mPriv : ContactManager.Private) (hfirst : mPriv.supportedFeatures = []) :
    (TELEPATHY_INTERFACE_CONNECTION_INTERFACE_CONTACTS ∉ conn.interfaces →
      (ContactManager.supportedFeatures conn mPriv).1 = []) ∧
    (TELEPATHY_INTERFACE_CONNECTION_INTERFACE_CONTACTS ∈ conn.interfaces →
      ∀ f : Feature, f ∈ (ContactManager.supportedFeatures conn mPriv).1 ↔
        f ∈ [Feature.FeatureAlias, Feature.FeatureAvatarToken, Feature.FeatureAvatarData,
          Feature.FeatureSimplePresence, Feature.FeatureCapabilities,
          Feature.FeatureLocation, Feature.FeatureInfo] ∧
        ContactManager.featureToInterface f ∈ conn.contactAttributeInterfaces) ∧
    ((ContactManager.supportedFeatures conn mPriv).1 ≠ [] →
      TELEPATHY_INTERFACE_CONNECTION_INTERFACE_CONTACTS ∈ conn.interfaces) ∧
    Feature.FeatureRosterGroups ∉ (ContactManager.supportedFeatures conn mPriv).1 := by
  have key := ContactManager.supportedFeatures_fresh_mem conn mPriv hfirst
  refine ⟨?_, ?_, ?_, ?_⟩
  · intro hno
    rw [List.eq_nil_iff_forall_not_mem]
    intro g hg
    exact hno ((key g).1 hg).1
  · intro hc f
    rw [key f]
    constructor
    · intro h; exact h.2
    · intro h; exact ⟨hc, h⟩
  · intro hne
    obtain ⟨g, hg⟩ := List.exists_mem_of_ne_nil _ hne
    exact ((key g).1 hg).1
  · intro h
    have := ((key _).1 h).2.1
    revert this
    decide

/-- The first-call characterisation at a fresh manager facing the presence-only
connection: the set returned is exactly simple-presence. -/
theorem ContactManager.supportedFeatures_first_call_witness :
    (ContactManager.Private.new false).supportedFeatures = [] ∧
    (TELEPATHY_INTERFACE_CONNECTION_INTERFACE_CONTACTS ∈ presenceOnlyConnection.interfaces →
      ∀ f : Feature,
        f ∈ (ContactManager.supportedFeatures presenceOnlyConnection
              (ContactManager.Private.new false)).1 ↔
        f ∈ [Feature.FeatureAlias, Feature.FeatureAvatarToken, Feature.FeatureAvatarData,
          Feature.FeatureSimplePresence, Feature.FeatureCapabilities,
          Feature.FeatureLocation, Feature.FeatureInfo] ∧
        ContactManager.featureToInterface f ∈
          presenceOnlyConnection.contactAttributeInterfaces) ∧
    (ContactManager.supportedFeatures presenceOnlyConnection
      (ContactManager.Private.new false)).1 = [Feature.FeatureSimplePresence] :=
  ⟨rfl,
    (ContactManager.supportedFeatures_first_call presenceOnlyConnection
      (ContactManager.Private.new false) rfl).2.1,
    by decide⟩

/-- After a call the memoized set is the set that call returned. -/
theorem ContactManager.supportedFeatures_memo_eq (conn : Connection)
    (p : ContactManager.Private) :
    (ContactManager.supportedFeatures conn p).2.supportedFeatures =
      (ContactManager.supportedFeatures conn p).1 := by
  rw [ContactManager.supportedFeatures_frame]

/-- Once a non-empty set is memoized, every call of any later sequence returns it. -/
theorem ContactManager.supportedFeaturesCalls_memo (later : List Connection)
    (p : ContactManager.Private) (h : p.supportedFeatures ≠ []) :
    ∀ S ∈ ContactManager.supportedFeaturesCalls later p, S = p.supportedFeatures := by
  induction later with
  | nil => intro S hS; simp [ContactManager.supportedFeaturesCalls] at hS
  | cons conn later ih =>
    intro S hS
    unfold ContactManager.supportedFeaturesCalls at hS
    rw [ContactManager.supportedFeatures_memo conn p h] at hS
    rcases List.mem_cons.1 hS with h1 | h1
    · exact h1
    · exact ih S h1

/-- C10, the claim fails as stated.  A fresh manager is asked before the connection
advertises anything and returns the empty set; asked again once the connection advertises
the aggregate Contacts interface and the simple-presence interface, it computes again
and returns simple-presence instead of the empty set. -/
theorem ContactManager.supportedFeatures_empty_not_memoized :
    ContactManager.supportedFeaturesCalls [unreadyConnection, presenceOnlyConnection]
      (ContactManager.Private.new false) = [[], [Feature.FeatureSimplePresence]] := by
  decide

/-- C10, amended.  A call of `supportedFeatures()` that returns a non-empty set memoizes
it: every later call, whatever the connection advertises then, returns that same set and
leaves the state untouched (nothing is computed again).  A call that returns the empty
set memoizes nothing and leaves the state as it was, so the next call computes again from
what the connection advertises at that time. -/
theorem ContactManager.supportedFeatures_memoized (conn : Connection)
    (later : List Connection) (mPriv : ContactManager.Private) :
    ((ContactManager.supportedFeatures conn mPriv).1 ≠ [] →
      (∀ S ∈ ContactManager.supportedFeaturesCalls later
          (ContactManager.supportedFeatures conn mPriv).2,
        S = (ContactManager.supportedFeatures conn mPriv).1) ∧
      (∀ conn2 : Connection,
        ContactManager.supportedFeatures conn2 (ContactManager.supportedFeatures conn mPriv).2 =
          ((ContactManager.supportedFeatures conn mPriv).1,
            (ContactManager.supportedFeatures conn mPriv).2))) ∧
    ((ContactManager.supportedFeatures conn mPriv).1 = [] →
      (ContactManager.supportedFeatures conn mPriv).2 = mPriv ∧
      ∀ conn2 : Connection,
        ContactManager.supportedFeatures conn2 (ContactManager.supportedFeatures conn mPriv).2 =
          ContactManager.supportedFeatures conn2 mPriv) := by
  constructor
  · intro hne
    have hmemo := ContactManager.supportedFeatures_memo_eq conn mPriv
    have hne2 : (ContactManager.supportedFeatures conn mPriv).2.supportedFeatures ≠ [] := by
      rw [hmemo]; exact hne
    constructor
    · intro S hS
      rw [← hmemo]
      exact ContactManager.supportedFeaturesCalls_memo later _ hne2 S hS
    · intro conn2
      rw [ContactManager.supportedFeatures_memo conn2 _ hne2, hmemo]
  · intro he
    have hst := ContactManager.supportedFeatures_empty_state conn mPriv he
    exact ⟨hst, fun conn2 => by rw [hst]⟩

/-- The memoization at a fresh manager: the first call, facing the presence-only
connection, returns a non-empty set, and the two later calls, facing connections that
advertise nothing, still return it. -/
theorem ContactManager.supportedFeatures_memoized_witness :
    (ContactManager.supportedFeatures presenceOnlyConnection
      (ContactManager.Private.new false)).1 ≠ [] ∧
    (∀ S ∈ ContactManager.supportedFeaturesCalls [unreadyConnection, invalidConnection]
        (ContactManager.supportedFeatures presenceOnlyConnection
          (ContactManager.Private.new false)).2,
      S = (ContactManager.supportedFeatures presenceOnlyConnection
        (ContactManager.Private.new false)).1) :=
  ⟨by decide,
    ((ContactManager.supportedFeatures_memoized presenceOnlyConnection
      [unreadyConnection, invalidConnection] (ContactManager.Private.new false)).1
        (by decide)).1⟩

/-! ## Precondition failures of the acquisition entry points -/

theorem TELEPATHY_ERROR_NOT_AVAILABLE_ne_empty : TELEPATHY_ERROR_NOT_AVAILABLE ≠ "" := by
  decide

/-- C5. Each of `contactsForHandles`, `contactsForIdentifiers` and `upgradeContacts`, called
on a connection that is invalid or whose `FeatureCore` is not ready, returns an
already-failed result of kind NotAvailable; the reason is "Connection is invalid" when the
connection is invalid (whether or not `FeatureCore` is ready) and
"Connection::FeatureCore is not ready" otherwise.  No work was done: the whole private
state (contact cache, tracked map, memoized supported set) is unchanged and the result
carries no satisfying contacts, no other handles and no interfaces. -/
theorem ContactManager.acquisition_precondition_failure (conn : Connection)
    (a : ContactManager.Acquisition) (features : Features) (mPriv : ContactManager.Private)
    (h : conn.isValid = false ∨ conn.isReady ConnectionFeature.FeatureCore = false) :
    (ContactManager.Acquisition.run conn a features mPriv).1.isFailed = true ∧
    (ContactManager.Acquisition.run conn a features mPriv).1.errorName =
      TELEPATHY_ERROR_NOT_AVAILABLE ∧
    (ContactManager.Acquisition.run conn a features mPriv).1.errorMessage =
      (if conn.isValid = false then "Connection is invalid"
        else "Connection::FeatureCore is not ready") ∧
    (ContactManager.Acquisition.run conn a features mPriv).2 = mPriv ∧
    (ContactManager.Acquisition.run conn a features mPriv).1.satisfyingContacts = [] ∧
    (ContactManager.Acquisition.run conn a features mPriv).1.otherContacts = [] ∧
    (ContactManager.Acquisition.run conn a features mPriv).1.interfaces = [] := by
  have hne := TELEPATHY_ERROR_NOT_AVAILABLE_ne_empty
  cases hv : conn.isValid with
  | false =>
    cases a <;>
      simp [ContactManager.Acquisition.run, ContactManager.contactsForHandles,
        ContactManager.contactsForIdentifiers, ContactManager.upgradeContacts, hv,
        PendingContacts.isFailed, PendingContacts.ofHandles, PendingContacts.ofIdentifiers,
        PendingContacts.ofContacts, hne]
  | true =>
    have hr : conn.isReady ConnectionFeature.FeatureCore = false := by
      rcases h with h | h
      · rw [hv] at h; cases h
      · exact h
    cases a <;>
      simp [ContactManager.Acquisition.run, ContactManager.contactsForHandles,
        ContactManager.contactsForIdentifiers, ContactManager.upgradeContacts, hv, hr,
        PendingContacts.isFailed, PendingContacts.ofHandles, PendingContacts.ofIdentifiers,
        PendingContacts.ofContacts, hne]

/-- The precondition failure of `contactsForHandles` on a valid connection whose
introspection has not finished: the reason names `FeatureCore`. -/
theorem ContactManager.acquisition_precondition_failure_witness :
    (unreadyConnection.isValid = false ∨
      unreadyConnection.isReady ConnectionFeature.FeatureCore = false) ∧
    (ContactManager.Acquisition.run unreadyConnection
      (ContactManager.Acquisition.contactsForHandles [42]) [Feature.FeatureAlias]
      (ContactManager.Private.new false)).1.errorMessage =
        "Connection::FeatureCore is not ready" ∧
    (ContactManager.Acquisition.run unreadyConnection
      (ContactManager.Acquisition.contactsForHandles [42]) [Feature.FeatureAlias]
      (ContactManager.Private.new false)).2 = ContactManager.Private.new false :=
  ⟨Or.inr rfl,
    (ContactManager.acquisition_precondition_failure unreadyConnection
      (ContactManager.Acquisition.contactsForHandles [42]) [Feature.FeatureAlias]
      (ContactManager.Private.new false) (Or.inr rfl)).2.2.1,
    (ContactManager.acquisition_precondition_failure unreadyConnection
      (ContactManager.Acquisition.contactsForHandles [42]) [Feature.FeatureAlias]
      (ContactManager.Private.new false) (Or.inr rfl)).2.2.2.1⟩

/-- C6, the claim fails as stated.  On a valid, ready connection whose factory defaults to
the alias feature, `upgradeContacts` with the empty feature set hands the empty set, not
the set holding alias, to its (successful) pending-contacts object; and
`contactsForIdentifiers` on the same connection once invalidated hands the empty set
too. -/
theorem ContactManager.acquisition_features_not_widened :
    Feature.FeatureAlias ∈ aliasFactoryConnection.contactFactoryFeatures ∧
    (ContactManager.upgradeContacts aliasFactoryConnection [] []
      (ContactManager.Private.new false)).1.isFailed = false ∧
    (ContactManager.upgradeContacts aliasFactoryConnection [] []
      (ContactManager.Private.new false)).1.features = [] ∧
    (ContactManager.contactsForIdentifiers
      { aliasFactoryConnection with isValid := false } ["alice"] []
      (ContactManager.Private.new false)).1.features = [] := by
  decide

/-- C6, amended.  With F the requested feature set and D the default feature set of the
connection's contact factory: `contactsForHandles` hands F ∪ D to its pending-contacts
object on every path; `contactsForIdentifiers` hands F ∪ D when the connection is valid
and `FeatureCore` is ready, and F as given on its two failure paths; `upgradeContacts`
hands F as given on every path. -/
theorem ContactManager.acquisition_features (conn : Connection) (features : Features)
    (mPriv : ContactManager.Private) :
    (∀ (handles : List Nat) (f : Feature),
      f ∈ (ContactManager.contactsForHandles conn handles features mPriv).1.features ↔
        f ∈ features ∨ f ∈ conn.contactFactoryFeatures) ∧
    (∀ (identifiers : List String) (f : Feature),
      f ∈ (ContactManager.contactsForIdentifiers conn identifiers features mPriv).1.features ↔
        f ∈ features ∨
          (conn.isValid = true ∧ conn.isReady ConnectionFeature.FeatureCore = true ∧
            f ∈ conn.contactFactoryFeatures)) ∧
    (∀ contacts : List Contact,
      (ContactManager.upgradeContacts conn contacts features mPriv).1.features = features) := by
  refine ⟨?_, ?_, ?_⟩
  · intro handles f
    rw [← QSet.mem_unite]
    unfold ContactManager.contactsForHandles
    cases conn.isValid <;> cases conn.isReady ConnectionFeature.FeatureCore <;>
      simp [PendingContacts.ofHandles]
  · intro identifiers f
    unfold ContactManager.contactsForIdentifiers
    cases conn.isValid <;> cases conn.isReady ConnectionFeature.FeatureCore <;>
      simp [PendingContacts.ofIdentifiers, QSet.mem_unite]
  · intro contacts
    unfold ContactManager.upgradeContacts
    cases conn.isValid <;> cases conn.isReady ConnectionFeature.FeatureCore <;>
      simp [PendingContacts.ofContacts]

/-! ## Roster mutations -/

/-- Every roster mutation, in one formula: the collaborator's result when the connection
is valid and the required feature ready, a NotAvailable failure otherwise. -/
theorem ContactManager.call_eq {σ Op : Type} (conn : Connection)
    (roster : ContactManager.Roster σ Op) (c : RosterCall) (r : σ) :
    ContactManager.call conn roster c r =
      if conn.isValid && conn.isReady c.requiredFeature then
        ((roster.call c r).map PendingOperation.fromRoster id)
      else
        (PendingOperation.PendingFailure TELEPATHY_ERROR_NOT_AVAILABLE
          (if conn.isValid then c.requiredFeature.notReadyReason
            else "Connection is invalid"), r) := by
  cases c <;>
    simp only [ContactManager.call, ContactManager.Roster.call, RosterCall.requiredFeature,
      ConnectionFeature.notReadyReason, ContactManager.addGroup, ContactManager.removeGroup,
      ContactManager.addContactsToGroup, ContactManager.removeContactsFromGroup,
      ContactManager.requestPresenceSubscription, ContactManager.removePresenceSubscription,
      ContactManager.authorizePresencePublication, ContactManager.removePresencePublication,
      ContactManager.removeContacts, ContactManager.blockContacts] <;>
    cases conn.isValid <;>
    first
      | rfl
      | (cases conn.isReady ConnectionFeature.FeatureRosterGroups <;> rfl)
      | (cases conn.isReady ConnectionFeature.FeatureRoster <;> rfl)

/-- A call on the recording roster returns the call and appends it to the record. -/
theorem spyRoster_call (c : RosterCall) (log : List RosterCall) :
    spyRoster.call c log = (c, log ++ [c]) := by
  cases c <;> rfl

/-- C7, the claim fails as stated.  On an invalidated connection, where the roster-groups
feature is not ready, `addGroup` fails with the reason "Connection is invalid", which is
neither of the two reasons that name a missing feature. -/
theorem ContactManager.roster_gating_reason_when_invalid :
    invalidConnection.isReady (RosterCall.addGroup "friends").requiredFeature = false ∧
    ContactManager.call invalidConnection spyRoster (RosterCall.addGroup "friends") [] =
      (PendingOperation.PendingFailure TELEPATHY_ERROR_NOT_AVAILABLE "Connection is invalid",
        []) ∧
    "Connection is invalid" ≠ "Connection::FeatureRoster is not ready" ∧
    "Connection is invalid" ≠ "Connection::FeatureRosterGroups is not ready" := by
  decide

/-- C7, amended.  For each of the ten roster-gated mutations, whenever
`isReady(requiredFeature)` is false the call yields a NotAvailable failure and no call
reaches the roster collaborator (its state is untouched, and a recording roster records
nothing); the reason names the missing feature ("Connection::FeatureRoster is not ready"
or "Connection::FeatureRosterGroups is not ready") when the connection is valid, and is
"Connection is invalid" when it is not. -/
theorem ContactManager.roster_gating {σ Op : Type} (conn : Connection)
    (roster : ContactManager.Roster σ Op) (c : RosterCall) (r : σ) (log : List RosterCall)
    (hnot : conn.isReady c.requiredFeature = false) :
    ContactManager.call conn roster c r =
      (PendingOperation.PendingFailure TELEPATHY_ERROR_NOT_AVAILABLE
        (if conn.isValid then
          (if c.requiredFeature = ConnectionFeature.FeatureRosterGroups then
            "Connection::FeatureRosterGroups is not ready"
          else "Connection::FeatureRoster is not ready")
        else "Connection is invalid"), r) ∧
    (ContactManager.call conn spyRoster c log).2 = log := by
  rw [ContactManager.call_eq, ContactManager.call_eq, hnot]
  simp only [Bool.and_false, Bool.false_eq_true, if_false, and_true]
  cases c <;> simp [RosterCall.requiredFeature, ConnectionFeature.notReadyReason]

/-- The gating of `blockContacts` on a valid connection whose roster is not ready: the
reason names `FeatureRoster` and the recording roster records nothing. -/
theorem ContactManager.roster_gating_witness :
    unreadyConnection.isReady (RosterCall.blockContacts [] true).requiredFeature = false ∧
    ContactManager.call unreadyConnection spyRoster (RosterCall.blockContacts [] true) [] =
      (PendingOperation.PendingFailure TELEPATHY_ERROR_NOT_AVAILABLE
        "Connection::FeatureRoster is not ready", []) :=
  ⟨rfl,
    (ContactManager.roster_gating unreadyConnection spyRoster
      (RosterCall.blockContacts [] true) [] [] rfl).1⟩

/-- C8. Each of the ten roster mutations delegates to the roster collaborator exactly when
the connection is valid and the required feature is ready (roster-groups for `addGroup`,
`removeGroup`, `addContactsToGroup`, `removeContactsFromGroup`; roster for the six
others): it then returns the collaborator's result and state for the same call with
the same arguments, a recording roster recording that one call; in every other case the
result is a NotAvailable failure and the collaborator is not called. -/
theorem ContactManager.roster_delegation {σ Op : Type} (conn : Connection)
    (roster : ContactManager.Roster σ Op) (c : RosterCall) (r : σ) (log : List RosterCall) :
    ContactManager.call conn roster c r =
      (if conn.isValid = true ∧
          conn.isReady
            (match c with
              | RosterCall.addGroup _ => ConnectionFeature.FeatureRosterGroups
              | RosterCall.removeGroup _ => ConnectionFeature.FeatureRosterGroups
              | RosterCall.addContactsToGroup _ _ => ConnectionFeature.FeatureRosterGroups
              | RosterCall.removeContactsFromGroup _ _ => ConnectionFeature.FeatureRosterGroups
              | _ => ConnectionFeature.FeatureRoster) = true then
        (PendingOperation.fromRoster (roster.call c r).1, (roster.call c r).2)
      else
        (PendingOperation.PendingFailure TELEPATHY_ERROR_NOT_AVAILABLE
          (if conn.isValid then c.requiredFeature.notReadyReason
            else "Connection is invalid"), r)) ∧
    ((ContactManager.call conn spyRoster c log).2 = log ++ [c] ↔
      (conn.isValid = true ∧ conn.isReady c.requiredFeature = true)) ∧
    (ContactManager.call conn spyRoster c log = (PendingOperation.fromRoster c, log ++ [c]) ∨
      (ContactManager.call conn spyRoster c log).2 = log) := by
  have hreq : (match c with
      | RosterCall.addGroup _ => ConnectionFeature.FeatureRosterGroups
      | RosterCall.removeGroup _ => ConnectionFeature.FeatureRosterGroups
      | RosterCall.addContactsToGroup _ _ => ConnectionFeature.FeatureRosterGroups
      | RosterCall.removeContactsFromGroup _ _ => ConnectionFeature.FeatureRosterGroups
      | _ => ConnectionFeature.FeatureRoster) = c.requiredFeature := by
    cases c <;> rfl
  rw [hreq, ContactManager.call_eq, ContactManager.call_eq, spyRoster_call]
  cases conn.isValid <;> cases conn.isReady c.requiredFeature <;> simp [Prod.map]

/-! ## The contact cache -/

theorem ContactManager.lookupContactByHandle_fst (p : ContactManager.Private) (h : Nat) :
    (ContactManager.lookupContactByHandle p h).1 = p.liveContact h := by
  unfold ContactManager.lookupContactByHandle ContactManager.Private.liveContact QMap.contains
  cases hf : QMap.find p.contacts h with
  | none => simp
  | some w => cases w <;> simp

theorem ContactManager.lookupContactByHandle_frame (p : ContactManager.Private) (h : Nat) :
    (ContactManager.lookupContactByHandle p h).2 =
      { p with contacts := (ContactManager.lookupContactByHandle p h).2.contacts } := by
  unfold ContactManager.lookupContactByHandle
  split
  · split <;> rfl
  · rfl

theorem ContactManager.lookupContactByHandle_live (p : ContactManager.Private) (h h' : Nat) :
    (ContactManager.lookupContactByHandle p h).2.liveContact h' = p.liveContact h' := by
  unfold ContactManager.lookupContactByHandle ContactManager.Private.liveContact QMap.contains
  cases hf : QMap.find p.contacts h with
  | none => simp
  | some w =>
    cases w with
    | some c => simp
    | none =>
      simp only [Option.isSome_some, if_true, Option.getD_some]
      rw [QMap.find_remove]
      by_cases hh : h' = h
      · subst hh; simp [hf]
      · simp [hh]

theorem ContactManager.Private.cacheOnly_refl (p : ContactManager.Private) :
    p.cacheOnly p := by
  unfold ContactManager.Private.cacheOnly
  rfl

theorem ContactManager.Private.cacheOnly_trans (p q r : ContactManager.Private)
    (h1 : p.cacheOnly q) (h2 : q.cacheOnly r) : p.cacheOnly r := by
  unfold ContactManager.Private.cacheOnly at *
  rw [h2, h1]

/-! ## The handle loop of `contactsForHandles` -/

theorem ContactManager.satisfied_some (p0 : ContactManager.Private) (R : Features) (h0 : Nat)
    (c : Contact) (hc : p0.liveContact h0 = some c) :
    p0.satisfied R h0 ↔ QSet.isEmpty (QSet.subtract R c.requestedFeatures) = true := by
  rw [QSet.isEmpty_subtract]
  unfold ContactManager.Private.satisfied
  constructor
  · rintro ⟨c', hc', hall⟩
    rw [hc] at hc'
    cases hc'
    exact hall
  · intro hall
    exact ⟨c, hc, hall⟩

theorem ContactManager.not_satisfied_none (p0 : ContactManager.Private) (R : Features)
    (h0 : Nat) (hc : p0.liveContact h0 = none) : ¬ p0.satisfied R h0 := by
  rintro ⟨c, hc', _⟩
  rw [hc] at hc'
  cases hc'

theorem ContactManager.scanHandle_spec (R : Features) (p0 : ContactManager.Private)
    (acc : ContactManager.HandleScan × ContactManager.Private) (h0 : Nat)
    (hlive : ∀ h, acc.2.liveContact h = p0.liveContact h)
    (hsub : ∀ f, f ∈ acc.1.missingFeatures → f ∈ R) :
    (∀ h, (ContactManager.scanHandle R acc h0).2.liveContact h = p0.liveContact h) ∧
    (∀ f, f ∈ (ContactManager.scanHandle R acc h0).1.missingFeatures → f ∈ R) ∧
    (p0.satisfied R h0 →
      QMap.find (ContactManager.scanHandle R acc h0).1.satisfyingContacts h0 =
        p0.liveContact h0) ∧
    (∀ h, ¬ (h = h0 ∧ p0.satisfied R h0) →
      QMap.find (ContactManager.scanHandle R acc h0).1.satisfyingContacts h =
        QMap.find acc.1.satisfyingContacts h) ∧
    (∀ h, h ∈ (ContactManager.scanHandle R acc h0).1.otherContacts ↔
      h ∈ acc.1.otherContacts ∨ (h = h0 ∧ ¬ p0.satisfied R h0)) ∧
    (∀ f, f ∈ (ContactManager.scanHandle R acc h0).1.missingFeatures ↔
      f ∈ acc.1.missingFeatures ∨ p0.lacks R h0 f) ∧
    acc.2.cacheOnly (ContactManager.scanHandle R acc h0).2 := by
  have hfst : (ContactManager.lookupContactByHandle acc.2 h0).1 = p0.liveContact h0 := by
    rw [ContactManager.lookupContactByHandle_fst, hlive]
  have hl2 : ∀ h, (ContactManager.lookupContactByHandle acc.2 h0).2.liveContact h =
      p0.liveContact h := by
    intro h; rw [ContactManager.lookupContactByHandle_live, hlive]
  have hfr := ContactManager.lookupContactByHandle_frame acc.2 h0
  cases hc : p0.liveContact h0 with
  | none =>
    have hns := ContactManager.not_satisfied_none p0 R h0 hc
    rw [hc] at hfst
    have e : ContactManager.scanHandle R acc h0 =
        ({ acc.1 with missingFeatures := R,
                      otherContacts := QSet.insert acc.1.otherContacts h0 },
          (ContactManager.lookupContactByHandle acc.2 h0).2) := by
      simp only [ContactManager.scanHandle, hfst]
    rw [e]
    refine ⟨hl2, fun f hf => hf, fun hs => absurd hs hns, fun h _ => rfl, ?_, ?_, hfr⟩
    · intro h
      rw [QSet.mem_insert]
      simp [hns]
    · intro f
      unfold ContactManager.Private.lacks
      constructor
      · intro hf
        exact Or.inr ⟨hf, fun c hc' => by rw [hc] at hc'; cases hc'⟩
      · rintro (hf | hf)
        · exact hsub f hf
        · exact hf.1
  | some c =>
    have hiff := ContactManager.satisfied_some p0 R h0 c hc
    rw [hc] at hfst
    by_cases hs : QSet.isEmpty (QSet.subtract R c.requestedFeatures) = true
    · have hsat := hiff.2 hs
      have e : ContactManager.scanHandle R acc h0 =
          ({ acc.1 with
              satisfyingContacts := QMap.insert acc.1.satisfyingContacts h0 c },
            (ContactManager.lookupContactByHandle acc.2 h0).2) := by
        simp only [ContactManager.scanHandle, hfst, hs, if_true]
      rw [e]
      refine ⟨hl2, hsub, ?_, ?_, ?_, ?_, hfr⟩
      · intro _
        rw [QMap.find_insert]; simp
      · intro h hn
        rw [QMap.find_insert]
        have : h ≠ h0 := fun e => hn ⟨e, hsat⟩
        simp [this]
      · intro h
        simp [hsat]
      · intro f
        unfold ContactManager.Private.lacks
        constructor
        · intro hf; exact Or.inl hf
        · rintro (hf | ⟨hfR, hf⟩)
          · exact hf
          · exact absurd ((QSet.isEmpty_subtract _ _).1 hs f hfR) (hf c hc)
    · have hsat : ¬ p0.satisfied R h0 := fun h => hs (hiff.1 h)
      have e : ContactManager.scanHandle R acc h0 =
          ({ acc.1 with
              otherContacts := QSet.insert acc.1.otherContacts h0,
              missingFeatures := QSet.unite acc.1.missingFeatures
                (QSet.subtract R c.requestedFeatures) },
            (ContactManager.lookupContactByHandle acc.2 h0).2) := by
        simp only [ContactManager.scanHandle, hfst, hs, Bool.false_eq_true, if_false]
      rw [e]
      refine ⟨hl2, ?_, fun h => absurd h hsat, fun h _ => rfl, ?_, ?_, hfr⟩
      · intro f hf
        rw [QSet.mem_unite, QSet.mem_subtract] at hf
        rcases hf with hf | hf
        · exact hsub f hf
        · exact hf.1
      · intro h
        rw [QSet.mem_insert]
        simp [hsat]
      · intro f
        rw [QSet.mem_unite, QSet.mem_subtract]
        unfold ContactManager.Private.lacks
        constructor
        · rintro (hf | ⟨hfR, hf⟩)
          · exact Or.inl hf
          · refine Or.inr ⟨hfR, fun c' hc' => ?_⟩
            rw [hc] at hc'; cases hc'; exact hf
        · rintro (hf | ⟨hfR, hf⟩)
          · exact Or.inl hf
          · exact Or.inr ⟨hfR, hf c hc⟩

theorem ContactManager.scan_foldl_spec (R : Features) (p0 : ContactManager.Private)
    (handles : List Nat) :
    ∀ acc : ContactManager.HandleScan × ContactManager.Private,
    (∀ h, acc.2.liveContact h = p0.liveContact h) →
    (∀ f, f ∈ acc.1.missingFeatures → f ∈ R) →
    (∀ h, (handles.foldl (ContactManager.scanHandle R) acc).2.liveContact h =
      p0.liveContact h) ∧
    (∀ h, h ∈ handles → p0.satisfied R h →
      QMap.find (handles.foldl (ContactManager.scanHandle R) acc).1.satisfyingContacts h =
        p0.liveContact h) ∧
    (∀ h, ¬ (h ∈ handles ∧ p0.satisfied R h) →
      QMap.find (handles.foldl (ContactManager.scanHandle R) acc).1.satisfyingContacts h =
        QMap.find acc.1.satisfyingContacts h) ∧
    (∀ h, h ∈ (handles.foldl (ContactManager.scanHandle R) acc).1.otherContacts ↔
      h ∈ acc.1.otherContacts ∨ (h ∈ handles ∧ ¬ p0.satisfied R h)) ∧
    (∀ f, f ∈ (handles.foldl (ContactManager.scanHandle R) acc).1.missingFeatures ↔
      f ∈ acc.1.missingFeatures ∨ ∃ h, h ∈ handles ∧ p0.lacks R h f) ∧
    acc.2.cacheOnly (handles.foldl (ContactManager.scanHandle R) acc).2 := by
  induction handles with
  | nil =>
    intro acc hlive _
    refine ⟨hlive, ?_, fun h _ => rfl, ?_, ?_, ContactManager.Private.cacheOnly_refl _⟩
    · intro h hh; simp at hh
    · intro h; simp
    · intro f; simp
  | cons h0 hs ih =>
    intro acc hlive hsub
    obtain ⟨s1, s2, s3, s4, s5, s6, s7⟩ := ContactManager.scanHandle_spec R p0 acc h0 hlive hsub
    obtain ⟨i1, i2, i3, i4, i5, i6⟩ := ih (ContactManager.scanHandle R acc h0) s1 s2
    rw [List.foldl_cons]
    refine ⟨i1, ?_, ?_, ?_, ?_, ContactManager.Private.cacheOnly_trans _ _ _ s7 i6⟩
    · intro h hh hsat
      by_cases hin : h ∈ hs
      · exact i2 h hin hsat
      · have hh0 : h = h0 := by
          rcases List.mem_cons.1 hh with e | e
          · exact e
          · exact absurd e hin
        rw [i3 h (fun hx => hin hx.1), hh0]
        rw [hh0] at hsat
        exact s3 hsat
    · intro h hn
      have h1 : ¬ (h ∈ hs ∧ p0.satisfied R h) := fun hx =>
        hn ⟨List.mem_cons_of_mem _ hx.1, hx.2⟩
      have h2 : ¬ (h = h0 ∧ p0.satisfied R h0) := fun hx => by
        apply hn
        refine ⟨?_, ?_⟩
        · rw [hx.1]; exact List.mem_cons_self _ _
        · rw [hx.1]; exact hx.2
      rw [i3 h h1, s4 h h2]
    · intro h
      rw [i4, s5, List.mem_cons]
      constructor
      · rintro ((h1 | ⟨h1, h2⟩) | ⟨h1, h2⟩)
        · exact Or.inl h1
        · exact Or.inr ⟨Or.inl h1, by rw [h1]; exact h2⟩
        · exact Or.inr ⟨Or.inr h1, h2⟩
      · rintro (h1 | ⟨h1 | h1, h2⟩)
        · exact Or.inl (Or.inl h1)
        · exact Or.inl (Or.inr ⟨h1, by rw [← h1]; exact h2⟩)
        · exact Or.inr ⟨h1, h2⟩
    · intro f
      rw [i5, s6]
      constructor
      · rintro ((h1 | h1) | ⟨h, h1, h2⟩)
        · exact Or.inl h1
        · exact Or.inr ⟨h0, List.mem_cons_self _ _, h1⟩
        · exact Or.inr ⟨h, List.mem_cons_of_mem _ h1, h2⟩
      · rintro (h1 | ⟨h, h1, h2⟩)
        · exact Or.inl (Or.inl h1)
        · rcases List.mem_cons.1 h1 with e | e
          · rw [e] at h2; exact Or.inl (Or.inr h2)
          · exact Or.inr ⟨h, e, h2⟩

/-- The handle loop from empty locals, against the state the call started in. -/
theorem ContactManager.scanHandles_spec (R : Features) (handles : List Nat)
    (p0 : ContactManager.Private) :
    (∀ h, h ∈ handles → p0.satisfied R h →
      QMap.find (ContactManager.scanHandles R handles p0).1.satisfyingContacts h =
        p0.liveContact h) ∧
    (∀ h, ¬ (h ∈ handles ∧ p0.satisfied R h) →
      QMap.find (ContactManager.scanHandles R handles p0).1.satisfyingContacts h = none) ∧
    (∀ h, h ∈ (ContactManager.scanHandles R handles p0).1.otherContacts ↔
      (h ∈ handles ∧ ¬ p0.satisfied R h)) ∧
    (∀ f, f ∈ (ContactManager.scanHandles R handles p0).1.missingFeatures ↔
      ∃ h, h ∈ handles ∧ p0.lacks R h f) ∧
    p0.cacheOnly (ContactManager.scanHandles R handles p0).2 := by
  obtain ⟨_, i2, i3, i4, i5, i6⟩ := ContactManager.scan_foldl_spec R p0 handles
    ({ satisfyingContacts := [], otherContacts := [], missingFeatures := [] }, p0)
    (fun _ => rfl) (fun f hf => by simp at hf)
  unfold ContactManager.scanHandles
  refine ⟨i2, ?_, ?_, ?_, i6⟩
  · intro h hn; rw [i3 h hn]; rfl
  · intro h; rw [i4]; simp
  · intro f; rw [i5]; simp

/-! ## Tracking and interface collection -/

theorem ContactManager.Private.connectFeature_tracking (p : ContactManager.Private)
    (f : Feature) : (p.connectFeature f).tracking = p.tracking := by
  unfold ContactManager.Private.connectFeature
  repeat' split
  all_goals rfl

theorem ContactManager.Private.ensureTracking_isTracked (p : ContactManager.Private)
    (f g : Feature) :
    (p.ensureTracking f).isTracked g = true ↔ p.isTracked g = true ∨ g = f := by
  unfold ContactManager.Private.ensureTracking
  by_cases ht : p.isTracked f = true
  · simp only [ht, if_true]
    constructor
    · intro h; exact Or.inl h
    · rintro (h | h)
      · exact h
      · rw [h]; exact ht
  · simp only [ht, Bool.false_eq_true, if_false]
    unfold ContactManager.Private.isTracked
    simp only [ContactManager.Private.connectFeature_tracking]
    rw [QMap.find_insert]
    by_cases hg : g = f
    · simp [hg]
    · simp [hg]

theorem ContactManager.collect_foldl_tracked (supported : Features) (L : List Feature)
    (acc : QSet String × ContactManager.Private) (g : Feature) :
    (L.foldl (ContactManager.collectInterface supported) acc).2.isTracked g = true ↔
      acc.2.isTracked g = true ∨ g ∈ L := by
  induction L generalizing acc with
  | nil => simp
  | cons f L ih =>
    rw [List.foldl_cons, ih]
    have h2 : (ContactManager.collectInterface supported acc f).2 = acc.2.ensureTracking f := by
      unfold ContactManager.collectInterface
      split <;> rfl
    rw [h2, ContactManager.Private.ensureTracking_isTracked, List.mem_cons]
    tauto

theorem ContactManager.collect_foldl_interfaces (supported : Features) (L : List Feature)
    (acc : QSet String × ContactManager.Private) (i : String) :
    i ∈ (L.foldl (ContactManager.collectInterface supported) acc).1 ↔
      i ∈ acc.1 ∨ ∃ f, f ∈ L ∧ f ∈ supported ∧ ContactManager.featureToInterface f = i := by
  induction L generalizing acc with
  | nil => simp
  | cons f L ih =>
    rw [List.foldl_cons, ih]
    have h1 : i ∈ (ContactManager.collectInterface supported acc f).1 ↔
        i ∈ acc.1 ∨ (f ∈ supported ∧ ContactManager.featureToInterface f = i) := by
      unfold ContactManager.collectInterface
      by_cases hs : f ∈ supported
      · simp [QSet.contains, hs, QSet.mem_insert, eq_comm]
      · simp [QSet.contains, hs]
    rw [h1]
    constructor
    · rintro ((h | ⟨h, h2⟩) | ⟨f', h, h2⟩)
      · exact Or.inl h
      · exact Or.inr ⟨f, List.mem_cons_self _ _, h, h2⟩
      · exact Or.inr ⟨f', List.mem_cons_of_mem _ h, h2⟩
    · rintro (h | ⟨f', h, h2⟩)
      · exact Or.inl (Or.inl h)
      · rcases List.mem_cons.1 h with e | e
        · rw [e] at h2; exact Or.inl (Or.inr h2)
        · exact Or.inr ⟨f', e, h2⟩

/-- A memoized set that lists only features whose backing interface the connection lists
stays so across a call, and so does the set returned. -/
theorem ContactManager.supportedFeatures_listed (conn : Connection)
    (p : ContactManager.Private)
    (hmemo : ∀ f, f ∈ p.supportedFeatures →
      ContactManager.featureToInterface f ∈ conn.contactAttributeInterfaces)
    (f : Feature) (hf : f ∈ (ContactManager.supportedFeatures conn p).1) :
    ContactManager.featureToInterface f ∈ conn.contactAttributeInterfaces := by
  by_cases hp : p.supportedFeatures = []
  · exact ((ContactManager.supportedFeatures_fresh_mem conn p hp f).1 hf).2.2
  · rw [ContactManager.supportedFeatures_memo conn p hp] at hf
    exact hmemo f hf

/-- The successful path of `contactsForHandles`, with its three stages named. -/
theorem ContactManager.contactsForHandles_success (conn : Connection) (handles : List Nat)
    (features : Features) (mPriv : ContactManager.Private)
    (hvalid : conn.isValid = true)
    (hready : conn.isReady ConnectionFeature.FeatureCore = true) :
    ContactManager.contactsForHandles conn handles features mPriv =
      (PendingContacts.ofHandles handles (QSet.unite features conn.contactFactoryFeatures)
        ((ContactManager.scanHandles (QSet.unite features conn.contactFactoryFeatures)
            handles mPriv).1.missingFeatures.foldl
          (ContactManager.collectInterface
            (ContactManager.supportedFeatures conn
              (ContactManager.scanHandles (QSet.unite features conn.contactFactoryFeatures)
                handles mPriv).2).1)
          ([], (ContactManager.supportedFeatures conn
              (ContactManager.scanHandles (QSet.unite features conn.contactFactoryFeatures)
                handles mPriv).2).2)).1
        (ContactManager.scanHandles (QSet.unite features conn.contactFactoryFeatures)
          handles mPriv).1.satisfyingContacts
        (ContactManager.scanHandles (QSet.unite features conn.contactFactoryFeatures)
          handles mPriv).1.otherContacts "" "",
       ((ContactManager.scanHandles (QSet.unite features conn.contactFactoryFeatures)
            handles mPriv).1.missingFeatures.foldl
          (ContactManager.collectInterface
            (ContactManager.supportedFeatures conn
              (ContactManager.scanHandles (QSet.unite features conn.contactFactoryFeatures)
                handles mPriv).2).1)
          ([], (ContactManager.supportedFeatures conn
              (ContactManager.scanHandles (QSet.unite features conn.contactFactoryFeatures)
                handles mPriv).2).2)).2) := by
  unfold ContactManager.contactsForHandles
  simp [hvalid, hready]

theorem ContactManager.satisfied_iff_lookup (mPriv : ContactManager.Private)
    (features defaults : Features) (h : Nat) :
    mPriv.satisfied (QSet.unite features defaults) h ↔
      ∃ c : Contact, (ContactManager.lookupContactByHandle mPriv h).1 = some c ∧
        ∀ f, (f ∈ features ∨ f ∈ defaults) → f ∈ c.requestedFeatures := by
  unfold ContactManager.Private.satisfied
  rw [ContactManager.lookupContactByHandle_fst]
  simp only [QSet.mem_unite]

/-! ## The acquisition by handles -/

/-- C1. On a valid connection with `FeatureCore` ready, `contactsForHandles` puts every
requested handle in exactly one of its two result groups.  With R the requested features
united with the factory defaults: if `lookupContactByHandle` finds a live contact whose
requested features contain all of R, the handle is in the satisfying map, bound to that
contact, and not among the other handles; otherwise (no live contact, or one lacking a
feature of R) it is among the other handles and not in the satisfying map. -/
theorem ContactManager.contactsForHandles_partition (conn : Connection)
    (handles : List Nat) (features : Features) (mPriv : ContactManager.Private)
    (hvalid : conn.isValid = true)
    (hready : conn.isReady ConnectionFeature.FeatureCore = true)
    (h : Nat) (hh : h ∈ handles) :
    ((∃ c : Contact, (ContactManager.lookupContactByHandle mPriv h).1 = some c ∧
        ∀ f, (f ∈ features ∨ f ∈ conn.contactFactoryFeatures) → f ∈ c.requestedFeatures) →
      QMap.find
          (ContactManager.contactsForHandles conn handles features mPriv).1.satisfyingContacts h =
        (ContactManager.lookupContactByHandle mPriv h).1 ∧
      h ∉ (ContactManager.contactsForHandles conn handles features mPriv).1.otherContacts) ∧
    (¬ (∃ c : Contact, (ContactManager.lookupContactByHandle mPriv h).1 = some c ∧
        ∀ f, (f ∈ features ∨ f ∈ conn.contactFactoryFeatures) → f ∈ c.requestedFeatures) →
      h ∈ (ContactManager.contactsForHandles conn handles features mPriv).1.otherContacts ∧
      QMap.find
          (ContactManager.contactsForHandles conn handles features mPriv).1.satisfyingContacts h =
        none) := by
  rw [ContactManager.contactsForHandles_success conn handles features mPriv hvalid hready]
  rw [← ContactManager.satisfied_iff_lookup, ContactManager.lookupContactByHandle_fst]
  obtain ⟨k1, k2, k3, _, _⟩ := ContactManager.scanHandles_spec
    (QSet.unite features conn.contactFactoryFeatures) handles mPriv
  simp only [PendingContacts.ofHandles]
  constructor
  · intro hsat
    refine ⟨k1 h hh hsat, ?_⟩
    rw [k3]
    exact fun hx => hx.2 hsat
  · intro hns
    refine ⟨(k3 h).2 ⟨hh, hns⟩, k2 h (fun hx => hns hx.2)⟩

/-- A cache holding a live contact for handle 7 that requested alias only, and a dangling
entry for handle 9. -/
theorem ContactManager.contactsForHandles_partition_witness :
    presenceOnlyConnection.isValid = true ∧
    presenceOnlyConnection.isReady ConnectionFeature.FeatureCore = true ∧
    7 ∈ [9, 7, 9] ∧
    QMap.find
      (ContactManager.contactsForHandles presenceOnlyConnection [9, 7, 9]
        [Feature.FeatureAlias]
        { ContactManager.Private.new false with
          contacts := [(7, some { handle := 7, requestedFeatures := [Feature.FeatureAlias] }),
            (9, none)] }).1.satisfyingContacts 7 =
      some { handle := 7, requestedFeatures := [Feature.FeatureAlias] } :=
  ⟨rfl, rfl, by decide,
    ((ContactManager.contactsForHandles_partition presenceOnlyConnection [9, 7, 9]
      [Feature.FeatureAlias]
      { ContactManager.Private.new false with
        contacts := [(7, some { handle := 7, requestedFeatures := [Feature.FeatureAlias] }),
          (9, none)] } rfl rfl 7 (by decide)).1
      ⟨{ handle := 7, requestedFeatures := [Feature.FeatureAlias] }, by decide,
        fun f hf => hf.elim id (fun hd => absurd hd (List.not_mem_nil f))⟩).1⟩

/-- C2. The missing-feature set `contactsForHandles` has computed when its handle loop ends
is, as a set, the union over the handles placed in the other group of R minus what that
handle's live contact already requested (all of R when it has no live contact), R being
the requested features united with the factory defaults.  This holds for every handle
list, whatever its order and repetitions, and the set is always a subset of R. -/
theorem ContactManager.contactsForHandles_missingFeatures (conn : Connection)
    (handles : List Nat) (features : Features) (mPriv : ContactManager.Private)
    (f : Feature) :
    (f ∈ (ContactManager.scanHandles (QSet.unite features conn.contactFactoryFeatures)
          handles mPriv).1.missingFeatures ↔
      ∃ h, h ∈ (ContactManager.scanHandles (QSet.unite features conn.contactFactoryFeatures)
          handles mPriv).1.otherContacts ∧
        (f ∈ features ∨ f ∈ conn.contactFactoryFeatures) ∧
        ∀ c : Contact, (ContactManager.lookupContactByHandle mPriv h).1 = some c →
          f ∉ c.requestedFeatures) ∧
    (f ∈ (ContactManager.scanHandles (QSet.unite features conn.contactFactoryFeatures)
          handles mPriv).1.missingFeatures →
      f ∈ features ∨ f ∈ conn.contactFactoryFeatures) := by
  obtain ⟨_, _, k3, k4, _⟩ := ContactManager.scanHandles_spec
    (QSet.unite features conn.contactFactoryFeatures) handles mPriv
  have hiff : f ∈ (ContactManager.scanHandles
        (QSet.unite features conn.contactFactoryFeatures) handles mPriv).1.missingFeatures ↔
      ∃ h, h ∈ (ContactManager.scanHandles (QSet.unite features conn.contactFactoryFeatures)
          handles mPriv).1.otherContacts ∧
        (f ∈ features ∨ f ∈ conn.contactFactoryFeatures) ∧
        ∀ c : Contact, (ContactManager.lookupContactByHandle mPriv h).1 = some c →
          f ∉ c.requestedFeatures := by
    rw [k4]
    constructor
    · rintro ⟨h, hh, hR, hl⟩
      refine ⟨h, (k3 h).2 ⟨hh, ?_⟩, (QSet.mem_unite _ _ _).1 hR, ?_⟩
      · rintro ⟨c, hc, hall⟩
        exact hl c hc (hall f hR)
      · intro c hc
        rw [ContactManager.lookupContactByHandle_fst] at hc
        exact hl c hc
    · rintro ⟨h, hh, hR, hl⟩
      refine ⟨h, ((k3 h).1 hh).1, (QSet.mem_unite _ _ _).2 hR, ?_⟩
      intro c hc
      rw [← ContactManager.lookupContactByHandle_fst] at hc
      exact hl c hc
  refine ⟨hiff, ?_⟩
  intro hf
  obtain ⟨_, _, hR, _⟩ := hiff.1 hf
  exact hR

/-- The missing-feature set for the handle list 9, 7, 9 with alias and simple-presence
requested, when handle 7 has a live contact that requested alias only and handle 9 has a
dangling entry: simple-presence is missing, on account of handle 7. -/
theorem ContactManager.contactsForHandles_missingFeatures_witness :
    Feature.FeatureSimplePresence ∈
      (ContactManager.scanHandles
        (QSet.unite [Feature.FeatureAlias, Feature.FeatureSimplePresence]
          presenceOnlyConnection.contactFactoryFeatures) [9, 7, 9]
        { ContactManager.Private.new false with
          contacts := [(7, some { handle := 7, requestedFeatures := [Feature.FeatureAlias] }),
            (9, none)] }).1.missingFeatures :=
  (ContactManager.contactsForHandles_missingFeatures presenceOnlyConnection [9, 7, 9]
    [Feature.FeatureAlias, Feature.FeatureSimplePresence]
    { ContactManager.Private.new false with
      contacts := [(7, some { handle := 7, requestedFeatures := [Feature.FeatureAlias] }),
        (9, none)] } Feature.FeatureSimplePresence).1.2
    ⟨7, by decide, Or.inl (by decide), fun c hc => by
      have hc2 : c = { handle := 7, requestedFeatures := [Feature.FeatureAlias] } :=
        (Option.some.inj hc).symm
      rw [hc2]
      decide⟩

/-- C4. After a successful `contactsForHandles` call a feature is tracked exactly when it
was tracked before the call or is in the computed missing-feature set: every missing
feature is marked tracked, supported by the connection or not, and a feature that was
untracked and is not missing stays untracked. -/
theorem ContactManager.contactsForHandles_tracking (conn : Connection)
    (handles : List Nat) (features : Features) (mPriv : ContactManager.Private)
    (hvalid : conn.isValid = true)
    (hready : conn.isReady ConnectionFeature.FeatureCore = true) (f : Feature) :
    (ContactManager.contactsForHandles conn handles features mPriv).2.isTracked f = true ↔
      mPriv.isTracked f = true ∨
      f ∈ (ContactManager.scanHandles (QSet.unite features conn.contactFactoryFeatures)
          handles mPriv).1.missingFeatures := by
  rw [ContactManager.contactsForHandles_success conn handles features mPriv hvalid hready]
  obtain ⟨_, _, _, _, k5⟩ := ContactManager.scanHandles_spec
    (QSet.unite features conn.contactFactoryFeatures) handles mPriv
  simp only []
  rw [ContactManager.collect_foldl_tracked]
  have h1 : (ContactManager.supportedFeatures conn
      (ContactManager.scanHandles (QSet.unite features conn.contactFactoryFeatures)
        handles mPriv).2).2.isTracked f = mPriv.isTracked f := by
    rw [ContactManager.supportedFeatures_frame]
    unfold ContactManager.Private.cacheOnly at k5
    rw [k5]
    rfl
  rw [h1]

/-- The tracking effect on a fresh manager asked for handle 42 with alias and
simple-presence on the presence-only connection: alias, which is missing but not
supported, is tracked afterwards. -/
theorem ContactManager.contactsForHandles_tracking_witness :
    presenceOnlyConnection.isValid = true ∧
    presenceOnlyConnection.isReady ConnectionFeature.FeatureCore = true ∧
    (ContactManager.contactsForHandles presenceOnlyConnection [42]
      [Feature.FeatureAlias, Feature.FeatureSimplePresence]
      (ContactManager.Private.new false)).2.isTracked Feature.FeatureAlias = true ∧
    (ContactManager.contactsForHandles presenceOnlyConnection [42]
      [Feature.FeatureAlias, Feature.FeatureSimplePresence]
      (ContactManager.Private.new false)).2.isTracked Feature.FeatureLocation = false :=
  ⟨rfl, rfl,
    (ContactManager.contactsForHandles_tracking presenceOnlyConnection [42]
      [Feature.FeatureAlias, Feature.FeatureSimplePresence]
      (ContactManager.Private.new false) rfl rfl Feature.FeatureAlias).2
        (Or.inr (by decide)),
    by decide⟩

/-- C3. On success the interface list `contactsForHandles` passes on is, as a set, exactly
the backing interfaces of the missing features that `supportedFeatures()` reports.  When
the memoized supported set lists only features whose interface the connection lists (as
it does from a fresh manager on), every queried interface is therefore one of the
connection's `contactAttributeInterfaces`.  Scenario: the connection advertises the
aggregate contacts interface and only the simple-presence attribute interface, the cache
is empty, and handle 42 is requested with alias and simple-presence; then the supported
set is simple-presence alone, 42 is among the other handles, and the query list is
exactly the simple-presence interface, the aliasing interface not being queried. -/
theorem ContactManager.contactsForHandles_interfaces (conn : Connection)
    (handles : List Nat) (features : Features) (mPriv : ContactManager.Private)
    (hvalid : conn.isValid = true)
    (hready : conn.isReady ConnectionFeature.FeatureCore = true) :
    (∀ i : String,
      i ∈ (ContactManager.contactsForHandles conn handles features mPriv).1.interfaces ↔
        ∃ f, f ∈ (ContactManager.scanHandles
              (QSet.unite features conn.contactFactoryFeatures) handles mPriv).1.missingFeatures ∧
          f ∈ (ContactManager.supportedFeatures conn mPriv).1 ∧
          ContactManager.featureToInterface f = i) ∧
    ((∀ f, f ∈ mPriv.supportedFeatures →
        ContactManager.featureToInterface f ∈ conn.contactAttributeInterfaces) →
      ∀ i : String,
        i ∈ (ContactManager.contactsForHandles conn handles features mPriv).1.interfaces →
          i ∈ conn.contactAttributeInterfaces) ∧
    (∀ b : Bool,
      (ContactManager.supportedFeatures presenceOnlyConnection
        (ContactManager.Private.new b)).1 = [Feature.FeatureSimplePresence] ∧
      (ContactManager.contactsForHandles presenceOnlyConnection [42]
        [Feature.FeatureAlias, Feature.FeatureSimplePresence]
        (ContactManager.Private.new b)).1.otherContacts = [42] ∧
      (ContactManager.contactsForHandles presenceOnlyConnection [42]
        [Feature.FeatureAlias, Feature.FeatureSimplePresence]
        (ContactManager.Private.new b)).1.interfaces =
          [TP_QT4_IFACE_CONNECTION_INTERFACE_SIMPLE_PRESENCE] ∧
      TP_QT4_IFACE_CONNECTION_INTERFACE_ALIASING ∉
        (ContactManager.contactsForHandles presenceOnlyConnection [42]
          [Feature.FeatureAlias, Feature.FeatureSimplePresence]
          (ContactManager.Private.new b)).1.interfaces) := by
  obtain ⟨_, _, _, _, k5⟩ := ContactManager.scanHandles_spec
    (QSet.unite features conn.contactFactoryFeatures) handles mPriv
  have hsup : (ContactManager.supportedFeatures conn
      (ContactManager.scanHandles (QSet.unite features conn.contactFactoryFeatures)
        handles mPriv).2).1 = (ContactManager.supportedFeatures conn mPriv).1 := by
    apply ContactManager.supportedFeatures_congr
    unfold ContactManager.Private.cacheOnly at k5
    rw [k5]
  have hset : ∀ i : String,
      i ∈ (ContactManager.contactsForHandles conn handles features mPriv).1.interfaces ↔
        ∃ f, f ∈ (ContactManager.scanHandles
              (QSet.unite features conn.contactFactoryFeatures) handles mPriv).1.missingFeatures ∧
          f ∈ (ContactManager.supportedFeatures conn mPriv).1 ∧
          ContactManager.featureToInterface f = i := by
    intro i
    rw [ContactManager.contactsForHandles_success conn handles features mPriv hvalid hready]
    simp only [PendingContacts.ofHandles]
    rw [ContactManager.collect_foldl_interfaces, hsup]
    simp
  refine ⟨hset, ?_, ?_⟩
  · intro hmemo i hi
    obtain ⟨f, _, hf, hfi⟩ := (hset i).1 hi
    rw [← hfi]
    exact ContactManager.supportedFeatures_listed conn mPriv hmemo f hf
  · intro b
    cases b <;> decide

/-- The interface set in the scenario of a fresh manager, the presence-only connection and
handle 42 requested with alias and simple-presence: every queried interface is one the
connection lists. -/
theorem ContactManager.contactsForHandles_interfaces_witness :
    presenceOnlyConnection.isValid = true ∧
    presenceOnlyConnection.isReady ConnectionFeature.FeatureCore = true ∧
    (∀ i : String,
      i ∈ (ContactManager.contactsForHandles presenceOnlyConnection [42]
          [Feature.FeatureAlias, Feature.FeatureSimplePresence]
          (ContactManager.Private.new false)).1.interfaces →
        i ∈ presenceOnlyConnection.contactAttributeInterfaces) :=
  ⟨rfl, rfl,
    (ContactManager.contactsForHandles_interfaces presenceOnlyConnection [42]
      [Feature.FeatureAlias, Feature.FeatureSimplePresence]
      (ContactManager.Private.new false) rfl rfl).2.1
        (fun f hf => absurd hf (List.not_mem_nil f))⟩

/-! ## The memoized supported set stays consistent with the connection -/

theorem ContactManager.Private.connectFeature_supportedFeatures (p : ContactManager.Private)
    (f : Feature) : (p.connectFeature f).supportedFeatures = p.supportedFeatures := by
  unfold ContactManager.Private.connectFeature
  repeat' split
  all_goals rfl

theorem ContactManager.Private.ensureTracking_supportedFeatures (p : ContactManager.Private)
    (f : Feature) : (p.ensureTracking f).supportedFeatures = p.supportedFeatures := by
  unfold ContactManager.Private.ensureTracking
  split
  · rfl
  · exact ContactManager.Private.connectFeature_supportedFeatures p f

theorem ContactManager.collect_foldl_supportedFeatures (supported : Features)
    (L : List Feature) (acc : QSet String × ContactManager.Private) :
    (L.foldl (ContactManager.collectInterface supported) acc).2.supportedFeatures =
      acc.2.supportedFeatures := by
  induction L generalizing acc with
  | nil => rfl
  | cons f L ih =>
    rw [List.foldl_cons, ih]
    unfold ContactManager.collectInterface
    split <;> exact ContactManager.Private.ensureTracking_supportedFeatures acc.2 f

/-- A fresh manager has nothing memoized, so its memoized set lists no feature at all. -/
theorem ContactManager.Private.new_supportedFeatures (b : Bool) (f : Feature) :
    f ∉ (ContactManager.Private.new b).supportedFeatures := by
  simp [ContactManager.Private.new]

/-- If the memoized set lists only features whose backing interface the connection lists,
it still does after `contactsForHandles` against that connection. -/
theorem ContactManager.contactsForHandles_keeps_listed (conn : Connection)
    (handles : List Nat) (features : Features) (mPriv : ContactManager.Private)
    (hmemo : ∀ f, f ∈ mPriv.supportedFeatures →
      ContactManager.featureToInterface f ∈ conn.contactAttributeInterfaces)
    (f : Feature)
    (hf : f ∈ (ContactManager.contactsForHandles conn handles features mPriv).2.supportedFeatures) :
    ContactManager.featureToInterface f ∈ conn.contactAttributeInterfaces := by
  cases hv : conn.isValid with
  | false =>
    simp [ContactManager.contactsForHandles, hv] at hf
    exact hmemo f hf
  | true =>
    cases hr : conn.isReady ConnectionFeature.FeatureCore with
    | false =>
      simp [ContactManager.contactsForHandles, hv, hr] at hf
      exact hmemo f hf
    | true =>
      rw [ContactManager.contactsForHandles_success conn handles features mPriv hv hr] at hf
      simp only [] at hf
      rw [ContactManager.collect_foldl_supportedFeatures,
        ContactManager.supportedFeatures_memo_eq] at hf
      obtain ⟨_, _, _, _, k5⟩ := ContactManager.scanHandles_spec
        (QSet.unite features conn.contactFactoryFeatures) handles mPriv
      have hsup : (ContactManager.supportedFeatures conn
          (ContactManager.scanHandles (QSet.unite features conn.contactFactoryFeatures)
            handles mPriv).2).1 = (ContactManager.supportedFeatures conn mPriv).1 := by
        apply ContactManager.supportedFeatures_congr
        unfold ContactManager.Private.cacheOnly at k5
        rw [k5]
      rw [hsup] at hf
      exact ContactManager.supportedFeatures_listed conn mPriv hmemo f hf

/-! ## The feature registry -/

/-- C11. The function `featureToInterface` is total.  Each of the eight known features maps
to a non-empty interface name: alias to Aliasing, avatar-token and avatar-data both to
Avatars, simple-presence to SimplePresence, capabilities to ContactCapabilities, location
to Location, info to ContactInfo and roster-groups to ContactGroups; two known features
have the same interface only if they are equal or are the two avatar features.  Every
feature outside the eight yields the empty string. -/
theorem ContactManager.featureToInterface_total :
    (ContactManager.featureToInterface Feature.FeatureAlias =
        TP_QT4_IFACE_CONNECTION_INTERFACE_ALIASING ∧
      ContactManager.featureToInterface Feature.FeatureAvatarToken =
        TP_QT4_IFACE_CONNECTION_INTERFACE_AVATARS ∧
      ContactManager.featureToInterface Feature.FeatureAvatarData =
        TP_QT4_IFACE_CONNECTION_INTERFACE_AVATARS ∧
      ContactManager.featureToInterface Feature.FeatureSimplePresence =
        TP_QT4_IFACE_CONNECTION_INTERFACE_SIMPLE_PRESENCE ∧
      ContactManager.featureToInterface Feature.FeatureCapabilities =
        TP_QT4_IFACE_CONNECTION_INTERFACE_CONTACT_CAPABILITIES ∧
      ContactManager.featureToInterface Feature.FeatureLocation =
        TP_QT4_IFACE_CONNECTION_INTERFACE_LOCATION ∧
      ContactManager.featureToInterface Feature.FeatureInfo =
        TP_QT4_IFACE_CONNECTION_INTERFACE_CONTACT_INFO ∧
      ContactManager.featureToInterface Feature.FeatureRosterGroups =
        TP_QT4_IFACE_CONNECTION_INTERFACE_CONTACT_GROUPS) ∧
    (∀ f : Feature, (∀ n : Nat, f ≠ Feature.other n) →
      ContactManager.featureToInterface f ≠ "") ∧
    (∀ f g : Feature, (∀ n : Nat, f ≠ Feature.other n) → (∀ n : Nat, g ≠ Feature.other n) →
      ContactManager.featureToInterface f = ContactManager.featureToInterface g →
      f = g ∨ (f = Feature.FeatureAvatarToken ∧ g = Feature.FeatureAvatarData) ∨
        (f = Feature.FeatureAvatarData ∧ g = Feature.FeatureAvatarToken)) ∧
    (∀ n : Nat, ContactManager.featureToInterface (Feature.other n) = "") := by
  refine ⟨by decide, ?_, ?_, ?_⟩
  · intro f hf
    cases f with
    | other n => exact absurd rfl (hf n)
    | _ => decide
  · intro f g hf hg
    cases f with
    | other n => exact absurd rfl (hf n)
    | _ =>
      cases g with
      | other n => exact absurd rfl (hg n)
      | _ => decide
  · intro n
    simp [ContactManager.featureToInterface]

/-- The interface names of the location feature and of an unknown feature. -/
theorem ContactManager.featureToInterface_total_witness :
    ContactManager.featureToInterface Feature.FeatureLocation ≠ "" ∧
    ContactManager.featureToInterface (Feature.other 12) = "" :=
  ⟨ContactManager.featureToInterface_total.2.1 Feature.FeatureLocation
      (fun _ h => Feature.noConfusion h),
    ContactManager.featureToInterface_total.2.2.2 12⟩

/-! ## Lookups in the contact cache -/

/-- C12. The three cases of `lookupContactByHandle(h)`.  If the cache holds an entry for h
whose contact is no longer alive, the lookup returns no contact and the state afterwards
is the state before with the entries of h removed: the cache has no entry for h and the
entry of every other handle is as before.  If the entry's contact is alive, that contact
is returned and the state is unchanged.  If there is no entry for h, no contact is
returned and the state is unchanged. -/
theorem ContactManager.lookupContactByHandle_cases (mPriv : ContactManager.Private)
    (h : Nat) :
    (QMap.find mPriv.contacts h = some none →
      (ContactManager.lookupContactByHandle mPriv h).1 = none ∧
      (ContactManager.lookupContactByHandle mPriv h).2 =
        { mPriv with contacts := QMap.remove mPriv.contacts h } ∧
      QMap.contains (ContactManager.lookupContactByHandle mPriv h).2.contacts h = false ∧
      ∀ h' : Nat, h' ≠ h →
        QMap.find (ContactManager.lookupContactByHandle mPriv h).2.contacts h' =
          QMap.find mPriv.contacts h') ∧
    (∀ c : Contact, QMap.find mPriv.contacts h = some (some c) →
      ContactManager.lookupContactByHandle mPriv h = (some c, mPriv)) ∧
    (QMap.find mPriv.contacts h = none →
      ContactManager.lookupContactByHandle mPriv h = (none, mPriv)) := by
  refine ⟨?_, ?_, ?_⟩
  · intro hf
    have e : ContactManager.lookupContactByHandle mPriv h =
        (none, { mPriv with contacts := QMap.remove mPriv.contacts h }) := by
      simp [ContactManager.lookupContactByHandle, QMap.contains, hf]
    rw [e]
    refine ⟨rfl, rfl, ?_, ?_⟩
    · simp [QMap.contains, QMap.find_remove]
    · intro h' hne
      simp [QMap.find_remove, hne]
  · intro c hf
    simp [ContactManager.lookupContactByHandle, QMap.contains, hf]
  · intro hf
    simp [ContactManager.lookupContactByHandle, QMap.contains, hf]

/-- The lookup of handle 9 in a cache with a live contact for 7 and a dangling entry for 9:
the entry of 9 is gone afterwards and the one of 7 is kept. -/
theorem ContactManager.lookupContactByHandle_cases_witness :
    QMap.find ({ ContactManager.Private.new false with
        contacts := [(7, some { handle := 7, requestedFeatures := [] }), (9, none)] }
      : ContactManager.Private).contacts 9 = some none ∧
    (ContactManager.lookupContactByHandle
      { ContactManager.Private.new false with
        contacts := [(7, some { handle := 7, requestedFeatures := [] }), (9, none)] } 9).2 =
      { ContactManager.Private.new false with
        contacts := [(7, some { handle := 7, requestedFeatures := [] })] } :=
  ⟨by decide,
    ((ContactManager.lookupContactByHandle_cases
      { ContactManager.Private.new false with
        contacts := [(7, some { handle := 7, requestedFeatures := [] }), (9, none)] } 9).1
      (by decide)).2.1⟩

/-! ## Insert or merge -/

theorem QMap.find_map_update {κ ν : Type} [DecidableEq κ] (m : QMap κ ν) (k k' : κ)
    (g : ν → ν) :
    QMap.find (List.map (fun p : κ × ν => (p.1, if p.1 = k then g p.2 else p.2)) m) k' =
      if k' = k then Option.map g (QMap.find m k') else QMap.find m k' := by
  induction m with
  | nil => simp [QMap.find]
  | cons p m ih =>
    obtain ⟨a, v⟩ := p
    simp only [List.map_cons, QMap.find]
    rw [ih]
    by_cases hk : a = k'
    · subst hk
      by_cases hak : a = k
      · simp [hak]
      · simp [hak]
    · simp [hk]

theorem QMap.keys_remove_nodup {κ ν : Type} [DecidableEq κ] (m : QMap κ ν) (k : κ)
    (h : (m.map Prod.fst).Nodup) : ((QMap.remove m k).map Prod.fst).Nodup := by
  unfold QMap.remove
  exact List.Nodup.sublist (List.Sublist.map _ (List.filter_sublist _)) h

theorem QMap.key_not_mem_remove {κ ν : Type} [DecidableEq κ] (m : QMap κ ν) (k : κ) :
    k ∉ (QMap.remove m k).map Prod.fst := by
  unfold QMap.remove
  simp

theorem QMap.keys_insert_nodup {κ ν : Type} [DecidableEq κ] (m : QMap κ ν) (k : κ) (v : ν)
    (h : (m.map Prod.fst).Nodup) : ((QMap.insert m k v).map Prod.fst).Nodup := by
  unfold QMap.insert
  rw [List.map_cons, List.nodup_cons]
  exact ⟨QMap.key_not_mem_remove m k, QMap.keys_remove_nodup m k h⟩

theorem ContactManager.Private.updateContact_keys (p : ContactManager.Private) (h : Nat)
    (f : Contact → Contact) :
    (p.updateContact h f).contacts.map Prod.fst = p.contacts.map Prod.fst := by
  unfold ContactManager.Private.updateContact
  simp only [List.map_map]
  rfl

theorem ContactManager.lookupContactByHandle_keys_nodup (p : ContactManager.Private)
    (h : Nat) (hn : (p.contacts.map Prod.fst).Nodup) :
    ((ContactManager.lookupContactByHandle p h).2.contacts.map Prod.fst).Nodup := by
  unfold ContactManager.lookupContactByHandle
  split
  · split
    · exact hn
    · exact QMap.keys_remove_nodup _ _ hn
  · exact hn

theorem ContactManager.liveContact_some (p : ContactManager.Private) (h : Nat) (c : Contact)
    (hc : p.liveContact h = some c) : QMap.find p.contacts h = some (some c) := by
  unfold ContactManager.Private.liveContact at hc
  cases hf : QMap.find p.contacts h with
  | none => rw [hf] at hc; cases hc
  | some w => rw [hf] at hc; simpa using hc

/-- The lookup of a handle whose cached contact is alive changes nothing. -/
theorem ContactManager.lookupContactByHandle_live_state (p : ContactManager.Private)
    (h : Nat) (c : Contact) (hc : (ContactManager.lookupContactByHandle p h).1 = some c) :
    ContactManager.lookupContactByHandle p h = (some c, p) := by
  rw [ContactManager.lookupContactByHandle_fst] at hc
  have hf := ContactManager.liveContact_some p h c hc
  simp [ContactManager.lookupContactByHandle, QMap.contains, hf]

/-- C13. What `ensureContact(handle, features, attributes)` does.  If a live contact is
cached for the handle, that contact is returned after being augmented with the given
features and attributes, the factory constructs nothing, and a following lookup of the
handle returns the augmented contact.  If none is live (no entry, or a dangling one), the
factory constructs exactly one contact with the given features and attributes, which is
returned and registered under the bare handle, so that a following lookup of the handle
returns it and changes nothing.  The entries of other handles are unchanged, and a cache
with at most one entry per handle stays so. -/
theorem ContactManager.ensureContact_spec (factory : ContactFactory)
    (augment : Contact → Features → QVariantMap → Contact)
    (mPriv : ContactManager.Private) (handle : Nat) (features : Features)
    (attributes : QVariantMap) :
    (∀ c : Contact, (ContactManager.lookupContactByHandle mPriv handle).1 = some c →
      (ContactManager.ensureContact factory augment mPriv handle features attributes).1 =
        augment c features attributes ∧
      (ContactManager.ensureContact factory augment mPriv handle features
        attributes).2.constructedContacts = mPriv.constructedContacts ∧
      (ContactManager.lookupContactByHandle
        (ContactManager.ensureContact factory augment mPriv handle features attributes).2
        handle).1 = some (augment c features attributes)) ∧
    ((ContactManager.lookupContactByHandle mPriv handle).1 = none →
      (ContactManager.ensureContact factory augment mPriv handle features attributes).1 =
        factory.construct handle features attributes ∧
      (ContactManager.ensureContact factory augment mPriv handle features
        attributes).2.constructedContacts =
          mPriv.constructedContacts ++ [factory.construct handle features attributes] ∧
      ContactManager.lookupContactByHandle
        (ContactManager.ensureContact factory augment mPriv handle features attributes).2
        handle =
          (some (factory.construct handle features attributes),
            (ContactManager.ensureContact factory augment mPriv handle features
              attributes).2)) ∧
    (∀ h' : Nat, h' ≠ handle →
      QMap.find (ContactManager.ensureContact factory augment mPriv handle features
        attributes).2.contacts h' = QMap.find mPriv.contacts h') ∧
    ((mPriv.contacts.map Prod.fst).Nodup →
      ((ContactManager.ensureContact factory augment mPriv handle features
        attributes).2.contacts.map Prod.fst).Nodup) := by
  cases hl : (ContactManager.lookupContactByHandle mPriv handle).1 with
  | some c =>
    have hst := ContactManager.lookupContactByHandle_live_state mPriv handle c hl
    have hfind : QMap.find mPriv.contacts handle = some (some c) := by
      rw [ContactManager.lookupContactByHandle_fst] at hl
      exact ContactManager.liveContact_some mPriv handle c hl
    have e : ContactManager.ensureContact factory augment mPriv handle features attributes =
        (augment c features attributes,
          mPriv.updateContact handle (fun c => augment c features attributes)) := by
      simp only [ContactManager.ensureContact, hst]
    rw [e]
    have hfind2 : ∀ h' : Nat,
        QMap.find (mPriv.updateContact handle
          (fun c => augment c features attributes)).contacts h' =
        if h' = handle then
          Option.map (Option.map (fun c => augment c features attributes))
            (QMap.find mPriv.contacts h')
        else QMap.find mPriv.contacts h' := by
      intro h'
      unfold ContactManager.Private.updateContact
      exact QMap.find_map_update mPriv.contacts handle h' _
    refine ⟨?_, ?_, ?_, ?_⟩
    · intro c' hc'
      cases hc'
      refine ⟨rfl, rfl, ?_⟩
      rw [ContactManager.lookupContactByHandle_fst]
      unfold ContactManager.Private.liveContact
      rw [hfind2 handle, hfind]
      simp
    · intro hn; cases hn
    · intro h' hne
      rw [hfind2 h']
      simp [hne]
    · intro hn
      rw [ContactManager.Private.updateContact_keys]
      exact hn
  | none =>
    have e : ContactManager.ensureContact factory augment mPriv handle features attributes =
        (factory.construct handle features attributes,
          { (ContactManager.lookupContactByHandle mPriv handle).2 with
            contacts := QMap.insert (ContactManager.lookupContactByHandle mPriv handle).2.contacts
              handle (some (factory.construct handle features attributes)),
            constructedContacts :=
              (ContactManager.lookupContactByHandle mPriv handle).2.constructedContacts ++
                [factory.construct handle features attributes] }) := by
      simp only [ContactManager.ensureContact, hl]
    rw [e]
    have hfr := ContactManager.lookupContactByHandle_frame mPriv handle
    refine ⟨?_, ?_, ?_, ?_⟩
    · intro c hc; cases hc
    · intro _
      refine ⟨rfl, ?_, ?_⟩
      · simp only []
        rw [hfr]
      · simp [ContactManager.lookupContactByHandle, QMap.contains, QMap.find_insert]
    · intro h' hne
      simp only []
      rw [QMap.find_insert]
      simp only [hne, if_false]
      have h1 := ContactManager.lookupContactByHandle_live mPriv handle h'
      unfold ContactManager.lookupContactByHandle QMap.contains
      cases hf : QMap.find mPriv.contacts handle with
      | none => simp
      | some w =>
        cases w with
        | some c => simp
        | none =>
          simp only [Option.isSome_some, if_true, Option.getD_some]
          rw [QMap.find_remove]
          simp [hne]
    · intro hn
      simp only []
      exact QMap.keys_insert_nodup _ _ _
        (ContactManager.lookupContactByHandle_keys_nodup mPriv handle hn)

/-- The insert-or-merge on a cache with a dangling entry for handle 9: one contact is
constructed for 9 with the alias feature, and a following lookup of 9 returns it. -/
theorem ContactManager.ensureContact_spec_witness :
    (ContactManager.lookupContactByHandle
      { ContactManager.Private.new false with
        contacts := [(7, some { handle := 7, requestedFeatures := [] }), (9, none)] }
      9).1 = none ∧
    (ContactManager.lookupContactByHandle
      (ContactManager.ensureContact plainFactory uniteAugment
        { ContactManager.Private.new false with
          contacts := [(7, some { handle := 7, requestedFeatures := [] }), (9, none)] }
        9 [Feature.FeatureAlias] []).2 9).1 =
      some { handle := 9, requestedFeatures := [Feature.FeatureAlias] } :=
  ⟨by decide,
    congrArg Prod.fst
      ((ContactManager.ensureContact_spec plainFactory uniteAugment
        { ContactManager.Private.new false with
          contacts := [(7, some { handle := 7, requestedFeatures := [] }), (9, none)] }
        9 [Feature.FeatureAlias] []).2.1 (by decide)).2.2⟩

/-! ## The avatar request batcher -/

theorem ContactManager.Private.buildAvatarFileName_false (env : CacheEnvironment)
    (conn : Connection) (token a m : String) :
    ContactManager.Private.buildAvatarFileName env conn token false a m =
      (true, ContactManager.Private.avatarFileName env conn token,
        ContactManager.Private.mimeTypeFileName env conn token) := by
  simp [ContactManager.Private.buildAvatarFileName, ContactManager.Private.avatarFileName,
    ContactManager.Private.mimeTypeFileName]

/-- A request that is not served from the disk cache: the contact gets nothing, its handle
goes to the end of the queue, and a flush timer is set exactly when the flag was clear. -/
theorem ContactManager.requestContactAvatar_uncached (env : CacheEnvironment)
    (conn : Connection) (files : Disk) (contact : Contact) (mPriv : ContactManager.Private)
    (hun : ContactManager.avatarUncached env conn files contact = true) :
    ContactManager.requestContactAvatar env conn files contact mPriv =
      (contact,
        { mPriv with
          requestAvatarsQueue := mPriv.requestAvatarsQueue ++ [contact.handle],
          requestAvatarsIdle := true,
          flushTimers := if mPriv.requestAvatarsIdle then mPriv.flushTimers
            else mPriv.flushTimers + 1 }) := by
  unfold ContactManager.avatarUncached at hun
  unfold ContactManager.requestContactAvatar
  cases hk : contact.isAvatarTokenKnown with
  | false =>
    cases hi : mPriv.requestAvatarsIdle <;> simp [hi]
  | true =>
    rw [hk] at hun
    simp only [Bool.true_and, Bool.not_eq_true'] at hun
    rw [ContactManager.Private.buildAvatarFileName_false]
    simp only [if_true, hun, Bool.and_false, Bool.false_eq_true, if_false]
    cases hi : mPriv.requestAvatarsIdle <;> simp [hi]

/-- A request that is served from the disk cache: the contact is delivered the avatar made
of the blob file name and of the MIME type read from the MIME file; the state is
unchanged. -/
theorem ContactManager.requestContactAvatar_hit (env : CacheEnvironment)
    (conn : Connection) (files : Disk) (contact : Contact) (mPriv : ContactManager.Private)
    (hknown : contact.isAvatarTokenKnown = true)
    (hblob : QFile.exists files
      (ContactManager.Private.avatarFileName env conn contact.avatarToken) = true) :
    ContactManager.requestContactAvatar env conn files contact mPriv =
      (contact.receiveAvatarData
        { fileName := ContactManager.Private.avatarFileName env conn contact.avatarToken,
          mimeType := QString.fromLatin1 (QFile.readAll files
            (ContactManager.Private.mimeTypeFileName env conn contact.avatarToken)) },
        mPriv) := by
  unfold ContactManager.requestContactAvatar
  rw [hknown]
  simp only [if_true]
  rw [ContactManager.Private.buildAvatarFileName_false]
  simp only [hblob, Bool.and_self, if_true]

/-- C16. A flush, `doRequestAvatars`, issues exactly one batched `RequestAvatars` call,
whose argument is the whole queue as it stood when the flush began, and leaves the queue
empty and the flag cleared.  An avatar request that is not served from the disk cache and
is made after the flush starts a new queue holding only its handle, sets the flag and
sets one new flush timer. -/
theorem ContactManager.doRequestAvatars_flush (env : CacheEnvironment) (conn : Connection)
    (files : Disk) (contact : Contact) (mPriv : ContactManager.Private)
    (hun : ContactManager.avatarUncached env conn files contact = true) :
    (ContactManager.doRequestAvatars mPriv).requestAvatarsCalls =
      mPriv.requestAvatarsCalls ++ [mPriv.requestAvatarsQueue] ∧
    (ContactManager.doRequestAvatars mPriv).requestAvatarsQueue = [] ∧
    (ContactManager.doRequestAvatars mPriv).requestAvatarsIdle = false ∧
    (ContactManager.doRequestAvatars mPriv).flushTimers = mPriv.flushTimers ∧
    (ContactManager.requestContactAvatar env conn files contact
      (ContactManager.doRequestAvatars mPriv)).2.requestAvatarsQueue = [contact.handle] ∧
    (ContactManager.requestContactAvatar env conn files contact
      (ContactManager.doRequestAvatars mPriv)).2.requestAvatarsIdle = true ∧
    (ContactManager.requestContactAvatar env conn files contact
      (ContactManager.doRequestAvatars mPriv)).2.flushTimers = mPriv.flushTimers + 1 ∧
    (ContactManager.requestContactAvatar env conn files contact
      (ContactManager.doRequestAvatars mPriv)).2.requestAvatarsCalls =
        mPriv.requestAvatarsCalls ++ [mPriv.requestAvatarsQueue] := by
  rw [ContactManager.requestContactAvatar_uncached env conn files contact _ hun]
  simp [ContactManager.doRequestAvatars]

/-- The flush of a queue holding 5 and 6, followed by a request for the uncached contact
of handle 8: one call carrying 5 and 6, then a new queue holding 8 alone. -/
theorem ContactManager.doRequestAvatars_flush_witness :
    ContactManager.avatarUncached homeEnvironment jabberConnection []
      { handle := 8, requestedFeatures := [] } = true ∧
    (ContactManager.doRequestAvatars
      { ContactManager.Private.new true with
        requestAvatarsQueue := [5, 6], flushTimers := 0 }).requestAvatarsCalls = [[5, 6]] ∧
    (ContactManager.requestContactAvatar homeEnvironment jabberConnection []
      { handle := 8, requestedFeatures := [] }
      (ContactManager.doRequestAvatars
        { ContactManager.Private.new true with
          requestAvatarsQueue := [5, 6], flushTimers := 0 })).2.requestAvatarsQueue = [8] :=
  ⟨by decide,
    (ContactManager.doRequestAvatars_flush homeEnvironment jabberConnection []
      { handle := 8, requestedFeatures := [] }
      { ContactManager.Private.new true with requestAvatarsQueue := [5, 6], flushTimers := 0 }
      (by decide)).1,
    (ContactManager.doRequestAvatars_flush homeEnvironment jabberConnection []
      { handle := 8, requestedFeatures := [] }
      { ContactManager.Private.new true with requestAvatarsQueue := [5, 6], flushTimers := 0 }
      (by decide)).2.2.2.2.1⟩

/-! ## The avatar disk cache -/

/-- C17. A `requestContactAvatar` call for a contact whose avatar token is known, when the
blob file and the MIME file for that token both exist in the disk cache, delivers to the
contact the avatar made of the blob file's path and of the MIME type read from the MIME
file, and does nothing else: the manager's state (queue, flag, flush timers, calls issued)
is unchanged. -/
theorem ContactManager.requestContactAvatar_cached (env : CacheEnvironment)
    (conn : Connection) (files : Disk) (contact : Contact) (mPriv : ContactManager.Private)
    (hknown : contact.isAvatarTokenKnown = true)
    (hblob : QFile.exists files
      (ContactManager.Private.avatarFileName env conn contact.avatarToken) = true)
    (hmime : QFile.exists files
      (ContactManager.Private.mimeTypeFileName env conn contact.avatarToken) = true) :
    (∃ content : QByteArray,
      QMap.find files
        (ContactManager.Private.mimeTypeFileName env conn contact.avatarToken) =
          some content ∧
      (ContactManager.requestContactAvatar env conn files contact mPriv).1 =
        contact.receiveAvatarData
          { fileName := ContactManager.Private.avatarFileName env conn contact.avatarToken,
            mimeType := QString.fromLatin1 content }) ∧
    (ContactManager.requestContactAvatar env conn files contact mPriv).2 = mPriv := by
  rw [ContactManager.requestContactAvatar_hit env conn files contact mPriv hknown hblob]
  refine ⟨?_, rfl⟩
  unfold QFile.exists QMap.contains at hmime
  cases hf : QMap.find files
      (ContactManager.Private.mimeTypeFileName env conn contact.avatarToken) with
  | none => rw [hf] at hmime; cases hmime
  | some content =>
    refine ⟨content, rfl, ?_⟩
    simp [QFile.readAll, hf]

/-- A cached pair for the token "tok1": the contact that knows this token is delivered the
blob's path and the stored MIME type, and nothing is queued. -/
theorem ContactManager.requestContactAvatar_cached_witness :
    (ContactManager.requestContactAvatar homeEnvironment jabberConnection
      [("/home/u/.cache/telepathy/avatars/gabble/jabber/tok1", [1, 2, 3]),
        ("/home/u/.cache/telepathy/avatars/gabble/jabber/tok1.mime",
          QString.toLatin1 "image/png")]
      { handle := 5, requestedFeatures := [], isAvatarTokenKnown := true,
        avatarToken := "tok1" }
      (ContactManager.Private.new false)).2 = ContactManager.Private.new false ∧
    (ContactManager.requestContactAvatar homeEnvironment jabberConnection
      [("/home/u/.cache/telepathy/avatars/gabble/jabber/tok1", [1, 2, 3]),
        ("/home/u/.cache/telepathy/avatars/gabble/jabber/tok1.mime",
          QString.toLatin1 "image/png")]
      { handle := 5, requestedFeatures := [], isAvatarTokenKnown := true,
        avatarToken := "tok1" }
      (ContactManager.Private.new false)).1.avatarData =
        { fileName := "/home/u/.cache/telepathy/avatars/gabble/jabber/tok1",
          mimeType := "image/png" } :=
  ⟨(ContactManager.requestContactAvatar_cached homeEnvironment jabberConnection
      [("/home/u/.cache/telepathy/avatars/gabble/jabber/tok1", [1, 2, 3]),
        ("/home/u/.cache/telepathy/avatars/gabble/jabber/tok1.mime",
          QString.toLatin1 "image/png")]
      { handle := 5, requestedFeatures := [], isAvatarTokenKnown := true,
        avatarToken := "tok1" }
      (ContactManager.Private.new false) rfl (by decide) (by decide)).2,
    by decide⟩

/-- C18, the claim fails as stated.  The disk cache holds the blob file for the token "tok1"
but no MIME file.  The contact that knows this token is delivered, synchronously, an
avatar made of the blob's path and an empty MIME type, and its handle is not queued. -/
theorem ContactManager.requestContactAvatar_blob_without_mime :
    QFile.exists [("/home/u/.cache/telepathy/avatars/gabble/jabber/tok1", [1, 2, 3])]
      (ContactManager.Private.avatarFileName homeEnvironment jabberConnection "tok1") = true ∧
    QFile.exists [("/home/u/.cache/telepathy/avatars/gabble/jabber/tok1", [1, 2, 3])]
      (ContactManager.Private.mimeTypeFileName homeEnvironment jabberConnection "tok1") =
        false ∧
    (ContactManager.requestContactAvatar homeEnvironment jabberConnection
      [("/home/u/.cache/telepathy/avatars/gabble/jabber/tok1", [1, 2, 3])]
      { handle := 5, requestedFeatures := [], isAvatarTokenKnown := true,
        avatarToken := "tok1" }
      (ContactManager.Private.new false)).1.avatarData =
        { fileName := "/home/u/.cache/telepathy/avatars/gabble/jabber/tok1",
          mimeType := "" } ∧
    (ContactManager.requestContactAvatar homeEnvironment jabberConnection
      [("/home/u/.cache/telepathy/avatars/gabble/jabber/tok1", [1, 2, 3])]
      { handle := 5, requestedFeatures := [], isAvatarTokenKnown := true,
        avatarToken := "tok1" }
      (ContactManager.Private.new false)).2.requestAvatarsQueue = [] := by
  decide

/-- C18, amended.  For a contact with a known token the cache-hit test is the existence of
the blob file alone.  When the blob file does not exist, whether or not the MIME-type file
does, nothing is delivered to the contact and its handle is queued for a batched fetch.
When the blob file exists but the MIME-type file does not, the request is served as a
hit: the contact is delivered an avatar that refers to the blob file, its handle is not
queued and the manager's state is unchanged. -/
theorem ContactManager.requestContactAvatar_blob_decides (env : CacheEnvironment)
    (conn : Connection) (files : Disk) (contact : Contact) (mPriv : ContactManager.Private)
    (hknown : contact.isAvatarTokenKnown = true) :
    (QFile.exists files
        (ContactManager.Private.avatarFileName env conn contact.avatarToken) = false →
      (ContactManager.requestContactAvatar env conn files contact mPriv).1 = contact ∧
      (ContactManager.requestContactAvatar env conn files contact mPriv).2.requestAvatarsQueue =
        mPriv.requestAvatarsQueue ++ [contact.handle]) ∧
    (QFile.exists files
        (ContactManager.Private.avatarFileName env conn contact.avatarToken) = true →
      QFile.exists files
        (ContactManager.Private.mimeTypeFileName env conn contact.avatarToken) = false →
      (ContactManager.requestContactAvatar env conn files contact mPriv).1.avatarData.fileName =
        ContactManager.Private.avatarFileName env conn contact.avatarToken ∧
      (ContactManager.requestContactAvatar env conn files contact mPriv).2 = mPriv) := by
  constructor
  · intro hno
    have hun : ContactManager.avatarUncached env conn files contact = true := by
      simp [ContactManager.avatarUncached, hknown, hno]
    rw [ContactManager.requestContactAvatar_uncached env conn files contact mPriv hun]
    exact ⟨rfl, rfl⟩
  · intro hblob _
    rw [ContactManager.requestContactAvatar_hit env conn files contact mPriv hknown hblob]
    exact ⟨rfl, rfl⟩

/-- The disk cache holds the MIME file for "tok1" but not the blob: the contact that knows
this token gets nothing and its handle 5 is queued. -/
theorem ContactManager.requestContactAvatar_blob_decides_witness :
    (ContactManager.requestContactAvatar homeEnvironment jabberConnection
      [("/home/u/.cache/telepathy/avatars/gabble/jabber/tok1.mime",
          QString.toLatin1 "image/png")]
      { handle := 5, requestedFeatures := [], isAvatarTokenKnown := true,
        avatarToken := "tok1" }
      (ContactManager.Private.new false)).2.requestAvatarsQueue = [5] :=
  ((ContactManager.requestContactAvatar_blob_decides homeEnvironment jabberConnection
      [("/home/u/.cache/telepathy/avatars/gabble/jabber/tok1.mime",
          QString.toLatin1 "image/png")]
      { handle := 5, requestedFeatures := [], isAvatarTokenKnown := true,
        avatarToken := "tok1" }
      (ContactManager.Private.new false) rfl).1 (by decide)).2

/-! ## The avatar cache round trip -/

theorem QString.latin1_chars (l : List Char)
    (h : ∀ c, c ∈ l → c.toNat ≠ 0 ∧ c.toNat ≤ 255) :
    List.map Char.ofNat
      (List.takeWhile (fun b => !decide (b = 0))
        (l.flatMap (fun c =>
          if c.toNat > 65535 then [63, 63] else if c.toNat > 255 then [63] else [c.toNat]))) =
      l := by
  induction l with
  | nil => rfl
  | cons c l ih =>
    have hc := h c (List.mem_cons_self _ _)
    have h1 : ¬ c.toNat > 65535 := by omega
    have h2 : ¬ c.toNat > 255 := by omega
    have ih2 := ih (fun d hd => h d (List.mem_cons_of_mem _ hd))
    simp only [List.flatMap_cons, h1, h2, if_false, List.singleton_append]
    rw [List.takeWhile_cons]
    simp only [hc.1, decide_False, Bool.not_false, if_true, List.map_cons, Char.ofNat_toNat]
    rw [ih2]

/-- Writing a string as Latin-1 and reading it back gives the string again when all its
characters are Latin-1 and none is NUL. -/
theorem QString.fromLatin1_toLatin1 (s : String)
    (h : ∀ c, c ∈ s.toList → c.toNat ≠ 0 ∧ c.toNat ≤ 255) :
    QString.fromLatin1 (QString.toLatin1 s) = s := by
  unfold QString.fromLatin1 QString.toLatin1
  rw [QString.latin1_chars s.toList h]
  cases s
  rfl

theorem ContactManager.Private.mimeTypeFileName_eq (env : CacheEnvironment)
    (conn : Connection) (token : String) :
    ContactManager.Private.mimeTypeFileName env conn token =
      ContactManager.Private.avatarFileName env conn token ++ ".mime" := by
  simp [ContactManager.Private.mimeTypeFileName, ContactManager.Private.avatarFileName,
    ContactManager.Private.buildAvatarFileName]

/-- The blob file and the MIME-type file of a token are two different files. -/
theorem ContactManager.Private.avatarFileName_ne_mime (env : CacheEnvironment)
    (conn : Connection) (token : String) :
    ContactManager.Private.avatarFileName env conn token ≠
      ContactManager.Private.mimeTypeFileName env conn token := by
  rw [ContactManager.Private.mimeTypeFileName_eq]
  intro h
  have hl := congrArg String.length h
  rw [String.length_append] at hl
  have h5 : ".mime".length = 5 := by decide
  omega

theorem ContactManager.Private.buildAvatarFileName_true (env : CacheEnvironment)
    (conn : Connection) (token a m : String) :
    ContactManager.Private.buildAvatarFileName env conn token true a m =
      if env.mkpath (ContactManager.Private.avatarCachePath env conn) then
        (true, ContactManager.Private.avatarFileName env conn token,
          ContactManager.Private.mimeTypeFileName env conn token)
      else (false, a, m) := by
  cases hm : env.mkpath (ContactManager.Private.avatarCachePath env conn) <;>
    simp [ContactManager.Private.buildAvatarFileName, ContactManager.Private.avatarFileName,
      ContactManager.Private.mimeTypeFileName, hm]

/-- The disk after `onAvatarRetrieved`: untouched when the directory cannot be created,
otherwise the MIME-type file is written, then the blob file. -/
theorem ContactManager.onAvatarRetrieved_disk (env : CacheEnvironment) (conn : Connection)
    (files : Disk) (handle : Nat) (token : String) (data : QByteArray) (mimeType : String)
    (mPriv : ContactManager.Private) :
    (ContactManager.onAvatarRetrieved env conn files handle token data mimeType mPriv).1 =
      if env.mkpath (ContactManager.Private.avatarCachePath env conn) then
        QFile.write env
          (QFile.write env files (ContactManager.Private.mimeTypeFileName env conn token)
            (QString.toLatin1 mimeType))
          (ContactManager.Private.avatarFileName env conn token) data
      else files := by
  unfold ContactManager.onAvatarRetrieved
  rw [ContactManager.Private.buildAvatarFileName_true]
  cases hm : env.mkpath (ContactManager.Private.avatarCachePath env conn) <;>
    simp only [if_true, if_false, Bool.false_eq_true] <;>
    split <;> rfl

/-- C19, the claim fails as stated.  The avatar payload for the token "tok1" arrives with
the MIME type "image/π", the directory is created and both files are written.  A later
request for a contact that knows "tok1" is served from the cache, but the MIME type it is
delivered is "image/?": the MIME-type file is written and read as Latin-1. -/
theorem ContactManager.avatar_round_trip_not_latin1 :
    (ContactManager.requestContactAvatar homeEnvironment jabberConnection
      (ContactManager.onAvatarRetrieved homeEnvironment jabberConnection [] 5 "tok1"
        [1, 2, 3] "image/π" (ContactManager.Private.new false)).1
      { handle := 6, requestedFeatures := [], isAvatarTokenKnown := true,
        avatarToken := "tok1" }
      (ContactManager.Private.new false)).1.avatarData.mimeType = "image/?" ∧
    "image/?" ≠ "image/π" := by
  decide

/-- C19, amended.  Avatar cache round trip: for every token T, every blob and every MIME
type whose characters are all Latin-1 and none NUL, after `onAvatarRetrieved(h, T, blob,
mime)` has run with the cache directory creatable and both files writable, the blob file
of T holds the blob, and a later `requestContactAvatar` under the same environment and
connection, for any contact whose known avatar token is T and from any state of the
manager, leaves that state unchanged (nothing queued, no flush set, no call issued) and
delivers to the contact the avatar made of that blob file and of the MIME type mime. -/
theorem ContactManager.avatar_round_trip (env : CacheEnvironment) (conn : Connection)
    (files : Disk) (h : Nat) (T : String) (blob : QByteArray) (mime : String)
    (mPriv : ContactManager.Private) (contact : Contact) (later : ContactManager.Private)
    (hdir : env.mkpath (ContactManager.Private.avatarCachePath env conn) = true)
    (hblob : env.canWrite (ContactManager.Private.avatarFileName env conn T) = true)
    (hmime : env.canWrite (ContactManager.Private.mimeTypeFileName env conn T) = true)
    (hlatin : ∀ c, c ∈ mime.toList → c.toNat ≠ 0 ∧ c.toNat ≤ 255)
    (hknown : contact.isAvatarTokenKnown = true) (htoken : contact.avatarToken = T) :
    QMap.find (ContactManager.onAvatarRetrieved env conn files h T blob mime mPriv).1
      (ContactManager.Private.avatarFileName env conn T) = some blob ∧
    ContactManager.requestContactAvatar env conn
      (ContactManager.onAvatarRetrieved env conn files h T blob mime mPriv).1 contact later =
      (contact.receiveAvatarData
        { fileName := ContactManager.Private.avatarFileName env conn T, mimeType := mime },
        later) := by
  have hne := ContactManager.Private.avatarFileName_ne_mime env conn T
  have hdisk := ContactManager.onAvatarRetrieved_disk env conn files h T blob mime mPriv
  rw [hdir] at hdisk
  simp only [if_true, QFile.write, hblob, hmime] at hdisk
  have hfb : QMap.find
      (ContactManager.onAvatarRetrieved env conn files h T blob mime mPriv).1
      (ContactManager.Private.avatarFileName env conn T) = some blob := by
    rw [hdisk, QMap.find_insert]
    simp
  have hfm : QMap.find
      (ContactManager.onAvatarRetrieved env conn files h T blob mime mPriv).1
      (ContactManager.Private.mimeTypeFileName env conn T) =
        some (QString.toLatin1 mime) := by
    rw [hdisk, QMap.find_insert, QMap.find_insert]
    have : ¬ ContactManager.Private.mimeTypeFileName env conn T =
        ContactManager.Private.avatarFileName env conn T := fun e => hne e.symm
    simp [this]
  refine ⟨hfb, ?_⟩
  have hex : QFile.exists
      (ContactManager.onAvatarRetrieved env conn files h T blob mime mPriv).1
      (ContactManager.Private.avatarFileName env conn contact.avatarToken) = true := by
    rw [htoken]
    simp [QFile.exists, QMap.contains, hfb]
  rw [ContactManager.requestContactAvatar_hit env conn _ contact later hknown hex, htoken]
  simp only [QFile.readAll, hfm, Option.getD_some]
  rw [QString.fromLatin1_toLatin1 mime hlatin]

/-- The round trip for the token "tok1", the blob 1, 2, 3 and the MIME type "image/png":
a later request for another contact that knows "tok1" delivers that pair and leaves the
fresh manager untouched. -/
theorem ContactManager.avatar_round_trip_witness :
    ContactManager.requestContactAvatar homeEnvironment jabberConnection
      (ContactManager.onAvatarRetrieved homeEnvironment jabberConnection [] 5 "tok1"
        [1, 2, 3] "image/png" (ContactManager.Private.new false)).1
      { handle := 6, requestedFeatures := [], isAvatarTokenKnown := true,
        avatarToken := "tok1" }
      (ContactManager.Private.new true) =
      (Contact.receiveAvatarData
        { handle := 6, requestedFeatures := [], isAvatarTokenKnown := true,
          avatarToken := "tok1" }
        { fileName :=
            ContactManager.Private.avatarFileName homeEnvironment jabberConnection "tok1",
          mimeType := "image/png" },
        ContactManager.Private.new true) :=
  (ContactManager.avatar_round_trip homeEnvironment jabberConnection [] 5 "tok1" [1, 2, 3]
    "image/png" (ContactManager.Private.new false)
    { handle := 6, requestedFeatures := [], isAvatarTokenKnown := true,
      avatarToken := "tok1" }
    (ContactManager.Private.new true) rfl rfl rfl (by decide) rfl rfl).2

/-! ## Avatar delivery when the cache directory cannot be created -/

/-- When the cache directory cannot be created, `onAvatarRetrieved` writes no file, and a
live cached contact gets the token and avatar data whose file name is empty. -/
theorem ContactManager.onAvatarRetrieved_no_directory (env : CacheEnvironment)
    (conn : Connection) (files : Disk) (handle : Nat) (token : String) (data : QByteArray)
    (mimeType : String) (mPriv : ContactManager.Private) (c : Contact)
    (hdir : env.mkpath (ContactManager.Private.avatarCachePath env conn) = false)
    (hc : (ContactManager.lookupContactByHandle mPriv handle).1 = some c) :
    ContactManager.onAvatarRetrieved env conn files handle token data mimeType mPriv =
      (files, mPriv.updateContact handle (fun c =>
        (c.setAvatarToken token).receiveAvatarData
          { fileName := "", mimeType := mimeType })) ∧
    (ContactManager.lookupContactByHandle
      (ContactManager.onAvatarRetrieved env conn files handle token data mimeType mPriv).2
      handle).1 =
        some ((c.setAvatarToken token).receiveAvatarData
          { fileName := "", mimeType := mimeType }) := by
  have hst := ContactManager.lookupContactByHandle_live_state mPriv handle c hc
  have hfind : QMap.find mPriv.contacts handle = some (some c) := by
    rw [ContactManager.lookupContactByHandle_fst] at hc
    exact ContactManager.liveContact_some mPriv handle c hc
  have e : ContactManager.onAvatarRetrieved env conn files handle token data mimeType mPriv =
      (files, mPriv.updateContact handle (fun c =>
        (c.setAvatarToken token).receiveAvatarData
          { fileName := "", mimeType := mimeType })) := by
    unfold ContactManager.onAvatarRetrieved
    rw [ContactManager.Private.buildAvatarFileName_true, hdir, hst]
    simp
  rw [e]
  refine ⟨rfl, ?_⟩
  rw [ContactManager.lookupContactByHandle_fst]
  unfold ContactManager.Private.liveContact ContactManager.Private.updateContact
  simp only []
  rw [QMap.find_map_update, hfind]
  simp

/-- C20, the code at the failing input.  The cache directory cannot be created, and a live
contact is cached for handle 5 when the avatar payload of the token "tok1" with the MIME
type "image/png" arrives.  No file is written and the contact's token is set, but the
avatar data it receives has an empty file name: it refers to no avatar. -/
theorem ContactManager.onAvatarRetrieved_delivers_empty_file_name :
    ContactManager.onAvatarRetrieved fullDiskEnvironment jabberConnection [] 5 "tok1"
      [1, 2, 3] "image/png"
      { ContactManager.Private.new false with
        contacts := [(5, some { handle := 5, requestedFeatures := [] })] } =
      ([],
        { ContactManager.Private.new false with
          contacts := [(5, some
            { handle := 5, requestedFeatures := [], isAvatarTokenKnown := true,
              avatarToken := "tok1",
              avatarData := { fileName := "", mimeType := "image/png" } })] }) := by
  decide

/-! ## The batcher from a fresh manager -/

theorem ContactManager.avatarRun_cons (env : CacheEnvironment) (conn : Connection)
    (e : AvatarEvent) (events : List AvatarEvent) (mPriv : ContactManager.Private) :
    ContactManager.avatarRun env conn (e :: events) mPriv =
      ContactManager.avatarRun env conn events (ContactManager.avatarStep env conn mPriv e) := by
  rfl

/-- A run of uncached requests: every handle is appended to the queue in request order, no
call is issued, the flag ends set, and one flush timer is added exactly when the flag was
clear before the first request. -/
theorem ContactManager.avatarRun_requests (env : CacheEnvironment) (conn : Connection)
    (requests : List (Disk × Contact))
    (hun : ∀ r, r ∈ requests → ContactManager.avatarUncached env conn r.1 r.2 = true)
    (hne : requests ≠ []) (mPriv : ContactManager.Private) :
    ContactManager.avatarRun env conn (ContactManager.requestEvents requests) mPriv =
      { mPriv with
        requestAvatarsQueue :=
          mPriv.requestAvatarsQueue ++ requests.map (fun r => r.2.handle),
        requestAvatarsIdle := true,
        flushTimers := if mPriv.requestAvatarsIdle then mPriv.flushTimers
          else mPriv.flushTimers + 1 } := by
  induction requests generalizing mPriv with
  | nil => exact absurd rfl hne
  | cons r rest ih =>
    have h1 := ContactManager.requestContactAvatar_uncached env conn r.1 r.2 mPriv
      (hun r (List.mem_cons_self _ _))
    unfold ContactManager.requestEvents
    rw [List.map_cons, ContactManager.avatarRun_cons]
    simp only [ContactManager.avatarStep]
    rw [h1]
    by_cases hrest : rest = []
    · subst hrest
      simp [ContactManager.avatarRun]
    · have ih2 := ih (fun q hq => hun q (List.mem_cons_of_mem _ hq)) hrest
      unfold ContactManager.requestEvents at ih2
      rw [ih2]
      simp

/-- With the flag clear at the start, the batching works: N ≥ 1 uncached requests set one
flush timer, and when it fires one call is issued, carrying the N handles in order. -/
theorem ContactManager.avatar_batching_flag_clear (env : CacheEnvironment)
    (conn : Connection) (requests : List (Disk × Contact))
    (hun : ∀ r, r ∈ requests → ContactManager.avatarUncached env conn r.1 r.2 = true)
    (hne : requests ≠ []) :
    (ContactManager.avatarRun env conn (ContactManager.requestEvents requests)
      (ContactManager.Private.new false)).flushTimers = 1 ∧
    (ContactManager.fireFlushTimer
      (ContactManager.avatarRun env conn (ContactManager.requestEvents requests)
        (ContactManager.Private.new false))).requestAvatarsCalls =
      [requests.map (fun r => r.2.handle)] ∧
    (ContactManager.fireFlushTimer
      (ContactManager.avatarRun env conn (ContactManager.requestEvents requests)
        (ContactManager.Private.new false))).flushTimers = 0 := by
  rw [ContactManager.avatarRun_requests env conn requests hun hne]
  simp [ContactManager.Private.new, ContactManager.fireFlushTimer,
    ContactManager.doRequestAvatars]

/-- With the flag set at the start, no request ever sets a flush timer: after any number
of uncached requests none is pending, and the event loop has nothing to fire. -/
theorem ContactManager.avatar_batching_flag_set (env : CacheEnvironment)
    (conn : Connection) (requests : List (Disk × Contact))
    (hun : ∀ r, r ∈ requests → ContactManager.avatarUncached env conn r.1 r.2 = true)
    (hne : requests ≠ []) :
    (ContactManager.avatarRun env conn (ContactManager.requestEvents requests)
      (ContactManager.Private.new true)).flushTimers = 0 ∧
    (ContactManager.fireFlushTimer
      (ContactManager.avatarRun env conn (ContactManager.requestEvents requests)
        (ContactManager.Private.new true))).requestAvatarsCalls = [] ∧
    (ContactManager.fireFlushTimer
      (ContactManager.avatarRun env conn (ContactManager.requestEvents requests)
        (ContactManager.Private.new true))).requestAvatarsQueue =
      requests.map (fun r => r.2.handle) := by
  rw [ContactManager.avatarRun_requests env conn requests hun hne]
  simp [ContactManager.Private.new, ContactManager.fireFlushTimer]

/-- C14, the code at the failing input.  On a freshly constructed manager whose
uninitialised flag `requestAvatarsIdle` holds true, two `requestContactAvatar` calls for
the distinct uncached contacts of handles 5 and 6 set no flush timer; the event loop has
no flush to run, no `RequestAvatars` call is issued and the two handles stay queued. -/
theorem ContactManager.avatar_batching_uninitialised_flag :
    (ContactManager.avatarRun homeEnvironment jabberConnection
      [AvatarEvent.request [] { handle := 5, requestedFeatures := [] },
        AvatarEvent.request [] { handle := 6, requestedFeatures := [] }]
      (ContactManager.Private.new true)).flushTimers = 0 ∧
    ContactManager.avatarRun homeEnvironment jabberConnection
      [AvatarEvent.request [] { handle := 5, requestedFeatures := [] },
        AvatarEvent.request [] { handle := 6, requestedFeatures := [] },
        AvatarEvent.timerFires]
      (ContactManager.Private.new true) =
      { ContactManager.Private.new true with requestAvatarsQueue := [5, 6] } ∧
    (ContactManager.avatarRun homeEnvironment jabberConnection
      [AvatarEvent.request [] { handle := 5, requestedFeatures := [] },
        AvatarEvent.request [] { handle := 6, requestedFeatures := [] },
        AvatarEvent.timerFires]
      (ContactManager.Private.new false)).requestAvatarsCalls = [[5, 6]] := by
  decide

/-! ## The flush-scheduled flag -/

theorem ContactManager.avatarStep_flushScheduledOnce (env : CacheEnvironment)
    (conn : Connection) (mPriv : ContactManager.Private) (e : AvatarEvent)
    (h : mPriv.flushScheduledOnce) :
    (ContactManager.avatarStep env conn mPriv e).flushScheduledOnce := by
  unfold ContactManager.Private.flushScheduledOnce at *
  obtain ⟨h1, h2⟩ := h
  cases e with
  | timerFires =>
    simp only [ContactManager.avatarStep, ContactManager.fireFlushTimer]
    by_cases h0 : mPriv.flushTimers = 0
    · rw [if_pos h0]
      exact ⟨h1, h2⟩
    · simp only [h0, if_false, ContactManager.doRequestAvatars]
      have : mPriv.flushTimers = 1 := by omega
      simp [this]
  | request files contact =>
    simp only [ContactManager.avatarStep]
    by_cases hun : ContactManager.avatarUncached env conn files contact = true
    · rw [ContactManager.requestContactAvatar_uncached env conn files contact mPriv hun]
      cases hi : mPriv.requestAvatarsIdle with
      | true =>
        have := h2.1 hi
        simp [this]
      | false =>
        have hne : mPriv.flushTimers ≠ 1 := fun e => by
          have := h2.2 e
          rw [hi] at this
          cases this
        have h0 : mPriv.flushTimers = 0 := by omega
        simp [h0]
    · have hk : contact.isAvatarTokenKnown = true ∧
          QFile.exists files
            (ContactManager.Private.avatarFileName env conn contact.avatarToken) = true := by
        unfold ContactManager.avatarUncached at hun
        simpa using hun
      rw [ContactManager.requestContactAvatar_hit env conn files contact mPriv hk.1 hk.2]
      exact ⟨h1, h2⟩

/-- With the flag clear at the start, every state reachable by requests and timer firings
has at most one flush pending and the flag set exactly when one is. -/
theorem ContactManager.avatarRun_flushScheduledOnce (env : CacheEnvironment)
    (conn : Connection) (events : List AvatarEvent) (mPriv : ContactManager.Private)
    (h : mPriv.flushScheduledOnce) :
    (ContactManager.avatarRun env conn events mPriv).flushScheduledOnce := by
  induction events generalizing mPriv with
  | nil => exact h
  | cons e events ih =>
    rw [ContactManager.avatarRun_cons]
    exact ih _ (ContactManager.avatarStep_flushScheduledOnce env conn mPriv e h)

theorem ContactManager.Private.new_false_flushScheduledOnce :
    (ContactManager.Private.new false).flushScheduledOnce := by
  simp [ContactManager.Private.flushScheduledOnce, ContactManager.Private.new]

/-- C15, the code at the failing input.  A freshly constructed manager whose uninitialised
flag `requestAvatarsIdle` holds true is in the initial state, reached by no event at all:
its flag is set although no flush is scheduled.  It stays so after an uncached request
and a turn of the event loop: the flag is set, no flush is pending, and none has run. -/
theorem ContactManager.flag_set_without_flush :
    (ContactManager.avatarRun homeEnvironment jabberConnection []
      (ContactManager.Private.new true)).requestAvatarsIdle = true ∧
    (ContactManager.avatarRun homeEnvironment jabberConnection []
      (ContactManager.Private.new true)).flushTimers = 0 ∧
    ¬ (ContactManager.avatarRun homeEnvironment jabberConnection []
      (ContactManager.Private.new true)).flushScheduledOnce ∧
    (ContactManager.avatarRun homeEnvironment jabberConnection
      [AvatarEvent.request [] { handle := 5, requestedFeatures := [] },
        AvatarEvent.timerFires]
      (ContactManager.Private.new true)).requestAvatarsIdle = true ∧
    (ContactManager.avatarRun homeEnvironment jabberConnection
      [AvatarEvent.request [] { handle := 5, requestedFeatures := [] },
        AvatarEvent.timerFires]
      (ContactManager.Private.new true)).flushTimers = 0 := by
  refine ⟨by decide, by decide, ?_, by decide, by decide⟩
  intro h
  have h2 := h.2.1 (by decide)
  revert h2
  decide

/-! ## Idempotence of the tracking guard -/

/-- A call for a feature that is already tracked changes nothing at all. -/
theorem ContactManager.Private.ensureTracking_of_tracked (p : ContactManager.Private)
    (f : Feature) (h : p.isTracked f = true) : p.ensureTracking f = p := by
  unfold ContactManager.Private.ensureTracking
  simp [h]

theorem ContactManager.Private.ensureTracking_twice (p : ContactManager.Private)
    (f : Feature) : (p.ensureTracking f).ensureTracking f = p.ensureTracking f := by
  apply ContactManager.Private.ensureTracking_of_tracked
  rw [ContactManager.Private.ensureTracking_isTracked]
  exact Or.inr rfl

/-- The signals `connectFeature` connects: one for each of the seven features with a
change-notification signal, none for roster-groups or an unknown feature. -/
theorem ContactManager.Private.connectFeature_connected (p : ContactManager.Private)
    (f : Feature) :
    ∃ added : List Signal, (p.connectFeature f).connected = p.connected ++ added ∧
      added.length =
        if f ∈ [Feature.FeatureAlias, Feature.FeatureAvatarToken, Feature.FeatureAvatarData,
          Feature.FeatureSimplePresence, Feature.FeatureCapabilities,
          Feature.FeatureLocation, Feature.FeatureInfo] then 1 else 0 := by
  cases f with
  | FeatureAlias => exact ⟨[Signal.AliasesChanged], rfl, by decide⟩
  | FeatureAvatarToken => exact ⟨[Signal.AvatarUpdated], rfl, by decide⟩
  | FeatureAvatarData => exact ⟨[Signal.AvatarRetrieved], rfl, by decide⟩
  | FeatureSimplePresence => exact ⟨[Signal.PresencesChanged], rfl, by decide⟩
  | FeatureCapabilities => exact ⟨[Signal.ContactCapabilitiesChanged], rfl, by decide⟩
  | FeatureLocation => exact ⟨[Signal.LocationUpdated], rfl, by decide⟩
  | FeatureInfo => exact ⟨[Signal.ContactInfoChanged], rfl, by decide⟩
  | FeatureRosterGroups => exact ⟨[], by simp [ContactManager.Private.connectFeature], by decide⟩
  | other n =>
    refine ⟨[], by simp [ContactManager.Private.connectFeature], ?_⟩
    simp

/-- C21, the claim fails as stated.  From a fresh manager, two `ensureTracking` calls for
the roster-groups feature install no subscription at all, and neither do two calls for an
unrecognised feature; and once alias is tracked, two more calls for alias add none to the
one already installed. -/
theorem ContactManager.Private.ensureTracking_twice_installs_none :
    (((ContactManager.Private.new false).ensureTracking
      Feature.FeatureRosterGroups).ensureTracking Feature.FeatureRosterGroups).connected = [] ∧
    (((ContactManager.Private.new false).ensureTracking
      (Feature.other 12)).ensureTracking (Feature.other 12)).connected = [] ∧
    ((((ContactManager.Private.new false).ensureTracking
      Feature.FeatureAlias).ensureTracking Feature.FeatureAlias).ensureTracking
        Feature.FeatureAlias).connected =
      ((ContactManager.Private.new false).ensureTracking Feature.FeatureAlias).connected := by
  decide

/-- C21, amended.  The function `ensureTracking` is idempotent: for every feature f and
every state, calling it twice leaves the same state, hence the same tracked map and the
same installed subscriptions, as calling it once.  The two calls together install exactly
one subscription when f was untracked and is one of alias, avatar-token, avatar-data,
simple-presence, capabilities, location and info, and none otherwise (f already tracked,
f the roster-groups feature, or f unrecognised); the subscriptions installed before are
kept. -/
theorem ContactManager.Private.ensureTracking_idempotent (p : ContactManager.Private)
    (f : Feature) :
    (p.ensureTracking f).ensureTracking f = p.ensureTracking f ∧
    ∃ added : List Signal,
      ((p.ensureTracking f).ensureTracking f).connected = p.connected ++ added ∧
      added.length =
        if p.isTracked f = false ∧
            f ∈ [Feature.FeatureAlias, Feature.FeatureAvatarToken, Feature.FeatureAvatarData,
              Feature.FeatureSimplePresence, Feature.FeatureCapabilities,
              Feature.FeatureLocation, Feature.FeatureInfo] then 1 else 0 := by
  refine ⟨ContactManager.Private.ensureTracking_twice p f, ?_⟩
  rw [ContactManager.Private.ensureTracking_twice]
  cases ht : p.isTracked f with
  | true =>
    rw [ContactManager.Private.ensureTracking_of_tracked p f ht]
    exact ⟨[], by simp, by simp⟩
  | false =>
    obtain ⟨added, h1, h2⟩ := ContactManager.Private.connectFeature_connected p f
    refine ⟨added, ?_, ?_⟩
    · unfold ContactManager.Private.ensureTracking
      simp only [ht, Bool.false_eq_true, if_false]
      exact h1
    · rw [h2]
      simp

/-! ## Features without a change-notification signal -/

theorem ContactManager.Private.connectFeature_warnings (p : ContactManager.Private)
    (g : Feature) :
    (p.connectFeature g).unknownFeatureWarnings =
      p.unknownFeatureWarnings ++ (if g.isKnown = true then [] else [g]) := by
  cases g <;> simp [ContactManager.Private.connectFeature, Feature.isKnown]

theorem ContactManager.Private.ensureTracking_warnings (p : ContactManager.Private)
    (g : Feature) :
    (p.ensureTracking g).unknownFeatureWarnings =
      p.unknownFeatureWarnings ++
        (if p.isTracked g = true ∨ g.isKnown = true then [] else [g]) := by
  unfold ContactManager.Private.ensureTracking
  cases ht : p.isTracked g with
  | true => simp
  | false =>
    simp only [Bool.false_eq_true, if_false, false_or]
    exact ContactManager.Private.connectFeature_warnings p g

theorem ContactManager.Private.ensureTracking_warnings_count (p : ContactManager.Private)
    (g f : Feature) :
    (p.ensureTracking g).unknownFeatureWarnings.count f ≤
      p.unknownFeatureWarnings.count f +
        (if g = f ∧ p.isTracked f = false then 1 else 0) := by
  rw [ContactManager.Private.ensureTracking_warnings, List.count_append]
  by_cases hg : g = f
  · subst hg
    cases ht : p.isTracked g with
    | true => simp
    | false => cases hk : g.isKnown <;> simp
  · have hc : List.count f [g] = 0 := by
      simp only [List.count_eq_zero, List.mem_singleton]
      exact fun e => hg e.symm
    by_cases hcond : p.isTracked g = true ∨ g.isKnown = true
    · simp [hcond]
    · simp [hcond, hc]

/-- Over any sequence of `ensureTracking` calls, the warning about a feature is emitted at
most once, and never when the feature was tracked at the start. -/
theorem ContactManager.Private.ensureTracking_warns_once (fs : List Feature)
    (p : ContactManager.Private) (f : Feature) :
    (fs.foldl ContactManager.Private.ensureTracking p).unknownFeatureWarnings.count f ≤
      p.unknownFeatureWarnings.count f + (if p.isTracked f = true then 0 else 1) := by
  induction fs generalizing p with
  | nil => simp
  | cons g fs ih =>
    rw [List.foldl_cons]
    have h1 := ih (p.ensureTracking g)
    have h2 := ContactManager.Private.ensureTracking_warnings_count p g f
    have h3 := ContactManager.Private.ensureTracking_isTracked p g f
    cases ht : p.isTracked f with
    | true =>
      have ht' : (p.ensureTracking g).isTracked f = true := h3.2 (Or.inl ht)
      simp only [ht', if_true, ht] at h1 h2 ⊢
      simp only [Bool.true_eq_false, and_false, if_false] at h2
      omega
    | false =>
      by_cases hg : g = f
      · subst hg
        have ht' : (p.ensureTracking g).isTracked g = true := h3.2 (Or.inr rfl)
        rw [ht'] at h1
        rw [ht] at h2
        simp only [if_true, and_self] at h1 h2
        simp only [Bool.false_eq_true, if_false]
        omega
      · simp only [ht, hg, false_and, if_false] at h2
        simp only [Bool.false_eq_true, if_false]
        have : (if (p.ensureTracking g).isTracked f = true then 0 else 1) ≤ 1 := by
          split <;> omega
        omega

/-- C24. For the roster-groups feature and for any feature outside the eight known ones,
`ensureTracking` installs no change-notification subscription and still marks the feature
tracked, so that an `ensureTracking` call for it in any later state, where it is tracked,
is a no-op.  For roster-groups no diagnostic is emitted; for an unrecognised feature the
diagnostic is emitted by the call that finds it untracked, and over any sequence of
`ensureTracking` calls at most once. -/
theorem ContactManager.Private.ensureTracking_without_signal (p : ContactManager.Private)
    (f : Feature) (hf : f = Feature.FeatureRosterGroups ∨ ∃ n : Nat, f = Feature.other n) :
    (p.ensureTracking f).connected = p.connected ∧
    (p.ensureTracking f).isTracked f = true ∧
    (p.ensureTracking f).ensureTracking f = p.ensureTracking f ∧
    (∀ q : ContactManager.Private, q.isTracked f = true → q.ensureTracking f = q) ∧
    (p.ensureTracking f).unknownFeatureWarnings =
      p.unknownFeatureWarnings ++
        (if p.isTracked f = false ∧ f ≠ Feature.FeatureRosterGroups then [f] else []) ∧
    (∀ fs : List Feature,
      (fs.foldl ContactManager.Private.ensureTracking p).unknownFeatureWarnings.count f ≤
        p.unknownFeatureWarnings.count f + 1) := by
  refine ⟨?_, ?_, ContactManager.Private.ensureTracking_twice p f,
    fun q hq => ContactManager.Private.ensureTracking_of_tracked q f hq, ?_, ?_⟩
  · cases ht : p.isTracked f with
    | true => rw [ContactManager.Private.ensureTracking_of_tracked p f ht]
    | false =>
      unfold ContactManager.Private.ensureTracking
      simp only [ht, Bool.false_eq_true, if_false]
      rcases hf with hf | ⟨n, hf⟩ <;> subst hf <;>
        simp [ContactManager.Private.connectFeature]
  · rw [ContactManager.Private.ensureTracking_isTracked]
    exact Or.inr rfl
  · rw [ContactManager.Private.ensureTracking_warnings]
    rcases hf with hf | ⟨n, hf⟩ <;> subst hf <;> cases p.isTracked _ <;>
      simp [Feature.isKnown]
  · intro fs
    have h := ContactManager.Private.ensureTracking_warns_once fs p f
    have : (if p.isTracked f = true then 0 else 1) ≤ 1 := by split <;> omega
    omega

/-- The tracking guard for the unrecognised feature 12 on a fresh manager: no
subscription, one diagnostic, and three calls in a row emit the diagnostic once. -/
theorem ContactManager.Private.ensureTracking_without_signal_witness :
    ((ContactManager.Private.new false).ensureTracking (Feature.other 12)).connected = [] ∧
    ((ContactManager.Private.new false).ensureTracking
      (Feature.other 12)).unknownFeatureWarnings = [Feature.other 12] ∧
    ([Feature.other 12, Feature.other 12, Feature.other 12].foldl
      ContactManager.Private.ensureTracking
      (ContactManager.Private.new false)).unknownFeatureWarnings.count (Feature.other 12) ≤
      0 + 1 :=
  ⟨(ContactManager.Private.ensureTracking_without_signal (ContactManager.Private.new false)
      (Feature.other 12) (Or.inr ⟨12, rfl⟩)).1,
    by decide,
    (ContactManager.Private.ensureTracking_without_signal (ContactManager.Private.new false)
      (Feature.other 12) (Or.inr ⟨12, rfl⟩)).2.2.2.2.2
        [Feature.other 12, Feature.other 12, Feature.other 12]⟩

/-! ## Duplicates in the avatar queue -/

/-- C25. Every `requestContactAvatar` call that is not served from the disk cache (token
unknown, or blob file absent) delivers nothing to the contact and appends exactly one
entry, the contact's handle, at the end of the pending queue, whether or not that handle
is already queued.  Duplicates are not removed: two such requests for the same handle give
a queue that ends with that handle twice, and a flush then issues a batched call carrying
the handle twice. -/
theorem ContactManager.requestContactAvatar_appends (env : CacheEnvironment)
    (conn : Connection) (files files2 : Disk) (contact : Contact)
    (mPriv : ContactManager.Private)
    (hun : ContactManager.avatarUncached env conn files contact = true)
    (hun2 : ContactManager.avatarUncached env conn files2 contact = true) :
    (ContactManager.requestContactAvatar env conn files contact mPriv).1 = contact ∧
    (ContactManager.requestContactAvatar env conn files contact mPriv).2.requestAvatarsQueue =
      mPriv.requestAvatarsQueue ++ [contact.handle] ∧
    (ContactManager.requestContactAvatar env conn files2 contact
      (ContactManager.requestContactAvatar env conn files contact mPriv).2).2.requestAvatarsQueue =
      mPriv.requestAvatarsQueue ++ [contact.handle, contact.handle] ∧
    (ContactManager.doRequestAvatars
      (ContactManager.requestContactAvatar env conn files2 contact
        (ContactManager.requestContactAvatar env conn files contact
          mPriv).2).2).requestAvatarsCalls =
      mPriv.requestAvatarsCalls ++
        [mPriv.requestAvatarsQueue ++ [contact.handle, contact.handle]] := by
  rw [ContactManager.requestContactAvatar_uncached env conn files contact mPriv hun,
    ContactManager.requestContactAvatar_uncached env conn files2 contact _ hun2]
  simp [ContactManager.doRequestAvatars]

/-- Two requests for the contact of handle 5, whose token is unknown, on a manager whose
queue already holds 5: the queue and the batched call carry 5 three times. -/
theorem ContactManager.requestContactAvatar_appends_witness :
    ContactManager.avatarUncached homeEnvironment jabberConnection []
      { handle := 5, requestedFeatures := [] } = true ∧
    (ContactManager.doRequestAvatars
      (ContactManager.requestContactAvatar homeEnvironment jabberConnection []
        { handle := 5, requestedFeatures := [] }
        (ContactManager.requestContactAvatar homeEnvironment jabberConnection []
          { handle := 5, requestedFeatures := [] }
          { ContactManager.Private.new true with
            requestAvatarsQueue := [5] }).2).2).requestAvatarsCalls = [[5, 5, 5]] :=
  ⟨by decide,
    (ContactManager.requestContactAvatar_appends homeEnvironment jabberConnection [] []
      { handle := 5, requestedFeatures := [] }
      { ContactManager.Private.new true with requestAvatarsQueue := [5] }
      (by decide) (by decide)).2.2.2⟩

/-! ## The avatar cycle of a fresh manager -/

/-- C27, the code at the failing input.  A freshly constructed manager whose uninitialised
flag `requestAvatarsIdle` holds true has an empty queue but a set flag, and its very first
uncached `requestContactAvatar` queues the handle without scheduling a flush; a manager
whose flag happens to hold false schedules one. -/
theorem ContactManager.fresh_manager_flag_not_cleared :
    (ContactManager.Private.new true).requestAvatarsQueue = [] ∧
    (ContactManager.Private.new true).requestAvatarsIdle = true ∧
    (ContactManager.requestContactAvatar homeEnvironment jabberConnection []
      { handle := 5, requestedFeatures := [] }
      (ContactManager.Private.new true)).2 =
      { ContactManager.Private.new true with requestAvatarsQueue := [5] } ∧
    (ContactManager.requestContactAvatar homeEnvironment jabberConnection []
      { handle := 5, requestedFeatures := [] }
      (ContactManager.Private.new true)).2.flushTimers = 0 ∧
    (ContactManager.requestContactAvatar homeEnvironment jabberConnection []
      { handle := 5, requestedFeatures := [] }
      (ContactManager.Private.new false)).2.flushTimers = 1 := by
  decide

/-- Whatever the flag holds, a fresh manager has an empty queue, no flush timer and no
call issued; with the flag clear its first uncached request schedules one flush. -/
theorem ContactManager.fresh_manager_first_request (env : CacheEnvironment)
    (conn : Connection) (files : Disk) (contact : Contact) (b : Bool)
    (hun : ContactManager.avatarUncached env conn files contact = true) :
    (ContactManager.Private.new b).requestAvatarsQueue = [] ∧
    (ContactManager.Private.new b).flushTimers = 0 ∧
    (ContactManager.requestContactAvatar env conn files contact
      (ContactManager.Private.new b)).2.flushTimers = (if b then 0 else 1) := by
  rw [ContactManager.requestContactAvatar_uncached env conn files contact _ hun]
  cases b <;> simp [ContactManager.Private.new]

/-! ## The readiness guard of the read-only roster queries -/

/-- C26. Each of the fifteen read-only roster queries, made on the manager over any
connection, roster collaborator and roster state, returns exactly the collaborator's
answer when its required feature is ready (roster-groups for `allKnownGroups` and
`groupContacts`, roster for `allKnownContacts` and the twelve capability queries), and
otherwise returns its neutral value (empty set, empty list, or false) and leaves the
collaborator's state untouched; on a recording collaborator no query is logged while the
feature is not ready, whatever answers the collaborator was built to give. -/
theorem ContactManager.query_guard {σ : Type} (conn : Connection)
    (roster : ContactManager.RosterQueries σ) (q : RosterQuery) (r : σ)
    (contacts : List Contact) (groups : List String) (flag : Bool)
    (log : List RosterQuery) :
    ContactManager.query conn roster q r =
      (if conn.isReady q.requiredFeature = true then roster.query q r
       else (q.neutral, r)) ∧
    (ContactManager.query conn (spyQueries contacts groups flag) q log).2 =
      (if conn.isReady q.requiredFeature = true then log ++ [q] else log) := by
  constructor
  · cases q <;>
      simp only [ContactManager.query, ContactManager.RosterQueries.query,
        RosterQuery.requiredFeature, RosterQuery.neutral,
        ContactManager.allKnownContacts, ContactManager.allKnownGroups,
        ContactManager.groupContacts, ContactManager.canRequestPresenceSubscription,
        ContactManager.subscriptionRequestHasMessage,
        ContactManager.canRemovePresenceSubscription,
        ContactManager.subscriptionRemovalHasMessage,
        ContactManager.canRescindPresenceSubscriptionRequest,
        ContactManager.subscriptionRescindingHasMessage,
        ContactManager.canAuthorizePresencePublication,
        ContactManager.publicationAuthorizationHasMessage,
        ContactManager.publicationRejectionHasMessage,
        ContactManager.canRemovePresencePublication,
        ContactManager.publicationRemovalHasMessage,
        ContactManager.canBlockContacts] <;>
      split <;> simp_all
  · cases q <;>
      simp only [ContactManager.query, spyQueries,
        RosterQuery.requiredFeature,
        ContactManager.allKnownContacts, ContactManager.allKnownGroups,
        ContactManager.groupContacts, ContactManager.canRequestPresenceSubscription,
        ContactManager.subscriptionRequestHasMessage,
        ContactManager.canRemovePresenceSubscription,
        ContactManager.subscriptionRemovalHasMessage,
        ContactManager.canRescindPresenceSubscriptionRequest,
        ContactManager.subscriptionRescindingHasMessage,
        ContactManager.canAuthorizePresencePublication,
        ContactManager.publicationAuthorizationHasMessage,
        ContactManager.publicationRejectionHasMessage,
        ContactManager.canRemovePresencePublication,
        ContactManager.publicationRemovalHasMessage,
        ContactManager.canBlockContacts] <;>
      split <;> simp_all

/-! ## Change-notification routing -/

theorem QMap.mem_keys {κ ν : Type} [DecidableEq κ] (m : QMap κ ν) (k : κ) :
    k ∈ QMap.keys m ↔ QMap.contains m k = true := by
  unfold QMap.keys QMap.contains
  rw [List.mem_dedup]
  induction m with
  | nil => simp [QMap.find]
  | cons p m ih =>
    obtain ⟨a, v⟩ := p
    simp only [List.map_cons, List.mem_cons, QMap.find]
    by_cases ha : a = k
    · simp [ha]
    · have hk : ¬ k = a := fun e => ha e.symm
      simp [ha, hk, ih]

theorem QMap.keys_nodup {κ ν : Type} [DecidableEq κ] (m : QMap κ ν) :
    (QMap.keys m).Nodup :=
  List.nodup_dedup _

theorem List.filter_eq_of_nodup_self (L : List Nat) (h : Nat) (hn : L.Nodup) :
    L.filter (fun i => decide (i = h)) = if h ∈ L then [h] else [] := by
  induction L with
  | nil => simp
  | cons a L ih =>
    rw [List.nodup_cons] at hn
    rw [List.filter_cons, ih hn.2]
    by_cases ha : a = h
    · subst ha
      simp [hn.1]
    · have hk : ¬ h = a := fun e => ha e.symm
      simp [ha, hk]

theorem ContactManager.deliver_find (p : ContactManager.Private) (h h' : Nat)
    (f : Contact → Contact) :
    QMap.find (ContactManager.deliver p h f).contacts h' =
      if h' = h then
        (match p.liveContact h' with
         | some c => some (some (f c))
         | none => none)
      else QMap.find p.contacts h' := by
  unfold ContactManager.deliver
  cases hl : (ContactManager.lookupContactByHandle p h).1 with
  | some c =>
    rw [ContactManager.lookupContactByHandle_live_state p h c hl]
    rw [ContactManager.lookupContactByHandle_fst] at hl
    have hf := ContactManager.liveContact_some p h c hl
    simp only [ContactManager.Private.updateContact]
    rw [QMap.find_map_update]
    by_cases hh : h' = h
    · subst hh
      simp [hl, hf]
    · simp [hh]
  | none =>
    simp only
    rw [ContactManager.lookupContactByHandle_fst] at hl
    unfold ContactManager.lookupContactByHandle QMap.contains
    unfold ContactManager.Private.liveContact at hl
    cases hf : QMap.find p.contacts h with
    | none =>
      by_cases hh : h' = h
      · subst hh
        simp [hf, ContactManager.Private.liveContact]
      · simp [hh]
    | some w =>
      rw [hf] at hl
      simp only [Option.getD_some] at hl
      subst hl
      simp only [Option.isSome_some, if_true, Option.getD_some]
      rw [QMap.find_remove]
      by_cases hh : h' = h
      · subst hh
        simp [hf, ContactManager.Private.liveContact]
      · simp [hh]

theorem ContactManager.deliver_live (p : ContactManager.Private) (h h' : Nat)
    (f : Contact → Contact) :
    (ContactManager.deliver p h f).liveContact h' =
      if h' = h then (p.liveContact h').map f else p.liveContact h' := by
  unfold ContactManager.Private.liveContact
  rw [ContactManager.deliver_find]
  by_cases hh : h' = h
  · simp only [hh, if_true]
    unfold ContactManager.Private.liveContact
    cases hf : QMap.find p.contacts h with
    | none => simp
    | some w => cases w <;> simp
  · simp [hh]

theorem ContactManager.Private.updateContact_cacheOnly (p : ContactManager.Private)
    (h : Nat) (f : Contact → Contact) : p.cacheOnly (p.updateContact h f) := by
  unfold ContactManager.Private.cacheOnly ContactManager.Private.updateContact
  rfl

theorem ContactManager.lookupContactByHandle_cacheOnly (p : ContactManager.Private)
    (h : Nat) : p.cacheOnly (ContactManager.lookupContactByHandle p h).2 :=
  ContactManager.lookupContactByHandle_frame p h

theorem ContactManager.deliver_cacheOnly (p : ContactManager.Private) (h : Nat)
    (f : Contact → Contact) : p.cacheOnly (ContactManager.deliver p h f) := by
  unfold ContactManager.deliver
  cases hl : (ContactManager.lookupContactByHandle p h).1 with
  | some c =>
    simp only [hl]
    exact ContactManager.Private.cacheOnly_trans _ _ _
      (ContactManager.lookupContactByHandle_cacheOnly p h)
      (ContactManager.Private.updateContact_cacheOnly _ h f)
  | none =>
    simp only [hl]
    exact ContactManager.lookupContactByHandle_cacheOnly p h

/-- A loop of deliveries, one per item of `L`, to the handle `k i` with the call `g i`:
the entry of a handle named by some item holds its live contact after the calls of the
items naming it, in list order, or is gone when no contact was live; other entries are
as they were. -/
theorem ContactManager.deliver_foldl_find {ι : Type} (k : ι → Nat)
    (g : ι → Contact → Contact) (L : List ι) (p : ContactManager.Private) (h : Nat) :
    QMap.find (L.foldl (fun q i => ContactManager.deliver q (k i) (g i)) p).contacts h =
      if L.any (fun i => decide (k i = h)) = true then
        (match p.liveContact h with
         | some c =>
           some (some ((L.filter (fun i => decide (k i = h))).foldl (fun c i => g i c) c))
         | none => none)
      else QMap.find p.contacts h := by
  induction L generalizing p with
  | nil => simp
  | cons i L ih =>
    rw [List.foldl_cons, ih, ContactManager.deliver_live, ContactManager.deliver_find]
    by_cases hi : k i = h
    · subst hi
      simp only [List.any_cons, decide_True, Bool.true_or, if_true, List.filter_cons,
        List.foldl_cons]
      cases hl : p.liveContact (k i) with
      | none => simp
      | some c =>
        simp only [Option.map_some']
        by_cases ha : L.any (fun j => decide (k j = k i)) = true
        · simp [ha]
        · have hnil : L.filter (fun j => decide (k j = k i)) = [] := by
            rw [List.filter_eq_nil_iff]
            intro a ha2 hd
            exact ha (List.any_eq_true.2 ⟨a, ha2, hd⟩)
          simp [hnil]
    · have hk : ¬ h = k i := fun e => hi e.symm
      simp only [List.any_cons, hi, decide_False, Bool.false_or, hk, if_false,
        List.filter_cons]
      simp

theorem ContactManager.deliver_foldl_cacheOnly {ι : Type} (k : ι → Nat)
    (g : ι → Contact → Contact) (L : List ι) (p : ContactManager.Private) :
    p.cacheOnly (L.foldl (fun q i => ContactManager.deliver q (k i) (g i)) p) := by
  induction L generalizing p with
  | nil => exact ContactManager.Private.cacheOnly_refl p
  | cons i L ih =>
    rw [List.foldl_cons]
    exact ContactManager.Private.cacheOnly_trans _ _ _
      (ContactManager.deliver_cacheOnly p (k i) (g i)) (ih _)

/-- The entry of every handle after a change notification. -/
theorem ContactManager.notify_find (mPriv : ContactManager.Private)
    (ev : ChangeNotification) (h : Nat) :
    QMap.find (ContactManager.notify mPriv ev).contacts h =
      if ev.names h = true then
        (match mPriv.liveContact h with
         | some c => some (some (ev.applyTo h c))
         | none => none)
      else QMap.find mPriv.contacts h := by
  cases ev with
  | AliasesChanged aliases =>
    exact ContactManager.deliver_foldl_find (fun pair : AliasPair => pair.handle)
      (fun pair c => c.receiveAlias pair.aliasName) aliases mPriv h
  | PresencesChanged presences =>
    have e := ContactManager.deliver_foldl_find (fun i : Nat => i)
      (fun i c => c.receiveSimplePresence
        ((QMap.find presences i).getD
          { presenceType := 0, status := "", statusMessage := "" }))
      (QMap.keys presences) mPriv h
    rw [List.filter_eq_of_nodup_self _ _ (QMap.keys_nodup presences)] at e
    simp only [ContactManager.notify, ContactManager.onPresencesChanged,
      ChangeNotification.names, ChangeNotification.applyTo]
    have e2 : ContactManager.presenceChanged presences =
        fun q i => ContactManager.deliver q i (fun c => c.receiveSimplePresence
          ((QMap.find presences i).getD
            { presenceType := 0, status := "", statusMessage := "" })) := rfl
    rw [e2, e]
    by_cases hc : QMap.contains presences h = true
    · have hm := (QMap.mem_keys presences h).2 hc
      have ha : (QMap.keys presences).any (fun i => decide (i = h)) = true := by
        simpa using hm
      rw [ha]
      simp only [hm, hc, if_true, List.foldl_cons, List.foldl_nil]
      unfold QMap.contains at hc
      cases hf : QMap.find presences h with
      | none => rw [hf] at hc; cases hc
      | some v => simp
    · have hm : h ∉ QMap.keys presences := fun hm => hc ((QMap.mem_keys presences h).1 hm)
      have ha : ¬ (QMap.keys presences).any (fun i => decide (i = h)) = true := by
        simpa using hm
      simp [ha, hc]
  | ContactCapabilitiesChanged caps =>
    have e := ContactManager.deliver_foldl_find (fun i : Nat => i)
      (fun i c => c.receiveCapabilities ((QMap.find caps i).getD []))
      (QMap.keys caps) mPriv h
    rw [List.filter_eq_of_nodup_self _ _ (QMap.keys_nodup caps)] at e
    simp only [ContactManager.notify, ContactManager.onCapabilitiesChanged,
      ChangeNotification.names, ChangeNotification.applyTo]
    have e2 : ContactManager.capabilitiesChanged caps =
        fun q i => ContactManager.deliver q i (fun c => c.receiveCapabilities
          ((QMap.find caps i).getD [])) := rfl
    rw [e2, e]
    by_cases hc : QMap.contains caps h = true
    · have hm := (QMap.mem_keys caps h).2 hc
      have ha : (QMap.keys caps).any (fun i => decide (i = h)) = true := by
        simpa using hm
      rw [ha]
      simp only [hm, hc, if_true, List.foldl_cons, List.foldl_nil]
      unfold QMap.contains at hc
      cases hf : QMap.find caps h with
      | none => rw [hf] at hc; cases hc
      | some v => simp
    · have hm : h ∉ QMap.keys caps := fun hm => hc ((QMap.mem_keys caps h).1 hm)
      have ha : ¬ (QMap.keys caps).any (fun i => decide (i = h)) = true := by
        simpa using hm
      simp [ha, hc]
  | AvatarUpdated handle token =>
    have e := ContactManager.deliver_find mPriv handle h (fun c => c.receiveAvatarToken token)
    simp only [ContactManager.notify, ChangeNotification.names, ChangeNotification.applyTo]
    by_cases hh : h = handle
    · simpa [hh] using e
    · simpa [hh] using e
  | LocationUpdated handle location =>
    have e := ContactManager.deliver_find mPriv handle h (fun c => c.receiveLocation location)
    simp only [ContactManager.notify, ChangeNotification.names, ChangeNotification.applyTo]
    by_cases hh : h = handle
    · simpa [hh] using e
    · simpa [hh] using e
  | ContactInfoChanged handle info =>
    have e := ContactManager.deliver_find mPriv handle h (fun c => c.receiveInfo info)
    simp only [ContactManager.notify, ChangeNotification.names, ChangeNotification.applyTo]
    by_cases hh : h = handle
    · simpa [hh] using e
    · simpa [hh] using e

theorem ContactManager.notify_cacheOnly (mPriv : ContactManager.Private)
    (ev : ChangeNotification) : mPriv.cacheOnly (ContactManager.notify mPriv ev) := by
  cases ev with
  | AliasesChanged aliases =>
    exact ContactManager.deliver_foldl_cacheOnly (fun pair : AliasPair => pair.handle)
      (fun pair c => c.receiveAlias pair.aliasName) aliases mPriv
  | PresencesChanged presences =>
    exact ContactManager.deliver_foldl_cacheOnly (fun i : Nat => i)
      (fun i c => c.receiveSimplePresence
        ((QMap.find presences i).getD
          { presenceType := 0, status := "", statusMessage := "" }))
      (QMap.keys presences) mPriv
  | ContactCapabilitiesChanged caps =>
    exact ContactManager.deliver_foldl_cacheOnly (fun i : Nat => i)
      (fun i c => c.receiveCapabilities ((QMap.find caps i).getD []))
      (QMap.keys caps) mPriv
  | AvatarUpdated handle token => exact ContactManager.deliver_cacheOnly mPriv handle _
  | LocationUpdated handle location => exact ContactManager.deliver_cacheOnly mPriv handle _
  | ContactInfoChanged handle info => exact ContactManager.deliver_cacheOnly mPriv handle _


/-- C22. Routing of the six change notifications (`onAliasesChanged`,
`onPresencesChanged`, `onCapabilitiesChanged`, `onAvatarUpdated`, `onLocationUpdated`,
`onContactInfoChanged`), for every state, event and handle.  After the handler, the live
contact of a handle the event names is the contact that was live for it before, having
received the values the event pairs with that very handle; a handle the event does not
name keeps its cache entry unchanged.  For a named handle without a live contact no
contact is live afterwards and its entry, if there was a dangling one, is gone: no entry
is created.  The handler changes nothing but the cache: the avatar queue, the effect logs
and the list of constructed contacts are as before, so nothing is buffered and no contact
is constructed. -/
theorem ContactManager.notify_routing (mPriv : ContactManager.Private)
    (ev : ChangeNotification) (h : Nat) :
    (ContactManager.notify mPriv ev).liveContact h =
      (if ev.names h = true then (mPriv.liveContact h).map (ev.applyTo h)
       else mPriv.liveContact h) ∧
    QMap.find (ContactManager.notify mPriv ev).contacts h =
      (if ev.names h = true then
        (match mPriv.liveContact h with
         | some c => some (some (ev.applyTo h c))
         | none => none)
       else QMap.find mPriv.contacts h) ∧
    (QMap.contains (ContactManager.notify mPriv ev).contacts h &&
      !QMap.contains mPriv.contacts h) = false ∧
    ContactManager.notify mPriv ev =
      { mPriv with contacts := (ContactManager.notify mPriv ev).contacts } ∧
    (ContactManager.notify mPriv ev).constructedContacts = mPriv.constructedContacts ∧
    (ContactManager.notify mPriv ev).requestAvatarsQueue = mPriv.requestAvatarsQueue := by
  have hf := ContactManager.notify_find mPriv ev h
  have hc : mPriv.cacheOnly (ContactManager.notify mPriv ev) :=
    ContactManager.notify_cacheOnly mPriv ev
  unfold ContactManager.Private.cacheOnly at hc
  refine ⟨?_, hf, ?_, hc, ?_, ?_⟩
  · unfold ContactManager.Private.liveContact
    rw [hf]
    unfold ContactManager.Private.liveContact
    by_cases hn : ev.names h = true
    · simp only [hn, if_true]
      cases hq : QMap.find mPriv.contacts h with
      | none => simp
      | some w => cases w <;> simp
    · simp [hn]
  · unfold QMap.contains
    rw [hf]
    unfold ContactManager.Private.liveContact
    by_cases hn : ev.names h = true
    · simp only [hn, if_true]
      cases hq : QMap.find mPriv.contacts h with
      | none => simp
      | some w => cases w <;> simp
    · simp [hn]
  · rw [hc]
  · rw [hc]

/-- An alias event naming the handles 7, 9 and 3 twice over, on a cache that holds a live
contact for 7 and for 8 and a dangling entry for 9: the contact of 7 receives the two
aliases paired with 7, in order; the contact of 8 is untouched; the dangling entry of 9
is dropped; nothing appears for 3. -/
theorem ContactManager.onAliasesChanged_example :
    (ContactManager.onAliasesChanged
      { ContactManager.Private.new false with
        contacts := [(7, some { handle := 7, requestedFeatures := [] }),
          (9, none), (8, some { handle := 8, requestedFeatures := [] })] }
      [{ handle := 7, aliasName := "ann" }, { handle := 9, aliasName := "bob" },
        { handle := 3, aliasName := "cy" }, { handle := 7, aliasName := "anne" }]).contacts =
      [(7, some { handle := 7, requestedFeatures := [], aliasName := "anne" }),
        (8, some { handle := 8, requestedFeatures := [] })] := by
  decide

/-! ## Who changes the contact cache -/

theorem ContactManager.Private.prunedFrom_refl (p : ContactManager.Private) :
    p.prunedFrom p := fun _ => ⟨rfl, fun h => h⟩

theorem ContactManager.Private.prunedFrom_trans (r q p : ContactManager.Private)
    (h1 : r.prunedFrom q) (h2 : q.prunedFrom p) : r.prunedFrom p :=
  fun h => ⟨(h1 h).1.trans (h2 h).1, fun hc => (h2 h).2 ((h1 h).2 hc)⟩

theorem ContactManager.Private.prunedFrom_of_contacts (q p : ContactManager.Private)
    (h : q.contacts = p.contacts) : q.prunedFrom p := by
  intro k
  unfold ContactManager.Private.liveContact
  rw [h]
  exact ⟨rfl, fun hc => hc⟩

theorem ContactManager.lookupContactByHandle_contacts (p : ContactManager.Private)
    (h : Nat) :
    (ContactManager.lookupContactByHandle p h).2.contacts =
      if QMap.find p.contacts h = some none then QMap.remove p.contacts h
      else p.contacts := by
  unfold ContactManager.lookupContactByHandle QMap.contains
  cases hf : QMap.find p.contacts h with
  | none => simp
  | some w => cases w <;> simp

theorem ContactManager.lookupContactByHandle_prunedFrom (p : ContactManager.Private)
    (h : Nat) : (ContactManager.lookupContactByHandle p h).2.prunedFrom p := by
  intro k
  refine ⟨ContactManager.lookupContactByHandle_live p h k, ?_⟩
  rw [ContactManager.lookupContactByHandle_contacts]
  split
  · unfold QMap.contains
    rw [QMap.find_remove]
    split
    · intro hc; cases hc
    · exact fun hc => hc
  · exact fun hc => hc

theorem ContactManager.scanHandle_snd (R : Features)
    (acc : ContactManager.HandleScan × ContactManager.Private) (h : Nat) :
    (ContactManager.scanHandle R acc h).2 =
      (ContactManager.lookupContactByHandle acc.2 h).2 := by
  unfold ContactManager.scanHandle
  cases hl : (ContactManager.lookupContactByHandle acc.2 h).1 with
  | none => simp only [hl]
  | some c =>
    simp only [hl]
    split <;> rfl

theorem ContactManager.scan_foldl_prunedFrom (R : Features) (handles : List Nat)
    (acc : ContactManager.HandleScan × ContactManager.Private) :
    (handles.foldl (ContactManager.scanHandle R) acc).2.prunedFrom acc.2 := by
  induction handles generalizing acc with
  | nil => exact ContactManager.Private.prunedFrom_refl _
  | cons h handles ih =>
    rw [List.foldl_cons]
    refine ContactManager.Private.prunedFrom_trans _ _ _ (ih _) ?_
    rw [ContactManager.scanHandle_snd]
    exact ContactManager.lookupContactByHandle_prunedFrom _ _

theorem ContactManager.scanHandles_prunedFrom (R : Features) (handles : List Nat)
    (p : ContactManager.Private) :
    (ContactManager.scanHandles R handles p).2.prunedFrom p :=
  ContactManager.scan_foldl_prunedFrom R handles
    ({ satisfyingContacts := [], otherContacts := [], missingFeatures := [] }, p)

theorem ContactManager.Private.connectFeature_contacts (p : ContactManager.Private)
    (f : Feature) : (p.connectFeature f).contacts = p.contacts := by
  unfold ContactManager.Private.connectFeature
  repeat (first | rfl | split)

theorem ContactManager.Private.ensureTracking_contacts (p : ContactManager.Private)
    (f : Feature) : (p.ensureTracking f).contacts = p.contacts := by
  unfold ContactManager.Private.ensureTracking
  split
  · rfl
  · exact ContactManager.Private.connectFeature_contacts p f

theorem ContactManager.collect_foldl_contacts (supported : Features) (L : List Feature)
    (acc : QSet String × ContactManager.Private) :
    (L.foldl (ContactManager.collectInterface supported) acc).2.contacts =
      acc.2.contacts := by
  induction L generalizing acc with
  | nil => rfl
  | cons f L ih =>
    rw [List.foldl_cons, ih]
    have h2 : (ContactManager.collectInterface supported acc f).2 = acc.2.ensureTracking f := by
      unfold ContactManager.collectInterface
      split <;> rfl
    rw [h2, ContactManager.Private.ensureTracking_contacts]

theorem ContactManager.supportedFeatures_contacts (conn : Connection)
    (p : ContactManager.Private) :
    (ContactManager.supportedFeatures conn p).2.contacts = p.contacts := by
  rw [ContactManager.supportedFeatures_frame]

theorem ContactManager.contactsForHandles_prunedFrom (conn : Connection)
    (handles : List Nat) (features : Features) (mPriv : ContactManager.Private) :
    (ContactManager.contactsForHandles conn handles features mPriv).2.prunedFrom mPriv := by
  unfold ContactManager.contactsForHandles
  simp only
  split
  · exact ContactManager.Private.prunedFrom_refl _
  · split
    · exact ContactManager.Private.prunedFrom_refl _
    · refine ContactManager.Private.prunedFrom_trans _ _ _
        (ContactManager.Private.prunedFrom_of_contacts _ _ ?_)
        (ContactManager.scanHandles_prunedFrom
          (QSet.unite features conn.contactFactoryFeatures) handles mPriv)
      rw [ContactManager.collect_foldl_contacts, ContactManager.supportedFeatures_contacts]

theorem ContactManager.requestContactAvatar_contacts (env : CacheEnvironment)
    (conn : Connection) (files : Disk) (contact : Contact)
    (mPriv : ContactManager.Private) :
    (ContactManager.requestContactAvatar env conn files contact mPriv).2.contacts =
      mPriv.contacts := by
  cases hun : ContactManager.avatarUncached env conn files contact with
  | true => rw [ContactManager.requestContactAvatar_uncached env conn files contact mPriv hun]
  | false =>
    unfold ContactManager.avatarUncached at hun
    simp only [Bool.not_eq_false', Bool.and_eq_true] at hun
    rw [ContactManager.requestContactAvatar_hit env conn files contact mPriv hun.1 hun.2]

theorem ContactManager.deliver_sameBindings (p : ContactManager.Private) (h : Nat)
    (f : Contact → Contact) : (ContactManager.deliver p h f).sameBindings p := by
  intro k
  have hl := ContactManager.deliver_live p h k f
  have hf := ContactManager.deliver_find p h k f
  constructor
  · rw [hl]
    split
    · simp
    · rfl
  · unfold QMap.contains
    rw [hf]
    unfold ContactManager.Private.liveContact
    split
    · cases hq : QMap.find p.contacts k with
      | none => simp
      | some w => cases w <;> simp
    · exact fun hc => hc

theorem ContactManager.notify_sameBindings (mPriv : ContactManager.Private)
    (ev : ChangeNotification) : (ContactManager.notify mPriv ev).sameBindings mPriv := by
  intro k
  have hf := ContactManager.notify_find mPriv ev k
  constructor
  · unfold ContactManager.Private.liveContact
    rw [hf]
    unfold ContactManager.Private.liveContact
    split
    · cases hq : QMap.find mPriv.contacts k with
      | none => simp
      | some w => cases w <;> simp
    · rfl
  · unfold QMap.contains
    rw [hf]
    unfold ContactManager.Private.liveContact
    split
    · cases hq : QMap.find mPriv.contacts k with
      | none => simp
      | some w => cases w <;> simp
    · exact fun hc => hc

theorem ContactManager.onAvatarRetrieved_snd (env : CacheEnvironment) (conn : Connection)
    (files : Disk) (handle : Nat) (token : String) (data : QByteArray) (mimeType : String)
    (mPriv : ContactManager.Private) :
    (ContactManager.onAvatarRetrieved env conn files handle token data mimeType mPriv).2 =
      ContactManager.deliver mPriv handle (fun c =>
        (c.setAvatarToken token).receiveAvatarData
          { fileName :=
              (ContactManager.Private.buildAvatarFileName env conn token true "" "").2.1,
            mimeType := mimeType }) := by
  unfold ContactManager.onAvatarRetrieved ContactManager.deliver
  cases hl : (ContactManager.lookupContactByHandle mPriv handle).1 <;> simp only [hl]

/-- C23, counterexample.  On a cache that holds a live contact for 7 and a dangling entry
for 9, `lookupContactByHandle(9)`, `contactsForHandles([9], {})`, `onAvatarUpdated(9, _)`
and `onAvatarRetrieved(9, ...)` each leave a mapping without the entry of 9: they do not
leave the mapping as they found it. -/
theorem ContactManager.lookup_removes_dangling_entry :
    (ContactManager.lookupContactByHandle
      { ContactManager.Private.new false with
        contacts := [(7, some { handle := 7, requestedFeatures := [] }), (9, none)] }
      9).2.contacts = [(7, some { handle := 7, requestedFeatures := [] })] ∧
    (ContactManager.contactsForHandles presenceOnlyConnection [9] []
      { ContactManager.Private.new false with
        contacts := [(7, some { handle := 7, requestedFeatures := [] }), (9, none)] }
      ).2.contacts = [(7, some { handle := 7, requestedFeatures := [] })] ∧
    (ContactManager.onAvatarUpdated
      { ContactManager.Private.new false with
        contacts := [(7, some { handle := 7, requestedFeatures := [] }), (9, none)] }
      9 "tok").contacts = [(7, some { handle := 7, requestedFeatures := [] })] ∧
    (ContactManager.onAvatarRetrieved homeEnvironment jabberConnection [] 9 "tok" [] "image/png"
      { ContactManager.Private.new false with
        contacts := [(7, some { handle := 7, requestedFeatures := [] }), (9, none)] }
      ).2.contacts = [(7, some { handle := 7, requestedFeatures := [] })] := by
  decide

/-- C23, amended.  Only `ensureContact` binds a handle in the contact cache; of the other
operations, `requestContactAvatar` and `doRequestAvatars` leave the cache exactly as they
found it, while `lookupContactByHandle` removes the entry of the handle it looks up when
that entry is dangling, and so do `contactsForHandles`, the six change-notification
handlers and `onAvatarRetrieved` through it.  None of these binds a handle that was not
bound or changes which handles have a live contact: after `lookupContactByHandle` and
`contactsForHandles` every handle has the live contact it had, and after a handler the
same handles are live. -/
theorem ContactManager.cache_mutators (env : CacheEnvironment) (conn : Connection)
    (files : Disk) (contact : Contact) (handles : List Nat) (features : Features)
    (ev : ChangeNotification) (handle : Nat) (token : String) (data : QByteArray)
    (mimeType : String) (mPriv : ContactManager.Private) :
    (ContactManager.requestContactAvatar env conn files contact mPriv).2.contacts =
      mPriv.contacts ∧
    (ContactManager.doRequestAvatars mPriv).contacts = mPriv.contacts ∧
    (ContactManager.lookupContactByHandle mPriv handle).2.contacts =
      (if QMap.find mPriv.contacts handle = some none then QMap.remove mPriv.contacts handle
       else mPriv.contacts) ∧
    (ContactManager.lookupContactByHandle mPriv handle).2.prunedFrom mPriv ∧
    (ContactManager.contactsForHandles conn handles features mPriv).2.prunedFrom mPriv ∧
    (ContactManager.notify mPriv ev).sameBindings mPriv ∧
    (ContactManager.onAvatarRetrieved env conn files handle token data mimeType
      mPriv).2.sameBindings mPriv :=
  ⟨ContactManager.requestContactAvatar_contacts env conn files contact mPriv, rfl,
    ContactManager.lookupContactByHandle_contacts mPriv handle,
    ContactManager.lookupContactByHandle_prunedFrom mPriv handle,
    ContactManager.contactsForHandles_prunedFrom conn handles features mPriv,
    ContactManager.notify_sameBindings mPriv ev,
    by
      rw [ContactManager.onAvatarRetrieved_snd]
      exact ContactManager.deliver_sameBindings mPriv handle _⟩

/-- On an empty cache `ensureContact(4, ...)` binds the handle 4 to the contact the factory
constructs. -/
theorem ContactManager.ensureContact_binds_example :
    (ContactManager.ensureContact plainFactory uniteAugment
      (ContactManager.Private.new false) 4 [Feature.FeatureAlias] []).2.contacts =
      [(4, some { handle := 4, requestedFeatures := [Feature.FeatureAlias] })] := by
  decide

/-! ## No queued avatar request is stranded -/

theorem ContactManager.Private.cacheOnly_batcher (p q : ContactManager.Private)
    (h : p.cacheOnly q) :
    q.requestAvatarsQueue = p.requestAvatarsQueue ∧
    q.requestAvatarsIdle = p.requestAvatarsIdle ∧
    q.flushTimers = p.flushTimers ∧
    q.requestAvatarsCalls = p.requestAvatarsCalls := by
  unfold ContactManager.Private.cacheOnly at h
  rw [h]
  exact ⟨rfl, rfl, rfl, rfl⟩

/-- One event keeps the two facts that make up the invariant of the batcher: a non-empty
queue has the flag set, and a set flag has a flush timer pending. -/
theorem ContactManager.managerStep_invariant (env : CacheEnvironment) (conn : Connection)
    (s : ContactManager.Private) (e : ManagerEvent)
    (h1 : s.requestAvatarsQueue ≠ [] → s.requestAvatarsIdle = true)
    (h2 : s.requestAvatarsIdle = true → 0 < s.flushTimers) :
    ((ContactManager.managerStep env conn s e).requestAvatarsQueue ≠ [] →
      (ContactManager.managerStep env conn s e).requestAvatarsIdle = true) ∧
    ((ContactManager.managerStep env conn s e).requestAvatarsIdle = true →
      0 < (ContactManager.managerStep env conn s e).flushTimers) := by
  cases e with
  | avatar a =>
    cases a with
    | request files contact =>
      simp only [ContactManager.managerStep, ContactManager.avatarStep]
      cases hun : ContactManager.avatarUncached env conn files contact with
      | true =>
        rw [ContactManager.requestContactAvatar_uncached env conn files contact s hun]
        refine ⟨fun _ => rfl, fun _ => ?_⟩
        simp only
        cases hi : s.requestAvatarsIdle with
        | true => simpa using h2 hi
        | false => simp
      | false =>
        unfold ContactManager.avatarUncached at hun
        simp only [Bool.not_eq_false', Bool.and_eq_true] at hun
        rw [ContactManager.requestContactAvatar_hit env conn files contact s hun.1 hun.2]
        exact ⟨h1, h2⟩
    | timerFires =>
      simp only [ContactManager.managerStep, ContactManager.avatarStep,
        ContactManager.fireFlushTimer]
      split
      · exact ⟨h1, h2⟩
      · simp [ContactManager.doRequestAvatars]
  | notification ev =>
    obtain ⟨e1, e2, e3, _⟩ := ContactManager.Private.cacheOnly_batcher _ _
      (ContactManager.notify_cacheOnly s ev)
    simp only [ContactManager.managerStep]
    rw [e1, e2, e3]
    exact ⟨h1, h2⟩
  | avatarRetrieved files handle token data mimeType =>
    simp only [ContactManager.managerStep]
    rw [ContactManager.onAvatarRetrieved_snd]
    obtain ⟨e1, e2, e3, _⟩ := ContactManager.Private.cacheOnly_batcher _ _
      (ContactManager.deliver_cacheOnly s handle (fun c =>
        (c.setAvatarToken token).receiveAvatarData
          { fileName :=
              (ContactManager.Private.buildAvatarFileName env conn token true "" "").2.1,
            mimeType := mimeType }))
    rw [e1, e2, e3]
    exact ⟨h1, h2⟩

theorem ContactManager.managerRun_invariant (env : CacheEnvironment) (conn : Connection)
    (events : List ManagerEvent) (s : ContactManager.Private)
    (h1 : s.requestAvatarsQueue ≠ [] → s.requestAvatarsIdle = true)
    (h2 : s.requestAvatarsIdle = true → 0 < s.flushTimers) :
    ((ContactManager.managerRun env conn events s).requestAvatarsQueue ≠ [] →
      (ContactManager.managerRun env conn events s).requestAvatarsIdle = true) ∧
    ((ContactManager.managerRun env conn events s).requestAvatarsIdle = true →
      0 < (ContactManager.managerRun env conn events s).flushTimers) := by
  induction events generalizing s with
  | nil => exact ⟨h1, h2⟩
  | cons e events ih =>
    unfold ContactManager.managerRun
    rw [List.foldl_cons]
    obtain ⟨i1, i2⟩ := ContactManager.managerStep_invariant env conn s e h1 h2
    exact ih _ i1 i2

/-- C28. From any state with an empty avatar queue and a clear flag, after any sequence
of `requestContactAvatar` calls, firings of a pending flush timer (the only runs of
`doRequestAvatars`), change notifications and `AvatarRetrieved` signals: a non-empty
queue has the flag `requestAvatarsIdle` set, a set flag has a flush timer pending, and
the next firing of a timer empties the queue into one batched call that carries every
queued handle. -/
theorem ContactManager.no_request_stranded (env : CacheEnvironment) (conn : Connection)
    (events : List ManagerEvent) (mPriv : ContactManager.Private)
    (hq : mPriv.requestAvatarsQueue = []) (hi : mPriv.requestAvatarsIdle = false) :
    ((ContactManager.managerRun env conn events mPriv).requestAvatarsQueue ≠ [] →
      (ContactManager.managerRun env conn events mPriv).requestAvatarsIdle = true) ∧
    ((ContactManager.managerRun env conn events mPriv).requestAvatarsIdle = true →
      0 < (ContactManager.managerRun env conn events mPriv).flushTimers) ∧
    (ContactManager.fireFlushTimer
      (ContactManager.managerRun env conn events mPriv)).requestAvatarsQueue = [] ∧
    ((ContactManager.managerRun env conn events mPriv).requestAvatarsQueue ≠ [] →
      (ContactManager.fireFlushTimer
        (ContactManager.managerRun env conn events mPriv)).requestAvatarsCalls =
        (ContactManager.managerRun env conn events mPriv).requestAvatarsCalls ++
          [(ContactManager.managerRun env conn events mPriv).requestAvatarsQueue]) := by
  obtain ⟨i1, i2⟩ := ContactManager.managerRun_invariant env conn events mPriv
    (fun h => absurd hq h) (fun h => by rw [hi] at h; cases h)
  refine ⟨i1, i2, ?_, ?_⟩
  · unfold ContactManager.fireFlushTimer
    split
    · rename_i h0
      by_contra hne
      have := i2 (i1 hne)
      omega
    · rfl
  · intro hne
    have hpos := i2 (i1 hne)
    unfold ContactManager.fireFlushTimer
    rw [if_neg (by omega)]
    rfl

/-- A fresh manager whose flag holds false, then: a request for the contact of handle 5,
an avatar-token notification for 5, a presence notification, a request for the contact of
handle 6.  The queue holds 5 and 6, the flag is set, one timer is pending, and its firing
issues the call for 5 and 6. -/
theorem ContactManager.no_request_stranded_witness :
    (ContactManager.Private.new false).requestAvatarsQueue = [] ∧
    (ContactManager.Private.new false).requestAvatarsIdle = false ∧
    (ContactManager.managerRun homeEnvironment jabberConnection
      [ManagerEvent.avatar (AvatarEvent.request [] { handle := 5, requestedFeatures := [] }),
        ManagerEvent.notification (ChangeNotification.AvatarUpdated 5 "tok"),
        ManagerEvent.notification (ChangeNotification.PresencesChanged []),
        ManagerEvent.avatar (AvatarEvent.request [] { handle := 6, requestedFeatures := [] })]
      (ContactManager.Private.new false)).requestAvatarsQueue = [5, 6] ∧
    (ContactManager.fireFlushTimer
      (ContactManager.managerRun homeEnvironment jabberConnection
        [ManagerEvent.avatar (AvatarEvent.request [] { handle := 5, requestedFeatures := [] }),
          ManagerEvent.notification (ChangeNotification.AvatarUpdated 5 "tok"),
          ManagerEvent.notification (ChangeNotification.PresencesChanged []),
          ManagerEvent.avatar (AvatarEvent.request [] { handle := 6, requestedFeatures := [] })]
        (ContactManager.Private.new false))).requestAvatarsCalls =
      (ContactManager.managerRun homeEnvironment jabberConnection
        [ManagerEvent.avatar (AvatarEvent.request [] { handle := 5, requestedFeatures := [] }),
          ManagerEvent.notification (ChangeNotification.AvatarUpdated 5 "tok"),
          ManagerEvent.notification (ChangeNotification.PresencesChanged []),
          ManagerEvent.avatar (AvatarEvent.request [] { handle := 6, requestedFeatures := [] })]
        (ContactManager.Private.new false)).requestAvatarsCalls ++
        [(ContactManager.managerRun homeEnvironment jabberConnection
          [ManagerEvent.avatar (AvatarEvent.request [] { handle := 5, requestedFeatures := [] }),
            ManagerEvent.notification (ChangeNotification.AvatarUpdated 5 "tok"),
            ManagerEvent.notification (ChangeNotification.PresencesChanged []),
            ManagerEvent.avatar (AvatarEvent.request [] { handle := 6, requestedFeatures := [] })]
          (ContactManager.Private.new false)).requestAvatarsQueue] :=
  ⟨rfl, rfl, by decide,
    (ContactManager.no_request_stranded homeEnvironment jabberConnection
      [ManagerEvent.avatar (AvatarEvent.request [] { handle := 5, requestedFeatures := [] }),
        ManagerEvent.notification (ChangeNotification.AvatarUpdated 5 "tok"),
        ManagerEvent.notification (ChangeNotification.PresencesChanged []),
        ManagerEvent.avatar (AvatarEvent.request [] { handle := 6, requestedFeatures := [] })]
      (ContactManager.Private.new false) rfl rfl).2.2.2 (by decide)⟩

end Tp
